import Mathlib

/-!
# Octave `libinterp/corefcn/variables.cc`: symbol existence and internal variables

A shallow embedding of `symbol_exist`, `exist`, the overloads of
`set_internal_variable` and `clear`, followed by theorems about them.

The interpreter objects that `variables.cc` only uses through their interface
(`octave_value`, the symbol table and scope, the load path, `file_stat`, the call
stack) are declared in other files; they appear here as records holding the answers
of the member functions that `variables.cc` calls.  `std::string` is `String`.
-/

namespace Octave

/-! ## Values -/

/-- The answers of an `octave_value` (ov.h) to the member functions used in
`variables.cc`.  The `x..._value` extractors raise an error when the value has
the wrong type; that is `none` here. -/
structure octave_value where
  is_defined : Bool
  is_constant : Bool
  isobject : Bool
  is_function_handle : Bool
  is_anonymous_function : Bool
  is_inline_function : Bool
  is_string : Bool
  string_value : String
  xstring_value : Option String
  xint_value : Option Int
  xbool_value : Option Bool
  xscalar_value : Option Float
deriving Repr

/-- The default-constructed `octave_value ()`: an undefined value. -/
def octave_value.undefined : octave_value :=
  ⟨false, false, false, false, false, false, false, "", none, none, none, none⟩

/-! ## The interpreter as seen by `symbol_exist` -/

/-- A `symbol_scope` (symscope.h): `varval` gives the value bound to a name, an
undefined value when there is none. -/
structure symbol_scope where
  varval : String → octave_value

/-- An `octave::sys::file_stat` (file-stat.h): `ok` is its conversion to `bool`
(the file exists and could be examined). -/
structure file_stat where
  ok : Bool
  is_dir : Bool
deriving DecidableEq, Repr

/-- The parts of the interpreter that `symbol_exist` reads. -/
structure interpreter where
  /-- The function `octave::iskeyword` (lex.h). -/
  iskeyword : String → Bool
  /-- The scope `symtab.current_scope ()`; `none` is a scope that converts to `false`. -/
  current_scope : Option symbol_scope
  /-- The member function `symtab.find_cmdline_function`. -/
  find_cmdline_function : String → octave_value
  /-- The function `octave::lookup_autoload`. -/
  lookup_autoload : String → String
  /-- The member function `find_fcn` of `interp.get_load_path ()`. -/
  find_fcn : String → String
  /-- The function `octave::file_in_path (name, suffix)`. -/
  file_in_path : String → String → String
  /-- Construction of an `octave::sys::file_stat` for a path. -/
  stat : String → file_stat
  /-- The member function `symtab.is_built_in_function_name`. -/
  is_built_in_function_name : String → Bool

/-- A call that `symbol_exist` makes to one of its collaborators. -/
inductive probe where
  | current_scope
  | varval (name : String)
  | find_cmdline_function (name : String)
  | lookup_autoload (name : String)
  | find_fcn (name : String)
  | file_in_path (name : String) (suffix : String)
  | stat (file_name : String)
  | is_built_in_function_name (name : String)
deriving DecidableEq, Repr

/-- What one block of `symbol_exist` did: the collaborator calls it made, and the
code it returned when it reached a `return` statement. -/
structure block where
  consulted : List probe
  returned : Option Nat
deriving DecidableEq, Repr

/-- A block that is not entered. -/
def block.skipped : block := ⟨[], none⟩

/-- Sequencing: a block followed by the rest of the function body. -/
def block.next (b : block) (rest : List probe × Nat) : List probe × Nat :=
  match b.returned with
  | some code => (b.consulted, code)
  | none => (b.consulted ++ rest.1, rest.2)

/-- The call `s.substr (pos)`: the characters of `s` from position `pos` to the end.
The tests built on it compare with ASCII text, so counting characters instead of bytes
gives the same answers. -/
def substr (s : String) (pos : Nat) : String :=
  String.mk (s.toList.drop pos)

/-- The test
`len > 4 && (file_name.substr (len-4) == ".oct" || file_name.substr (len-4) == ".mex")`
of lines 274-275 and 298-299. -/
def is_oct_or_mex (file_name : String) : Bool :=
  let len := file_name.length
  decide (len > 4)
    && (substr file_name (len - 4) == ".oct" || substr file_name (len - 4) == ".mex")

/-- Line 233: `scope ? scope.varval (name) : octave_value ()`. -/
def current_varval (interp : interpreter) (name : String) : octave_value :=
  match interp.current_scope with
  | some scope => scope.varval name
  | none => octave_value.undefined

/-- The test of lines 235-238 on the value of a variable. -/
def is_variable_value (val : octave_value) : Bool :=
  val.is_constant || val.isobject
    || val.is_function_handle
    || val.is_anonymous_function
    || val.is_inline_function

/-- The collaborator calls of lines 231-233. -/
def varval_probes (interp : interpreter) (name : String) : List probe :=
  match interp.current_scope with
  | some _ => [probe.current_scope, probe.varval name]
  | none => [probe.current_scope]

/-- Lines 229-243: the variable block, entered when `search_any || search_var`. -/
def var_block (interp : interpreter) (name : String) (search_var : Bool) : block :=
  let val := current_varval interp name
  if is_variable_value val then
    ⟨varval_probes interp name, some 1⟩
  else if search_var then
    ⟨varval_probes interp name, some 0⟩
  else
    ⟨varval_probes interp name, none⟩

/-- Lines 249-255: the command-line function block, entered when `search_any`. -/
def cmdline_block (interp : interpreter) (name : String) : block :=
  let val := interp.find_cmdline_function name
  if val.is_defined then
    ⟨[probe.find_cmdline_function name], some 103⟩
  else
    ⟨[probe.find_cmdline_function name], none⟩

/-- Lines 259-266: the autoload lookup, then the load path when it gave nothing. -/
def fcn_file_lookup (interp : interpreter) (name : String) : List probe × String :=
  let file_name := interp.lookup_autoload name
  if file_name.isEmpty then
    ([probe.lookup_autoload name, probe.find_fcn name], interp.find_fcn name)
  else
    ([probe.lookup_autoload name], file_name)

/-- Lines 282-309: the file-system probe that ends the file block. -/
def file_probe (interp : interpreter) (name : String)
    (search_any search_dir search_file : Bool) : block :=
  let file_name0 := interp.file_in_path name ""
  let file_name := if file_name0.isEmpty then name else file_name0
  let consulted := [probe.file_in_path name "", probe.stat file_name]
  let fs := interp.stat file_name
  let after : block :=
    if search_file || search_dir then ⟨consulted, some 0⟩ else ⟨consulted, none⟩
  if fs.ok then
    if search_any || search_file then
      if fs.is_dir then
        ⟨consulted, some 7⟩
      else if is_oct_or_mex file_name then
        ⟨consulted, some 3⟩
      else
        ⟨consulted, some 2⟩
    else if search_dir && fs.is_dir then
      ⟨consulted, some 7⟩
    else
      after
  else
    after

/-- Lines 257-310: the file block, entered when
`search_any || search_file || search_dir`. -/
def file_block (interp : interpreter) (name : String)
    (search_any search_dir search_file : Bool) : block :=
  let found := fcn_file_lookup interp name
  let file_name := found.2
  let len := file_name.length
  let p := file_probe interp name search_any search_dir search_file
  if len > 0 then
    if search_any || search_file then
      if is_oct_or_mex file_name then
        ⟨found.1, some 3⟩
      else
        ⟨found.1, some 2⟩
    else
      ⟨found.1 ++ p.consulted, p.returned⟩
  else
    ⟨found.1 ++ p.consulted, p.returned⟩

/-- Lines 312-319: the built-in block, entered when `search_any || search_builtin`. -/
def builtin_block (interp : interpreter) (name : String) (search_builtin : Bool) : block :=
  if interp.is_built_in_function_name name then
    ⟨[probe.is_built_in_function_name name], some 5⟩
  else if search_builtin then
    ⟨[probe.is_built_in_function_name name], some 0⟩
  else
    ⟨[probe.is_built_in_function_name name], none⟩

/-- The result of a call of `symbol_exist`: the collaborator calls made, in order,
and either the returned code or the message of the error raised. -/
structure outcome where
  consulted : List probe
  result : Except String Nat

/-- The message of `error (R"(exist: unrecognized type argument "%s")", type.c_str ())`. -/
def unrecognized_type (type : String) : String :=
  "exist: unrecognized type argument \"" ++ type ++ "\""

/-- The function `symbol_exist (interp, name, type)` of lines 209-322. -/
def symbol_exist (interp : interpreter) (name : String) (type : String := "any") : outcome :=
  if interp.iskeyword name then
    ⟨[], Except.ok 0⟩
  else
    let search_any := type == "any"
    let search_var := type == "var"
    let search_dir := type == "dir"
    let search_file := type == "file"
    let search_builtin := type == "builtin"
    let search_class := type == "class"
    if !(search_any || search_var || search_dir || search_file
          || search_builtin || search_class) then
      ⟨[], Except.error (unrecognized_type type)⟩
    else
      let r :=
        (if search_any || search_var then var_block interp name search_var
          else block.skipped).next <|
        (if search_any then cmdline_block interp name
          else block.skipped).next <|
        (if search_any || search_file || search_dir then
            file_block interp name search_any search_dir search_file
          else block.skipped).next <|
        (if search_any || search_builtin then builtin_block interp name search_builtin
          else block.skipped).next ([], 0)
      ⟨r.1, Except.ok r.2⟩

/-- The value of a string argument such as `"sin"` in `exist ("sin")`. -/
def octave_value.of_string (s : String) : octave_value :=
  ⟨true, true, false, false, false, false, true, s, some s, none, none, none⟩

/-- The value of a real scalar argument holding the integer `i`, such as `3`. -/
def octave_value.of_int (i : Int) : octave_value :=
  ⟨true, true, false, false, false, false, false, "", none, some i, some (i != 0),
    some (Float.ofInt i)⟩

/-- The error raised by `print_usage ()` inside the function `fcn`. -/
def print_usage (fcn : String) : String :=
  "Invalid call to " ++ fcn

/-- The result of a call of the built-in `exist`: the warnings issued and the
outcome of `symbol_exist` (or of the argument checks before it). -/
structure exist_outcome where
  warnings : List String
  run : outcome

/-- The interpreter function `exist (name)`, `exist (name, type)` of lines 433-452. -/
def Fexist (interp : interpreter) (args : List octave_value) : exist_outcome :=
  let nargin := args.length
  if nargin < 1 || nargin > 2 then
    ⟨[], ⟨[], Except.error (print_usage "exist")⟩⟩
  else
    match args with
    | [] => ⟨[], ⟨[], Except.error (print_usage "exist")⟩⟩
    | arg0 :: rest =>
      match arg0.xstring_value with
      | none => ⟨[], ⟨[], Except.error "exist: NAME must be a string"⟩⟩
      | some name =>
        match rest with
        | arg1 :: _ =>
          match arg1.xstring_value with
          | none => ⟨[], ⟨[], Except.error "exist: TYPE must be a string"⟩⟩
          | some type =>
            if type == "class" then
              ⟨["exist: \"class\" type argument is not implemented"],
                symbol_exist interp name type⟩
            else
              ⟨[], symbol_exist interp name type⟩
        | [] => ⟨[], symbol_exist interp name⟩

/-! ## The `"any"` query as an ordered list of stages -/

/-- The file name that the autoload lookup, else the load path, gives for `name`
(empty when neither knows the name). -/
def fcn_file_name (interp : interpreter) (name : String) : String :=
  if interp.lookup_autoload name = "" then interp.find_fcn name
  else interp.lookup_autoload name

/-- The path examined by the file-system probe: `file_in_path (name, "")`, or `name`
itself when that is empty. -/
def probed_path (interp : interpreter) (name : String) : String :=
  if interp.file_in_path name "" = "" then name else interp.file_in_path name ""

/-- The ordered stages of the `"any"` query as the specification lists them: each
stage gives the code of its match, `none` when it does not match. -/
def any_stages (interp : interpreter) (name : String) : List (Option Nat) :=
  [ if is_variable_value (current_varval interp name) then some 1 else none,
    if (interp.find_cmdline_function name).is_defined then some 103 else none,
    if fcn_file_name interp name ≠ "" then
      some (if is_oct_or_mex (fcn_file_name interp name) then 3 else 2)
    else none,
    if (interp.stat (probed_path interp name)).ok then
      some (if (interp.stat (probed_path interp name)).is_dir then 7
        else if is_oct_or_mex (probed_path interp name) then 3 else 2)
    else none,
    if interp.is_built_in_function_name name then some 5 else none ]

/-- The code of the first stage that matches, 0 when none does. -/
def first_match : List (Option Nat) → Nat
  | [] => 0
  | some code :: _ => code
  | none :: stages => first_match stages

/-! ## Internal variables -/

/-- An internal variable of type `T` together with what a call of
`set_internal_variable` can change besides it: the restoration records that
`protect_var` pushed for this variable on the unwind-protect frame of the current
function (most recent first; `none` when `curr_fcn_unwind_protect_frame ()` is null,
that is outside any function), and the warnings issued so far. -/
structure internal_variable (T : Type) where
  var : T
  frame : Option (List T)
  warnings : List String
deriving DecidableEq, Repr

/-- The effect of a call: the state it leaves, also when it raised an error, and the
returned value or the message of the error. -/
structure call_result (T R : Type) where
  state : internal_variable T
  result : Except String R

/-- The message of `error_with_cfn (R"(second argument must be "local")")`. -/
def second_argument_error : String :=
  "second argument must be \"local\""

/-- The function `wants_local_change (args, nargin)` of lines 526-541; the second
component of the result is `nargin` after the call. -/
def wants_local_change (args : List octave_value) (nargin : Nat) :
    Except String (Bool × Nat) :=
  if nargin == 2 then
    let arg1 := args.getD 1 octave_value.undefined
    if !arg1.is_string || arg1.string_value != "local" then
      Except.error second_argument_error
    else
      Except.ok (true, 1)
  else
    Except.ok (false, nargin)

/-- The function template `try_local_protect (var)` of lines 552-565. -/
def try_local_protect {T : Type} (st : internal_variable T) : internal_variable T × Bool :=
  match st.frame with
  | some saved => ({ st with frame := some (st.var :: saved) }, true)
  | none => (st, false)

/-- The message of `warning (R"("local" has no effect outside a function)")`. -/
def local_no_effect : String :=
  "\"local\" has no effect outside a function"

/-- Lines 652-656 (the same in every overload): the `if (wants_local_change ...)`
statement once `wants_local_change` has returned `is_local`. -/
def local_protect_or_warn {T : Type} (st : internal_variable T) (is_local : Bool) :
    internal_variable T :=
  if is_local then
    let r := try_local_protect st
    if !r.2 then
      { r.1 with warnings := r.1.warnings ++ [local_no_effect] }
    else
      r.1
  else
    st

/-- The overload `set_internal_variable (int& var, args, nargout, nm, minval, maxval)`
of lines 640-674.  The returned `octave_value` is `some var` or, when `retval` was
not assigned, `none`. -/
def set_internal_variable_int (st : internal_variable Int) (args : List octave_value)
    (nargout : Int) (nm : String) (minval maxval : Int) : call_result Int (Option Int) :=
  let nargin := args.length
  let retval : Option Int := if nargout > 0 || nargin == 0 then some st.var else none
  match wants_local_change args nargin with
  | Except.error msg => ⟨st, Except.error msg⟩
  | Except.ok (is_local, nargin) =>
    let st := local_protect_or_warn st is_local
    if nargin > 1 then
      ⟨st, Except.error (print_usage nm)⟩
    else if nargin == 1 then
      match (args.getD 0 octave_value.undefined).xint_value with
      | none => ⟨st, Except.error (nm ++ ": argument must be an integer value")⟩
      | some ival =>
        if ival < minval then
          ⟨st, Except.error (nm ++ ": arg must be greater than " ++ toString minval)⟩
        else if ival > maxval then
          ⟨st, Except.error
            (nm ++ ": arg must be less than or equal to " ++ toString maxval)⟩
        else
          ⟨{ st with var := ival }, Except.ok retval⟩
    else
      ⟨st, Except.ok retval⟩

/-- The overload `set_internal_variable (bool& var, args, nargout, nm)` of
lines 567-595. -/
def set_internal_variable_bool (st : internal_variable Bool) (args : List octave_value)
    (nargout : Int) (nm : String) : call_result Bool (Option Bool) :=
  let nargin := args.length
  let retval : Option Bool := if nargout > 0 || nargin == 0 then some st.var else none
  match wants_local_change args nargin with
  | Except.error msg => ⟨st, Except.error msg⟩
  | Except.ok (is_local, nargin) =>
    let st := local_protect_or_warn st is_local
    if nargin > 1 then
      ⟨st, Except.error (print_usage nm)⟩
    else if nargin == 1 then
      match (args.getD 0 octave_value.undefined).xbool_value with
      | none => ⟨st, Except.error (nm ++ ": argument must be a logical value")⟩
      | some bval => ⟨{ st with var := bval }, Except.ok retval⟩
    else
      ⟨st, Except.ok retval⟩

/-- The overload `set_internal_variable (char& var, args, nargout, nm)` of
lines 597-638.  The `switch` is on `sval.length ()`, the number of bytes of the
string. -/
def set_internal_variable_char (st : internal_variable Char) (args : List octave_value)
    (nargout : Int) (nm : String) : call_result Char (Option Char) :=
  let nargin := args.length
  let retval : Option Char := if nargout > 0 || nargin == 0 then some st.var else none
  match wants_local_change args nargin with
  | Except.error msg => ⟨st, Except.error msg⟩
  | Except.ok (is_local, nargin) =>
    let st := local_protect_or_warn st is_local
    if nargin > 1 then
      ⟨st, Except.error (print_usage nm)⟩
    else if nargin == 1 then
      match (args.getD 0 octave_value.undefined).xstring_value with
      | none => ⟨st, Except.error (nm ++ ": argument must be a single character")⟩
      | some sval =>
        match sval.utf8ByteSize with
        | 1 => ⟨{ st with var := sval.get 0 }, Except.ok retval⟩
        | 0 => ⟨{ st with var := Char.ofNat 0 }, Except.ok retval⟩
        | _ => ⟨st, Except.error (nm ++ ": argument must be a single character")⟩
    else
      ⟨st, Except.ok retval⟩

/-- The overload `set_internal_variable (double& var, args, nargout, nm, minval, maxval)`
of lines 676-710.  The function `format_g` gives the text that the conversion `%g` of the
C library prints for a `double`. -/
def set_internal_variable_double (format_g : Float → String) (st : internal_variable Float)
    (args : List octave_value) (nargout : Int) (nm : String) (minval maxval : Float) :
    call_result Float (Option Float) :=
  let nargin := args.length
  let retval : Option Float := if nargout > 0 || nargin == 0 then some st.var else none
  match wants_local_change args nargin with
  | Except.error msg => ⟨st, Except.error msg⟩
  | Except.ok (is_local, nargin) =>
    let st := local_protect_or_warn st is_local
    if nargin > 1 then
      ⟨st, Except.error (print_usage nm)⟩
    else if nargin == 1 then
      match (args.getD 0 octave_value.undefined).xscalar_value with
      | none => ⟨st, Except.error (nm ++ ": argument must be a scalar value")⟩
      | some dval =>
        if dval < minval then
          ⟨st, Except.error (nm ++ ": argument must be greater than " ++ format_g minval)⟩
        else if dval > maxval then
          ⟨st, Except.error
            (nm ++ ": argument must be less than or equal to " ++ format_g maxval)⟩
        else
          ⟨{ st with var := dval }, Except.ok retval⟩
    else
      ⟨st, Except.ok retval⟩

/-- The overload `set_internal_variable (std::string& var, args, nargout, nm, empty_ok)`
of lines 712-743. -/
def set_internal_variable_string (st : internal_variable String) (args : List octave_value)
    (nargout : Int) (nm : String) (empty_ok : Bool) :
    call_result String (Option String) :=
  let nargin := args.length
  let retval : Option String := if nargout > 0 || nargin == 0 then some st.var else none
  match wants_local_change args nargin with
  | Except.error msg => ⟨st, Except.error msg⟩
  | Except.ok (is_local, nargin) =>
    let st := local_protect_or_warn st is_local
    if nargin > 1 then
      ⟨st, Except.error (print_usage nm)⟩
    else if nargin == 1 then
      match (args.getD 0 octave_value.undefined).xstring_value with
      | none => ⟨st, Except.error (nm ++ ": first argument must be a string")⟩
      | some sval =>
        if !empty_ok && sval.isEmpty then
          ⟨st, Except.error (nm ++ ": value must not be empty")⟩
        else
          ⟨{ st with var := sval }, Except.ok retval⟩
    else
      ⟨st, Except.ok retval⟩

/-- The loop `for (; i < nchoices; i++)` of lines 775-782 and 818-825, started at `i`
on the choices from position `i` on: the value of `i` when the loop is left, which
is the position of the first choice equal to `sval`, or `nchoices` when there is
none. -/
def choice_loop (sval : String) : List String → Nat → Nat
  | [], i => i
  | choice :: rest, i => if sval == choice then i else choice_loop sval rest (i + 1)

/-- The message of `error (R"(%s: value not allowed ("%s"))", nm, sval.c_str ())`. -/
def value_not_allowed (nm sval : String) : String :=
  nm ++ ": value not allowed (\"" ++ sval ++ "\")"

/-- The overload `set_internal_variable (int& var, args, nargout, nm, choices)` of
lines 745-788; `choices` lists the entries of the array before its null terminator.
A failing `assert (var < nchoices)` aborts, which is an error result here.  For
`var < 0` the expression `choices[var]` reads outside the array; the C++ code has no
defined result there and the embedding raises an error. -/
def set_internal_variable_choice_index (st : internal_variable Int)
    (args : List octave_value) (nargout : Int) (nm : String) (choices : List String) :
    call_result Int (Option String) :=
  let nchoices := choices.length
  let nargin := args.length
  if !(st.var < nchoices) then
    ⟨st, Except.error "assertion failed: var < nchoices"⟩
  else if (nargout > 0 || nargin == 0) && st.var < 0 then
    ⟨st, Except.error "choices[var]: index outside the array"⟩
  else
    let retval : Option String :=
      if nargout > 0 || nargin == 0 then some (choices.getD st.var.toNat "") else none
    match wants_local_change args nargin with
    | Except.error msg => ⟨st, Except.error msg⟩
    | Except.ok (is_local, nargin) =>
      let st := local_protect_or_warn st is_local
      if nargin > 1 then
        ⟨st, Except.error (print_usage nm)⟩
      else if nargin == 1 then
        match (args.getD 0 octave_value.undefined).xstring_value with
        | none => ⟨st, Except.error (nm ++ ": first argument must be a string")⟩
        | some sval =>
          let i := choice_loop sval choices 0
          if i == nchoices then
            ⟨st, Except.error (value_not_allowed nm sval)⟩
          else
            ⟨{ st with var := i }, Except.ok retval⟩
      else
        ⟨st, Except.ok retval⟩

/-- The overload `set_internal_variable (std::string& var, args, nargout, nm, choices)`
of lines 790-831. -/
def set_internal_variable_choice_string (st : internal_variable String)
    (args : List octave_value) (nargout : Int) (nm : String) (choices : List String) :
    call_result String (Option String) :=
  let nchoices := choices.length
  let nargin := args.length
  let retval : Option String := if nargout > 0 || nargin == 0 then some st.var else none
  match wants_local_change args nargin with
  | Except.error msg => ⟨st, Except.error msg⟩
  | Except.ok (is_local, nargin) =>
    let st := local_protect_or_warn st is_local
    if nargin > 1 then
      ⟨st, Except.error (print_usage nm)⟩
    else if nargin == 1 then
      match (args.getD 0 octave_value.undefined).xstring_value with
      | none => ⟨st, Except.error (nm ++ ": first argument must be a string")⟩
      | some sval =>
        let i := choice_loop sval choices 0
        if i == nchoices then
          ⟨st, Except.error (value_not_allowed nm sval)⟩
        else
          ⟨{ st with var := sval }, Except.ok retval⟩
    else
      ⟨st, Except.ok retval⟩

/-- An `int` variable holding 10 at top level, outside any function. -/
def top_level_variable : internal_variable Int :=
  ⟨10, none, []⟩

/-- An `int` variable holding 10 inside a function whose frame has no record yet. -/
def in_function_variable : internal_variable Int :=
  ⟨10, some [], []⟩

/-! ## The common shape of the overloads and the properties stated of each of them -/

/-- The body that the overloads of `set_internal_variable` share, with the two parts
that differ from one overload to the next as parameters: `shown` gives the value
assigned to `retval` for a variable, and `convert` extracts and checks the value
argument. -/
def set_internal_variable_shape {T R : Type} (shown : T → R)
    (convert : octave_value → Except String T)
    (st : internal_variable T) (args : List octave_value) (nargout : Int) (nm : String) :
    call_result T (Option R) :=
  let nargin := args.length
  let retval : Option R := if nargout > 0 || nargin == 0 then some (shown st.var) else none
  match wants_local_change args nargin with
  | Except.error msg => ⟨st, Except.error msg⟩
  | Except.ok (is_local, nargin) =>
    let st := local_protect_or_warn st is_local
    if nargin > 1 then
      ⟨st, Except.error (print_usage nm)⟩
    else if nargin == 1 then
      match convert (args.getD 0 octave_value.undefined) with
      | Except.error msg => ⟨st, Except.error msg⟩
      | Except.ok v => ⟨{ st with var := v }, Except.ok retval⟩
    else
      ⟨st, Except.ok retval⟩

/-- The value part of the `bool` overload (lines 589-591). -/
def convert_bool (nm : String) (arg : octave_value) : Except String Bool :=
  match arg.xbool_value with
  | none => Except.error (nm ++ ": argument must be a logical value")
  | some bval => Except.ok bval

/-- The value part of the `char` overload (lines 619-634). -/
def convert_char (nm : String) (arg : octave_value) : Except String Char :=
  match arg.xstring_value with
  | none => Except.error (nm ++ ": argument must be a single character")
  | some sval =>
    match sval.utf8ByteSize with
    | 1 => Except.ok (sval.get 0)
    | 0 => Except.ok (Char.ofNat 0)
    | _ => Except.error (nm ++ ": argument must be a single character")

/-- The value part of the bounded `int` overload (lines 663-670). -/
def convert_int (nm : String) (minval maxval : Int) (arg : octave_value) :
    Except String Int :=
  match arg.xint_value with
  | none => Except.error (nm ++ ": argument must be an integer value")
  | some ival =>
    if ival < minval then
      Except.error (nm ++ ": arg must be greater than " ++ toString minval)
    else if ival > maxval then
      Except.error (nm ++ ": arg must be less than or equal to " ++ toString maxval)
    else
      Except.ok ival

/-- The value part of the bounded `double` overload (lines 699-706), with the text
`format_g` of `%g`. -/
def convert_double (format_g : Float → String) (nm : String) (minval maxval : Float)
    (arg : octave_value) : Except String Float :=
  match arg.xscalar_value with
  | none => Except.error (nm ++ ": argument must be a scalar value")
  | some dval =>
    if dval < minval then
      Except.error (nm ++ ": argument must be greater than " ++ format_g minval)
    else if dval > maxval then
      Except.error (nm ++ ": argument must be less than or equal to " ++ format_g maxval)
    else
      Except.ok dval

/-- The value part of the `std::string` overload with `empty_ok` (lines 734-739). -/
def convert_string (nm : String) (empty_ok : Bool) (arg : octave_value) :
    Except String String :=
  match arg.xstring_value with
  | none => Except.error (nm ++ ": first argument must be a string")
  | some sval =>
    if !empty_ok && sval.isEmpty then
      Except.error (nm ++ ": value must not be empty")
    else
      Except.ok sval

/-- The value part of the choice-index overload (lines 772-784). -/
def convert_choice_index (nm : String) (choices : List String) (arg : octave_value) :
    Except String Int :=
  match arg.xstring_value with
  | none => Except.error (nm ++ ": first argument must be a string")
  | some sval =>
    if choice_loop sval choices 0 == choices.length then
      Except.error (value_not_allowed nm sval)
    else
      Except.ok (choice_loop sval choices 0 : Nat)

/-- The value part of the choice-string overload (lines 815-827). -/
def convert_choice_string (nm : String) (choices : List String) (arg : octave_value) :
    Except String String :=
  match arg.xstring_value with
  | none => Except.error (nm ++ ": first argument must be a string")
  | some sval =>
    if choice_loop sval choices 0 == choices.length then
      Except.error (value_not_allowed nm sval)
    else
      Except.ok sval

/-- An overload with its kind-specific parameters (bounds, `empty_ok`, choices) fixed. -/
abbrev setter (T R : Type) : Type :=
  internal_variable T → List octave_value → Int → String → call_result T R

/-- A failed call leaves the variable with the value it had before the call. -/
def failure_keeps_value {T R : Type} (call : setter T R) : Prop :=
  ∀ (st : internal_variable T) (args : List octave_value) (nargout : Int) (nm msg : String),
    (call st args nargout nm).result = Except.error msg →
      (call st args nargout nm).state.var = st.var

/-- A successful call with `nargout > 0` or with no argument returns the value that
the variable had before the call, shown by `shown`. -/
def success_returns_old_value {T R : Type} (shown : T → R) (call : setter T (Option R)) :
    Prop :=
  ∀ (st : internal_variable T) (args : List octave_value) (nargout : Int) (nm : String)
    (retval : Option R),
    (call st args nargout nm).result = Except.ok retval →
      (nargout > 0 ∨ args = []) → retval = some (shown st.var)

/-- A call with no argument succeeds, returns the shown value of the variable and
changes nothing. -/
def query_changes_nothing {T R : Type} (shown : T → R) (call : setter T (Option R)) :
    Prop :=
  ∀ (st : internal_variable T) (nargout : Int) (nm : String),
    (call st [] nargout nm).state = st
      ∧ (call st [] nargout nm).result = Except.ok (some (shown st.var))

/-- The value `arg` is the string `"local"`, the test of line 533. -/
def is_local_marker (arg : octave_value) : Prop :=
  arg.is_string = true ∧ arg.string_value = "local"

/-- More than one value argument is left once a trailing `"local"` is set aside: three
or more arguments, or two of which the second is not the string `"local"`. -/
def more_than_one_value (args : List octave_value) : Prop :=
  3 ≤ args.length
    ∨ (args.length = 2 ∧ ¬ is_local_marker (args.getD 1 octave_value.undefined))

/-- A call with more than one value argument raises an error and pushes no
restoration record. -/
def extra_arguments_fail {T R : Type} (call : setter T R) : Prop :=
  ∀ (st : internal_variable T) (args : List octave_value) (nargout : Int) (nm : String),
    more_than_one_value args →
      (∃ msg, (call st args nargout nm).result = Except.error msg)
        ∧ (call st args nargout nm).state.frame = st.frame

/-- A `bool` variable with the value `x` holds the argument `v`: `x` is the logical value
of `v`. -/
def holds_bool (v : octave_value) (x : Bool) : Prop :=
  v.xbool_value = some x

/-- A `char` variable with the value `x` holds the argument `v`: `v` is a string of one
byte and `x` is its character, or `v` is the empty string and `x` is the null
character. -/
def holds_char (v : octave_value) (x : Char) : Prop :=
  ∃ sval, v.xstring_value = some sval
    ∧ ((sval.utf8ByteSize = 1 ∧ x = sval.get 0)
      ∨ (sval.utf8ByteSize = 0 ∧ x = Char.ofNat 0))

/-- An `int` variable with the value `x` holds the argument `v`: `x` is the integer value
of `v`. -/
def holds_int (v : octave_value) (x : Int) : Prop :=
  v.xint_value = some x

/-- A `double` variable with the value `x` holds the argument `v`: `x` is the scalar value
of `v`. -/
def holds_double (v : octave_value) (x : Float) : Prop :=
  v.xscalar_value = some x

/-- A string variable with the value `x` holds the argument `v`: `x` is the string value
of `v`. -/
def holds_string (v : octave_value) (x : String) : Prop :=
  v.xstring_value = some x

/-- A choice-index variable with the value `x` holds the argument `v`: `v` is a string
and `x` is the position of the first of the choices that is equal to it. -/
def holds_choice_index (choices : List String) (v : octave_value) (x : Int) : Prop :=
  ∃ (sval : String) (i : Nat), v.xstring_value = some sval ∧ x = i
    ∧ choices[i]? = some sval ∧ ∀ j, j < i → choices[j]? ≠ some sval

/-- A choice-string variable with the value `x` holds the argument `v`: `x` is the string
value of `v` and one of the choices. -/
def holds_choice_string (choices : List String) (v : octave_value) (x : String) : Prop :=
  v.xstring_value = some x ∧ x ∈ choices

/-- Outside any function, a call `(v, "local")` with a value `v` that the call `(v)`
accepts: `try_local_protect` returns false without a record, the warning is issued
once, the call returns what the call `(v)` returns, and the variable ends holding `v`
(`holds` says what that means for the type of the variable), as after the call `(v)`. -/
def local_outside_function_is_permanent {T R : Type} (holds : octave_value → T → Prop)
    (call : setter T R) : Prop :=
  ∀ (st : internal_variable T) (v marker : octave_value) (nargout : Int) (nm : String)
    (retval : R),
    st.frame = none → is_local_marker marker →
    (call st [v] nargout nm).result = Except.ok retval →
      try_local_protect st = (st, false)
        ∧ (call st [v, marker] nargout nm).result = Except.ok retval
        ∧ holds v (call st [v, marker] nargout nm).state.var
        ∧ (call st [v, marker] nargout nm).state.var = (call st [v] nargout nm).state.var
        ∧ (call st [v, marker] nargout nm).state.frame = none
        ∧ (call st [v, marker] nargout nm).state.warnings
            = st.warnings ++ [local_no_effect]

/-- Modelled from the spec: the run of the unwind-protect frame of the current
function (class `unwind_protect`, unwind-prot.h, which is not among the sources).
Every outstanding record is popped and applied, most recently pushed first, so the
variable ends with the value of the oldest record; outside a function there is no
frame and nothing happens. -/
def unwind_frame {T : Type} (st : internal_variable T) : internal_variable T :=
  match st.frame with
  | none => st
  | some saved => { st with var := saved.foldl (fun _ record => record) st.var, frame := some [] }

/-- Modelled from the spec: the end of the invocation that owns the frame.  The frame
is run whether the invocation returned or is unwinding with an error (`ended`), and
the error, if any, propagates to the caller. -/
def end_invocation {T R : Type} (st : internal_variable T) (ended : Except String R) :
    call_result T R :=
  ⟨unwind_frame st, ended⟩

/-- Inside a function whose frame holds no record for the variable yet, a call
`(v, "local")` with a value `v` that the call `(v)` accepts sets the variable to `v`
(`holds` says what that means for the type of the variable), as the call `(v)` does,
records the old value on the frame, and the end of the invocation, by return or by
error, puts the old value back. -/
def local_round_trip {T R : Type} (holds : octave_value → T → Prop) (call : setter T R) :
    Prop :=
  ∀ (st : internal_variable T) (v marker : octave_value) (nargout : Int) (nm : String)
    (retval : R),
    st.frame = some [] → is_local_marker marker →
    (call st [v] nargout nm).result = Except.ok retval →
      (call st [v, marker] nargout nm).result = Except.ok retval
        ∧ holds v (call st [v, marker] nargout nm).state.var
        ∧ (call st [v, marker] nargout nm).state.var = (call st [v] nargout nm).state.var
        ∧ (call st [v, marker] nargout nm).state.frame = some [st.var]
        ∧ ∀ ended : Except String Unit,
            (end_invocation (call st [v, marker] nargout nm).state ended).state.var = st.var

/-- The cell invariant of the choice-index overload: `var` is a position of the
array of choices. -/
def valid_choice_index (st : internal_variable Int) (choices : List String) : Prop :=
  0 ≤ st.var ∧ st.var < choices.length

/-- An `int` variable holding 10 inside a function whose frame already holds the
record 7 for it (the variable was 7 when the function set it to 10 with `"local"`). -/
def twice_local_variable : internal_variable Int :=
  ⟨10, some [7], []⟩

/-- A choice-index variable at position 0 of its choices, at top level. -/
def choice_variable : internal_variable Int :=
  ⟨0, none, []⟩

/-- The choices of the examples. -/
def example_choices : List String :=
  ["none", "warning", "error", "warning"]

/-! ## Clearing names -/

/-- The operations that the functions behind `clear` call on the symbol table, on the
current scope and on their other collaborators, as functions on a state `S` of the
interpreter (symtab.h, symscope.h, glob-match.h, lo-regexp.h, ov-class.h and
octave-link.h are not among the sources).  The operations of the scope are those of
`symtab.current_scope ()`, and `has_scope` tells whether that scope converts to
`true`. -/
structure symbol_table_ops (S : Type) where
  has_scope : S → Bool
  is_local_variable : S → String → Bool
  variable_names : S → List String
  clear_variables : S → S
  clear_variable : S → String → S
  clear_variable_pattern : S → String → S
  clear_variable_regexp : S → String → S
  clear_objects : S → S
  global_variable_names : S → List String
  clear_global : S → String → S
  clear_global_pattern : S → String → S
  user_function_names : S → List String
  clear_functions : S → S
  clear_function : S → String → S
  clear_function_pattern : S → String → S
  clear_symbol_pattern : S → String → S
  clear_all : S → S
  clear_exemplar_map : S → S
  clear_workspace : S → S
  /-- The call `glob_match (patstr).match (nm)`. -/
  glob_match : String → String → Bool
  /-- The call `octave::regexp::is_match (patstr, nm)`. -/
  regexp_is_match : String → String → Bool

/-- The function `name_matches_any_pattern (nm, argv, argc, idx, have_regexp)` of
lines 933-966; `pats` lists `argv[idx]`, ..., `argv[argc-1]`. -/
def name_matches_any_pattern {S : Type} (ops : symbol_table_ops S) (nm : String) :
    List String → Bool → Bool
  | [], _ => false
  | patstr :: rest, have_regexp =>
    if !patstr.isEmpty then
      if have_regexp then
        if ops.regexp_is_match patstr nm then true
        else name_matches_any_pattern ops nm rest have_regexp
      else
        if ops.glob_match patstr nm then true
        else name_matches_any_pattern ops nm rest have_regexp
    else
      name_matches_any_pattern ops nm rest have_regexp

/-- The function `maybe_warn_exclusive (exclusive)` of lines 968-973: the warnings it
issues. -/
def maybe_warn_exclusive (exclusive : Bool) : List String :=
  if exclusive then ["clear: ignoring --exclusive option"] else []

/-- The function `do_clear_functions (symtab, argv, argc, idx, exclusive)` of
lines 975-1004; `pats` lists `argv[idx]`, ..., `argv[argc-1]`, so that `idx == argc`
is `pats = []`. -/
def do_clear_functions {S : Type} (ops : symbol_table_ops S) (st : S) (pats : List String)
    (exclusive : Bool) : S :=
  if pats.isEmpty then
    ops.clear_functions st
  else if exclusive then
    (ops.user_function_names st).foldl
      (fun s nm => if !name_matches_any_pattern ops nm pats false then ops.clear_function s nm
        else s) st
  else
    pats.foldl (fun s pat => ops.clear_function_pattern s pat) st

/-- The function `do_clear_globals (symtab, argv, argc, idx, exclusive)` of
lines 1006-1060. -/
def do_clear_globals {S : Type} (ops : symbol_table_ops S) (st : S) (pats : List String)
    (exclusive : Bool) : S :=
  if !ops.has_scope st then
    st
  else if pats.isEmpty then
    (ops.global_variable_names st).foldl
      (fun s name => ops.clear_global (ops.clear_variable s name) name) st
  else if exclusive then
    (ops.global_variable_names st).foldl
      (fun s name =>
        if !name_matches_any_pattern ops name pats false then
          ops.clear_global (ops.clear_variable s name) name
        else s) st
  else
    pats.foldl
      (fun s pattern => ops.clear_global_pattern (ops.clear_variable_pattern s pattern) pattern)
      st

/-- The function `do_clear_variables (symtab, argv, argc, idx, exclusive, have_regexp)`
of lines 1062-1100. -/
def do_clear_variables {S : Type} (ops : symbol_table_ops S) (st : S) (pats : List String)
    (exclusive : Bool) (have_regexp : Bool) : S :=
  if !ops.has_scope st then
    st
  else if pats.isEmpty then
    ops.clear_variables st
  else if exclusive then
    (ops.variable_names st).foldl
      (fun s nm =>
        if !name_matches_any_pattern ops nm pats have_regexp then ops.clear_variable s nm
        else s) st
  else if have_regexp then
    pats.foldl (fun s pat => ops.clear_variable_regexp s pat) st
  else
    pats.foldl (fun s pat => ops.clear_variable_pattern s pat) st

/-- The function `do_clear_symbols (symtab, argv, argc, idx, exclusive)` of
lines 1102-1132. -/
def do_clear_symbols {S : Type} (ops : symbol_table_ops S) (st : S) (pats : List String)
    (exclusive : Bool) : S :=
  if pats.isEmpty then
    if ops.has_scope st then ops.clear_variables st else st
  else if exclusive then
    do_clear_functions ops (do_clear_variables ops st pats exclusive false) pats exclusive
  else
    pats.foldl (fun s pat => ops.clear_symbol_pattern s pat) st

/-- The `for (; idx < argc; idx++)` loop of lines 1145-1178 on the arguments from
`argv[idx]` on.  The flag `stepped` is set when the body has already advanced `idx`
with `++idx` (the `functions` and `global` branches), so that the `idx++` of the loop
passes over the next argument. -/
def matlab_clear_loop {S : Type} (ops : symbol_table_ops S) : Bool → List String → S → S
  | _, [], st => st
  | true, _ :: rest, st => matlab_clear_loop ops false rest st
  | false, arg :: rest, st =>
    if arg == "all" && !ops.is_local_variable st "all" then
      matlab_clear_loop ops false rest (ops.clear_all st)
    else if arg == "functions" && !ops.is_local_variable st "functions" then
      matlab_clear_loop ops true rest (do_clear_functions ops st rest false)
    else if arg == "global" && !ops.is_local_variable st "global" then
      matlab_clear_loop ops true rest (do_clear_globals ops st rest false)
    else if arg == "variables" && !ops.is_local_variable st "variables" then
      matlab_clear_loop ops false rest (ops.clear_variables st)
    else if arg == "classes" && !ops.is_local_variable st "classes" then
      matlab_clear_loop ops false rest
        (ops.clear_all (ops.clear_exemplar_map (ops.clear_objects st)))
    else
      matlab_clear_loop ops false rest (ops.clear_symbol_pattern st arg)

/-- The function `do_matlab_compatible_clear (symtab, argv, argc, idx)` of
lines 1134-1179. -/
def do_matlab_compatible_clear {S : Type} (ops : symbol_table_ops S) (st : S)
    (pats : List String) : S :=
  if !ops.has_scope st then
    st
  else
    matlab_clear_loop ops false pats st

/-- The flags of lines 1281-1288. -/
structure clear_flags where
  clear_all : Bool
  clear_functions : Bool
  clear_globals : Bool
  clear_variables : Bool
  clear_objects : Bool
  exclusive : Bool
  have_regexp : Bool
  have_dash_option : Bool
deriving DecidableEq, Repr

/-- The flags before the option loop: all false. -/
def clear_flags.initial : clear_flags :=
  ⟨false, false, false, false, false, false, false, false⟩

/-- The loop `while (++idx < argc)` of lines 1292-1348 on the arguments not yet
examined: the flags when the loop is left and the arguments from `argv[idx]` on
(none when the loop ran to the end), or the error of `print_usage ()`. -/
def option_loop : List String → clear_flags → Except String (clear_flags × List String)
  | [], flags => Except.ok (flags, [])
  | arg :: rest, flags =>
    if arg == "-all" || arg == "-a" then
      if flags.have_dash_option then Except.error (print_usage "clear")
      else option_loop rest { flags with have_dash_option := true, clear_all := true }
    else if arg == "-exclusive" || arg == "-x" then
      option_loop rest { flags with exclusive := true }
    else if arg == "-functions" || arg == "-f" then
      if flags.have_dash_option then Except.error (print_usage "clear")
      else option_loop rest { flags with have_dash_option := true, clear_functions := true }
    else if arg == "-global" || arg == "-g" then
      if flags.have_dash_option then Except.error (print_usage "clear")
      else option_loop rest { flags with have_dash_option := true, clear_globals := true }
    else if arg == "-variables" || arg == "-v" then
      if flags.have_dash_option then Except.error (print_usage "clear")
      else option_loop rest { flags with have_dash_option := true, clear_variables := true }
    else if arg == "-classes" || arg == "-c" then
      if flags.have_dash_option then Except.error (print_usage "clear")
      else option_loop rest { flags with have_dash_option := true, clear_objects := true }
    else if arg == "-regexp" || arg == "-r" then
      if flags.have_dash_option then Except.error (print_usage "clear")
      else option_loop rest { flags with have_dash_option := true, have_regexp := true }
    else
      Except.ok (flags, arg :: rest)

/-- The effect of a call of `clear`: the state it leaves, the warnings it issued, and
the error it raised if any. -/
structure clear_result (S : Type) where
  state : S
  warnings : List String
  result : Except String Unit

/-- Lines 1350-1393: what `clear` does once the option loop has ended with `flags` and
with `pats` listing `argv[idx]`, ..., `argv[argc-1]`.  The test `++idx < argc` of
line 1360 holds when more than one argument is left. -/
def clear_dispatch {S : Type} (ops : symbol_table_ops S) (st : S) (flags : clear_flags)
    (pats : List String) : clear_result S :=
  if !flags.have_dash_option && !flags.exclusive then
    ⟨do_matlab_compatible_clear ops st pats, [], Except.ok ()⟩
  else if flags.clear_all then
    ⟨ops.clear_all st,
      maybe_warn_exclusive flags.exclusive
        ++ (if 1 < pats.length then ["clear: ignoring extra arguments after -all"] else []),
      Except.ok ()⟩
  else if flags.have_regexp then
    ⟨do_clear_variables ops st pats flags.exclusive true, [], Except.ok ()⟩
  else if flags.clear_functions then
    ⟨do_clear_functions ops st pats flags.exclusive, [], Except.ok ()⟩
  else if flags.clear_globals then
    ⟨do_clear_globals ops st pats flags.exclusive, [], Except.ok ()⟩
  else if flags.clear_variables then
    ⟨do_clear_variables ops st pats flags.exclusive false, [], Except.ok ()⟩
  else if flags.clear_objects then
    ⟨ops.clear_all (ops.clear_exemplar_map
        (if ops.has_scope st then ops.clear_objects st else st)), [], Except.ok ()⟩
  else
    ⟨do_clear_symbols ops st pats flags.exclusive, [], Except.ok ()⟩

/-- The interpreter function `clear` of lines 1264-1397; `args` lists `argv[1]`, ...,
`argv[argc-1]`, the arguments after the command name. -/
def Fclear {S : Type} (ops : symbol_table_ops S) (st : S) (args : List String) :
    clear_result S :=
  if args.isEmpty then
    ⟨ops.clear_workspace (do_clear_variables ops st [] false false), [], Except.ok ()⟩
  else
    match option_loop args clear_flags.initial with
    | Except.error msg => ⟨st, [], Except.error msg⟩
    | Except.ok (flags, pats) => clear_dispatch ops st flags pats

/-! ## Options of `clear` as the documentation lists them -/

/-- The options of which at most one may be given: `-all`, `-functions`, `-global`,
`-variables`, `-classes`, `-regexp` and their short forms. -/
def is_primary_option (arg : String) : Bool :=
  decide (arg ∈ ["-all", "-a", "-functions", "-f", "-global", "-g", "-variables", "-v",
    "-classes", "-c", "-regexp", "-r"])

/-- The option `-exclusive` or `-x`. -/
def is_exclusive_option (arg : String) : Bool :=
  decide (arg ∈ ["-exclusive", "-x"])

/-- The leading run of option tokens of an argument list. -/
def leading_options (args : List String) : List String :=
  args.takeWhile (fun arg => is_primary_option arg || is_exclusive_option arg)

/-! ## A model of the name spaces -/

/-- A variable binding of the current scope, without its value: `is_global` marks a
global alias, `is_object` a value that is a class instance. -/
structure binding where
  name : String
  is_global : Bool
  is_object : Bool
deriving DecidableEq, Repr

/-- An entry of the function table, without the function itself. -/
structure function_entry where
  name : String
  locked : Bool
deriving DecidableEq, Repr

/-- The name spaces that `clear` acts on: the bindings of the current scope (when
there is one), the names of the global namespace and the function table. -/
structure name_spaces where
  scope : Bool
  bindings : List binding
  globals : List String
  functions : List function_entry
deriving DecidableEq, Repr

/-- Modelled from the spec: the operations of the symbol table and of the current
scope (symtab.h and symscope.h are not among the sources), for given pattern
matchers.  Clearing a category removes every entry of it, clearing by pattern removes
the entries whose name matches, locked functions are never removed, `clear_all`
empties the variables, the globals and the unlocked functions, and
`clear_symbol_pattern` clears the matching variables or, when no variable matches,
the matching functions (Programming Note of the doc string of `clear`).  The class
exemplar map and the workspace view of the GUI are outside these name spaces. -/
def name_space_ops (glob regexp : String → String → Bool) : symbol_table_ops name_spaces where
  has_scope := fun s => s.scope
  is_local_variable := fun s name => s.bindings.any (fun b => b.name == name && !b.is_global)
  variable_names := fun s => s.bindings.map (fun b => b.name)
  clear_variables := fun s => { s with bindings := [] }
  clear_variable := fun s name => { s with bindings := s.bindings.filter (fun b => b.name != name) }
  clear_variable_pattern := fun s pat =>
    { s with bindings := s.bindings.filter (fun b => !glob pat b.name) }
  clear_variable_regexp := fun s pat =>
    { s with bindings := s.bindings.filter (fun b => !regexp pat b.name) }
  clear_objects := fun s => { s with bindings := s.bindings.filter (fun b => !b.is_object) }
  global_variable_names := fun s => s.globals
  clear_global := fun s name => { s with globals := s.globals.filter (fun g => g != name) }
  clear_global_pattern := fun s pat => { s with globals := s.globals.filter (fun g => !glob pat g) }
  user_function_names := fun s => s.functions.map (fun f => f.name)
  clear_functions := fun s => { s with functions := s.functions.filter (fun f => f.locked) }
  clear_function := fun s name =>
    { s with functions := s.functions.filter (fun f => f.locked || f.name != name) }
  clear_function_pattern := fun s pat =>
    { s with functions := s.functions.filter (fun f => f.locked || !glob pat f.name) }
  clear_symbol_pattern := fun s pat =>
    if s.bindings.any (fun b => glob pat b.name) then
      { s with bindings := s.bindings.filter (fun b => !glob pat b.name) }
    else
      { s with functions := s.functions.filter (fun f => f.locked || !glob pat f.name) }
  clear_all := fun s =>
    { s with bindings := [], globals := [], functions := s.functions.filter (fun f => f.locked) }
  clear_exemplar_map := fun s => s
  clear_workspace := fun s => s
  glob_match := glob
  regexp_is_match := regexp

/-- Modelled from the spec: glob matching for the patterns of the examples, which are
a literal text or a literal text followed by a final `*` (zero or more characters). -/
def example_glob_chars : List Char → List Char → Bool
  | ['*'], _ => true
  | [], [] => true
  | p :: ps, c :: cs => p == c && example_glob_chars ps cs
  | _, _ => false

/-- The matcher of the examples on strings; it is used for both kinds of pattern. -/
def example_glob (pat nm : String) : Bool :=
  example_glob_chars pat.toList nm.toList

/-- The operations of the examples. -/
def example_ops : symbol_table_ops name_spaces :=
  name_space_ops example_glob example_glob

/-- A scope with the local variables `a1` and `b`, a global `g`, and the functions `f`
and `b`. -/
def example_names : name_spaces :=
  ⟨true, [⟨"a1", false, false⟩, ⟨"b", false, false⟩], ["g"], [⟨"f", false⟩, ⟨"b", false⟩]⟩

/-- The matcher that a pattern goes through: `regexp::is_match` in regular-expression
mode, `glob_match::match` otherwise. -/
def pattern_matches (glob regexp : String → String → Bool) (have_regexp : Bool)
    (pat nm : String) : Bool :=
  if have_regexp then regexp pat nm else glob pat nm

/-- The names of the variables of `before` that are no longer bound in `after`. -/
def removed_names (before after : name_spaces) : List String :=
  (before.bindings.map (fun b => b.name)).filter
    (fun name => !(after.bindings.map (fun b => b.name)).contains name)

/-- Every operation of `ops` that changes the state keeps the property `P`. -/
def operations_keep {S : Type} (ops : symbol_table_ops S) (P : S → Prop) : Prop :=
  (∀ s, P s → P (ops.clear_variables s))
    ∧ (∀ s name, P s → P (ops.clear_variable s name))
    ∧ (∀ s pat, P s → P (ops.clear_variable_pattern s pat))
    ∧ (∀ s pat, P s → P (ops.clear_variable_regexp s pat))
    ∧ (∀ s, P s → P (ops.clear_objects s))
    ∧ (∀ s name, P s → P (ops.clear_global s name))
    ∧ (∀ s pat, P s → P (ops.clear_global_pattern s pat))
    ∧ (∀ s, P s → P (ops.clear_functions s))
    ∧ (∀ s name, P s → P (ops.clear_function s name))
    ∧ (∀ s pat, P s → P (ops.clear_function_pattern s pat))
    ∧ (∀ s pat, P s → P (ops.clear_symbol_pattern s pat))
    ∧ (∀ s, P s → P (ops.clear_all s))
    ∧ (∀ s, P s → P (ops.clear_exemplar_map s))
    ∧ (∀ s, P s → P (ops.clear_workspace s))

/-- A pattern without operators, searched in a name: does the text `pat` occur
somewhere in the characters that follow?  The empty text occurs in every name. -/
def occurs_in (pat : List Char) : List Char → Bool
  | [] => pat.isEmpty
  | c :: cs => pat.isPrefixOf (c :: cs) || occurs_in pat cs

/-- Modelled from the spec: regular-expression matching for the patterns of the
examples, which are literal texts: the expression matches a name in which it occurs,
and the empty expression matches every name. -/
def literal_search (pat nm : String) : Bool :=
  occurs_in pat.toList nm.toList

/-- The operations of the examples with `literal_search` for regular expressions. -/
def search_ops : symbol_table_ops name_spaces :=
  name_space_ops example_glob literal_search

/-- A scope with the local variables `foo`, `bar` and `baz`, the last one a global
alias, the global `baz`, and the functions `f` (locked) and `bark`. -/
def foo_bar_baz : name_spaces :=
  ⟨true, [⟨"foo", false, false⟩, ⟨"bar", false, false⟩, ⟨"baz", true, false⟩], ["baz"],
    [⟨"f", true⟩, ⟨"bark", false⟩]⟩

/-! ## Locking functions -/

/-- The call stack, the function objects and the interpreter as `mlock`, `munlock` and
`mislocked` use them, on a state `S` with functions `F` (call-stack.h, ov-fcn.h and
interpreter.h are not among the sources): `caller` is `cs.caller ()`, `none` for a
null pointer; `lock`, `unlock` and `islocked` are the member functions of the
function found; `munlock` and `mislocked` are those of the interpreter, which take a
function name. -/
structure lock_ops (S F : Type) where
  caller : S → Option F
  lock : S → F → S
  unlock : S → F → S
  islocked : S → F → Bool
  munlock : S → String → S
  mislocked : S → String → Bool

/-- The effect of a call of `mlock`, `munlock` or `mislocked`: the state it leaves, and
the returned value (`none` for `ovl ()`) or the message of the error. -/
structure lock_result (S : Type) where
  state : S
  result : Except String (Option Bool)

/-- The interpreter function `mlock` of lines 840-854. -/
def Fmlock {S F : Type} (ops : lock_ops S F) (st : S) (args : List octave_value) :
    lock_result S :=
  if args.length != 0 then
    ⟨st, Except.error (print_usage "mlock")⟩
  else
    match ops.caller st with
    | none => ⟨st, Except.error "mlock: invalid use outside a function"⟩
    | some fcn => ⟨ops.lock st fcn, Except.ok none⟩

/-- The interpreter function `munlock` of lines 866-891. -/
def Fmunlock {S F : Type} (ops : lock_ops S F) (st : S) (args : List octave_value) :
    lock_result S :=
  let nargin := args.length
  if nargin > 1 then
    ⟨st, Except.error (print_usage "munlock")⟩
  else if nargin == 1 then
    match (args.getD 0 octave_value.undefined).xstring_value with
    | none => ⟨st, Except.error "munlock: FCN must be a string"⟩
    | some name => ⟨ops.munlock st name, Except.ok none⟩
  else
    match ops.caller st with
    | none => ⟨st, Except.error "munlock: invalid use outside a function"⟩
    | some fcn => ⟨ops.unlock st fcn, Except.ok none⟩

/-- The interpreter function `mislocked` of lines 902-929. -/
def Fmislocked {S F : Type} (ops : lock_ops S F) (st : S) (args : List octave_value) :
    lock_result S :=
  let nargin := args.length
  if nargin > 1 then
    ⟨st, Except.error (print_usage "mislocked")⟩
  else if nargin == 1 then
    match (args.getD 0 octave_value.undefined).xstring_value with
    | none => ⟨st, Except.error "mislocked: FCN must be a string"⟩
    | some name => ⟨st, Except.ok (some (ops.mislocked st name))⟩
  else
    match ops.caller st with
    | none => ⟨st, Except.error "mislocked: invalid use outside a function"⟩
    | some fcn => ⟨st, Except.ok (some (ops.islocked st fcn))⟩

/-- The function table with the name of the function that called the built-in, if
any. -/
structure lock_registry where
  caller : Option String
  functions : List function_entry
deriving DecidableEq, Repr

/-- Sets the locked flag of the entries named `name`. -/
def set_locked (functions : List function_entry) (name : String) (locked : Bool) :
    List function_entry :=
  functions.map (fun entry => if entry.name == name then ⟨entry.name, locked⟩ else entry)

/-- Modelled from the spec: the Lock Registry, with `lock`, `unlock` and `is_locked`
scoped to one function entry.  A function is named by its name, and naming a function
that is not in the table changes nothing and gives `false`. -/
def registry_ops : lock_ops lock_registry String where
  caller := fun s => s.caller
  lock := fun s fcn => { s with functions := set_locked s.functions fcn true }
  unlock := fun s fcn => { s with functions := set_locked s.functions fcn false }
  islocked := fun s fcn => s.functions.any (fun entry => entry.name == fcn && entry.locked)
  munlock := fun s name => { s with functions := set_locked s.functions name false }
  mislocked := fun s name => s.functions.any (fun entry => entry.name == name && entry.locked)

/-- The function `g` is running and calls the built-in; `f` is locked. -/
def inside_g : lock_registry :=
  ⟨some "g", [⟨"f", true⟩, ⟨"g", false⟩]⟩

/-- The same function table at top level, outside any function. -/
def at_top_level : lock_registry :=
  ⟨none, [⟨"f", true⟩, ⟨"g", false⟩]⟩

/-! ## Unique symbol names -/

/-- The string `alpha` of lines 339-340. -/
def alpha : String :=
  "abcdefghijklmnopqrstuvwxyzABCDEFGHIJKLMNOPQRSTUVWXYZ"

/-- The character `alpha[GET_IDX (len)]` when the macro `GET_IDX (len)` of lines 333-334
has the value `idx`.  The macro scales `rand ()` to the range from 0 to `len - 1` with
`len = 52`, so its value is taken as an index below 52. -/
def alpha_at (idx : Fin 52) : Char :=
  alpha.toList.getD idx.val 'a'

/-- The call `s.substr (pos, len)` for a position `pos` that does not lie beyond the end
of `s` (it is 0 where the call is made). -/
def substr_n (s : String) (pos len : Nat) : String :=
  String.mk ((s.toList.drop pos).take len)

/-- The call `nm.insert (pos, 1, c)`: the character `c` put in front of position
`pos`. -/
def insert_char (nm : String) (pos : Nat) (c : Char) : String :=
  String.mk (nm.toList.take pos ++ c :: nm.toList.drop pos)

/-- The loop `while (symbol_exist (interp, nm, "any"))` of lines 354-355, with the values
that `GET_IDX (len)` takes in the successive passes as the list `retries`.  The result
is the name returned, or `none` when the loop is still running after the listed
passes. -/
def unique_symbol_loop (interp : interpreter) : List (Fin 52) → Nat → String → Option String
  | [], _, nm =>
    match (symbol_exist interp nm "any").result with
    | Except.ok 0 => some nm
    | _ => none
  | idx :: rest, pos, nm =>
    match (symbol_exist interp nm "any").result with
    | Except.ok 0 => some nm
    | Except.ok _ => unique_symbol_loop interp rest (pos + 1) (insert_char nm pos (alpha_at idx))
    | Except.error _ => none

/-- The function `unique_symbol_name (basename)` of lines 336-358, for the values
`first` and `retries` of `GET_IDX (len)` in the order in which they are drawn.  The
position `pos` is the end of the base name with its first letter, the same place whether
bytes or characters are counted. -/
def unique_symbol_name (interp : interpreter) (basename : String) (first : Fin 52)
    (retries : List (Fin 52)) : Option String :=
  let nm := basename ++ String.singleton (alpha_at first)
  let pos := nm.length
  let nm := if substr_n nm 0 2 == "__" then nm ++ "__" else nm
  unique_symbol_loop interp retries pos nm

/-- The suffix that the claim describes: `__` when the base name with the first letter
begins with a double underscore, nothing otherwise. -/
def reserved_suffix (basename : String) (first : Fin 52) : List Char :=
  if ['_', '_'] <+: basename.toList ++ [alpha_at first] then ['_', '_'] else []

/-- The name made of the base name, the first letter, the letters of the first `k`
retries and the suffix. -/
def candidate_name (basename : String) (first : Fin 52) (retries : List (Fin 52))
    (k : Nat) : String :=
  String.mk (basename.toList ++ (first :: retries.take k).map alpha_at
    ++ reserved_suffix basename first)

/-! ## Scoped changes made twice in one invocation -/

/-- Inside a function whose frame holds no record for the variable, two accepted calls
`(v1, "local")` and `(v2, "local")` leave two records on the frame, the value stored by
the first call on top of the value the variable had at the start, and the end of the
invocation, by return or by error, leaves the value of the start. -/
def local_twice_is_lifo {T R : Type} (call : setter T R) : Prop :=
  ∀ (st : internal_variable T) (v1 v2 marker : octave_value) (n1 n2 : Int) (nm : String)
    (r1 r2 : R),
    st.frame = some [] → is_local_marker marker →
    (call st [v1, marker] n1 nm).result = Except.ok r1 →
    (call (call st [v1, marker] n1 nm).state [v2, marker] n2 nm).result = Except.ok r2 →
      (call (call st [v1, marker] n1 nm).state [v2, marker] n2 nm).state.frame
          = some [(call st [v1, marker] n1 nm).state.var, st.var]
        ∧ ∀ ended : Except String Unit,
            (end_invocation (call (call st [v1, marker] n1 nm).state [v2, marker] n2 nm).state
              ended).state.var = st.var

/-! ## The elements of a structure reference -/

/-- The call `text.find (c, pos)`: the position of the first `c` at or after `pos`,
`none` for `std::string::npos`. -/
def find_char (text : List Char) (c : Char) (pos : Nat) : Option Nat :=
  let rest := text.drop pos
  let i := rest.indexOf c
  if i < rest.length then some (pos + i) else none

/-- The call `text.substr (pos, len)` with `len = none` for `std::string::npos`: at most
`len` characters from position `pos` on; `none` when `pos` lies beyond the end of
`text`, where the call throws. -/
def substr_len (text : List Char) (pos : Nat) (len : Option Nat) : Option (List Char) :=
  if pos > text.length then none
  else
    match len with
    | some l => some ((text.drop pos).take l)
    | none => some (text.drop pos)

/-- The `while` loop of lines 1648-1654, started at position `pos` with the count `n`;
`none` when the loop is still running after `fuel` passes. -/
def count_struct_elts (text : List Char) : Nat → Nat → Nat → Option Nat
  | 0, _, _ => none
  | fuel + 1, pos, n =>
    match find_char text '.' pos with
    | none => some n
    | some found =>
      let pos := found + 1
      if pos == text.length then some n
      else count_struct_elts text fuel pos (n + 1)

/-- The `for` loop of lines 1660-1671 with `remaining` passes to go, started at position
`pos`: the elements assigned to `retval` in these passes, in order. -/
def fill_struct_elts (text : List Char) : Nat → Nat → Option (List String)
  | 0, _ => some []
  | remaining + 1, pos =>
    let len := (find_char text '.' pos).map (fun found => found - pos)
    match substr_len text pos len with
    | none => none
    | some elt =>
      let pos := match len with
        | some l => pos + (l + 1)
        | none => pos
      (fill_struct_elts text remaining pos).map (fun elts => String.mk elt :: elts)

/-- The function `get_struct_elts (text)` of lines 1639-1674.  Positions count characters;
the character looked for is a single byte, so the elements are the same as with the byte
positions of the code.  The counter `n` is a natural number, which is the `int` of the
code as long as `text` holds fewer than 2^31 dots.  The first loop gets one pass more than
`text` has characters; the result is `none` if it has not ended by then or if `substr`
throws. -/
def get_struct_elts (text : String) : Option (List String) :=
  match count_struct_elts text.toList (text.length + 1) 0 1 with
  | none => none
  | some n => fill_struct_elts text.toList n 0

/-- The text without one trailing dot, if it ends with a dot. -/
def strip_trailing_dot (text : List Char) : List Char :=
  if text.getLast? = some '.' then text.dropLast else text

/-- The dot-separated segments of the text after removing at most one trailing dot, as
the claim describes the result. -/
def dot_segments (text : String) : List String :=
  ((strip_trailing_dot text.toList).splitOn '.').map String.mk

/-! ## Failed scoped changes -/

/-- Inside a function, for a variable in a state that the overload accepts (`valid`), a
call `(v, "local")` with a value `v` for which the call `(v)` fails: the call fails with
the same message and leaves the variable as it was, issues no warning, and the frame
has one record more, the current value of the variable, on top of the records `saved`
it held.  The end of the invocation then leaves the oldest record of the frame in the
variable, which is the current value when the frame held no record before the call. -/
def failed_local_call_pushes_record {T R : Type} (valid : internal_variable T → Prop)
    (call : setter T R) : Prop :=
  ∀ (st : internal_variable T) (saved : List T) (v marker : octave_value) (nargout : Int)
    (nm msg : String),
    valid st → st.frame = some saved → is_local_marker marker →
    (call st [v] nargout nm).result = Except.error msg →
      (call st [v, marker] nargout nm).result = Except.error msg
        ∧ (call st [v, marker] nargout nm).state.var = st.var
        ∧ (call st [v, marker] nargout nm).state.frame = some (st.var :: saved)
        ∧ (call st [v, marker] nargout nm).state.frame ≠ st.frame
        ∧ (call st [v, marker] nargout nm).state.warnings = st.warnings
        ∧ (∀ ended : Except String Unit,
            (end_invocation (call st [v, marker] nargout nm).state ended).state.var
              = saved.getLast?.getD st.var)
        ∧ (saved = [] → ∀ ended : Except String Unit,
            (end_invocation (call st [v, marker] nargout nm).state ended).state.var = st.var)

/-! ## Example interpreter states -/

/-- The reserved words `if` and `end` as the keyword table of the examples. -/
def example_iskeyword (name : String) : Bool :=
  name == "if" || name == "end"

/-- An interpreter in which no name is bound to anything, `sin` is a built-in function
and no file exists. -/
def fresh_interp : interpreter where
  iskeyword := example_iskeyword
  current_scope := some ⟨fun _ => octave_value.undefined⟩
  find_cmdline_function := fun _ => octave_value.undefined
  lookup_autoload := fun _ => ""
  find_fcn := fun _ => ""
  file_in_path := fun _ _ => ""
  stat := fun _ => ⟨false, false⟩
  is_built_in_function_name := fun name => name == "sin"

/-- The scope after the assignment `sin = 3`. -/
def shadowed_sin_scope : symbol_scope :=
  ⟨fun name => if name == "sin" then octave_value.of_int 3 else octave_value.undefined⟩

/-- The interpreter `fresh_interp` after the assignment `sin = 3` in the current scope. -/
def shadowed_sin_interp : interpreter :=
  { fresh_interp with
    current_scope := some shadowed_sin_scope }

/-- The interpreter `fresh_interp` with a function file `sin.m` on the load path, next to the
built-in function `sin`. -/
def sin_file_interp : interpreter :=
  { fresh_interp with
    find_fcn := fun name => if name == "sin" then "/home/user/m/sin.m" else "" }

/-- The interpreter `fresh_interp` with a function file `tools.m` on the load path and a directory
`tools` in the current directory. -/
def tools_interp : interpreter :=
  { fresh_interp with
    find_fcn := fun name => if name == "tools" then "/home/user/m/tools.m" else ""
    stat := fun file_name => if file_name == "tools" then ⟨true, true⟩ else ⟨false, false⟩ }

/-- The interpreter `fresh_interp` with the directory `/tmp` and the regular file `/bin/sh`. -/
def unix_interp : interpreter :=
  { fresh_interp with
    stat := fun file_name =>
      if file_name == "/tmp" then ⟨true, true⟩
      else if file_name == "/bin/sh" then ⟨true, false⟩
      else ⟨false, false⟩ }

/-- The interpreter `fresh_interp` with an autoload entry for `chol` that resolves to `chol.oct`. -/
def chol_interp : interpreter :=
  { fresh_interp with
    lookup_autoload := fun name => if name == "chol" then "/usr/lib/oct/chol.oct" else "" }

/-- The interpreter `fresh_interp` with an autoload entry for `hidden` that resolves to a file whose
whole name is `.oct`. -/
def dot_oct_interp : interpreter :=
  { fresh_interp with
    lookup_autoload := fun name => if name == "hidden" then ".oct" else "" }

/-- An interpreter in which the names `xa` and `xab` are bound to variables. -/
def xa_interp : interpreter :=
  { fresh_interp with
    current_scope := some ⟨fun name =>
      if name == "xa" || name == "xab" then octave_value.of_int 1
      else octave_value.undefined⟩ }

/-! # Theorems -/

/-! ## Auxiliary facts about strings and blocks -/

theorem isEmpty_eq_decide (s : String) : s.isEmpty = decide (s = "") := by
  rw [Bool.eq_iff_iff]
  simp [String.isEmpty_iff]

theorem length_pos_iff_ne_empty (s : String) : 0 < s.length ↔ s ≠ "" := by
  rw [String.length, List.length_pos, ne_eq, ne_eq, String.ext_iff]

theorem substr_beq_iff_suffix (s t : String) (ht : t.length = 4) :
    (substr s (s.length - 4) == t) = true ↔ t.toList <:+ s.toList := by
  rw [beq_iff_eq, List.suffix_iff_eq_drop, substr, String.ext_iff]
  have hlen : t.toList.length = 4 := ht
  rw [hlen]
  exact eq_comm

theorem is_oct_or_mex_iff (f : String) :
    is_oct_or_mex f = true
      ↔ 4 < f.length ∧ (".oct".toList <:+ f.toList ∨ ".mex".toList <:+ f.toList) := by
  unfold is_oct_or_mex
  simp only [Bool.and_eq_true, Bool.or_eq_true, decide_eq_true_eq, gt_iff_lt]
  rw [substr_beq_iff_suffix f ".oct" rfl, substr_beq_iff_suffix f ".mex" rfl]

theorem fcn_file_lookup_snd (interp : interpreter) (name : String) :
    (fcn_file_lookup interp name).2 = fcn_file_name interp name := by
  unfold fcn_file_lookup fcn_file_name
  by_cases h : interp.lookup_autoload name = "" <;> simp [isEmpty_eq_decide, h]

theorem file_probe_path (interp : interpreter) (name : String) :
    (if (interp.file_in_path name "").isEmpty then name else interp.file_in_path name "")
      = probed_path interp name := by
  unfold probed_path
  by_cases h : interp.file_in_path name "" = "" <;> simp [isEmpty_eq_decide, h]

theorem block_next_code (P : Nat → Prop) (b : block) (rest : List probe × Nat)
    (hb : ∀ code, b.returned = some code → P code) (hr : P rest.2) :
    P (b.next rest).2 := by
  unfold block.next
  cases h : b.returned with
  | none => simpa using hr
  | some code => simpa using hb code h

theorem guarded_block_code (P : Nat → Prop) (c : Bool) (b : block)
    (hb : ∀ code, b.returned = some code → P code) (code : Nat)
    (h : (if c = true then b else block.skipped).returned = some code) : P code := by
  cases c with
  | true => exact hb code (by simpa using h)
  | false => simp [block.skipped] at h

/-! ## The codes each block can return -/

theorem var_block_code (interp : interpreter) (name : String) (search_var : Bool)
    (code : Nat) (h : (var_block interp name search_var).returned = some code) :
    code ∈ [0, 1] := by
  unfold var_block at h
  simp only at h
  split_ifs at h <;> simp at h <;> subst h <;> simp

theorem cmdline_block_code (interp : interpreter) (name : String)
    (code : Nat) (h : (cmdline_block interp name).returned = some code) :
    code = 103 := by
  unfold cmdline_block at h
  simp only at h
  split_ifs at h
  simp at h
  exact h.symm

theorem file_probe_code (interp : interpreter) (name : String) (a d f : Bool)
    (code : Nat) (h : (file_probe interp name a d f).returned = some code) :
    code ∈ [0, 2, 3, 7] := by
  unfold file_probe at h
  simp only at h
  split_ifs at h <;> simp at h <;> subst h <;> simp

theorem file_block_code (interp : interpreter) (name : String) (a d f : Bool)
    (code : Nat) (h : (file_block interp name a d f).returned = some code) :
    code ∈ [0, 2, 3, 7] := by
  unfold file_block at h
  simp only at h
  split_ifs at h
  · simp at h; subst h; simp
  · simp at h; subst h; simp
  · exact file_probe_code interp name a d f code h
  · exact file_probe_code interp name a d f code h

theorem builtin_block_code (interp : interpreter) (name : String) (search_builtin : Bool)
    (code : Nat) (h : (builtin_block interp name search_builtin).returned = some code) :
    code ∈ [0, 5] := by
  unfold builtin_block at h
  split_ifs at h <;> simp at h <;> subst h <;> simp

theorem exist_code_mem (interp : interpreter) (name type : String) (code : Nat)
    (h : (symbol_exist interp name type).result = Except.ok code) :
    code ∈ [0, 1, 2, 3, 5, 7, 103] := by
  unfold symbol_exist at h
  by_cases hk : interp.iskeyword name = true
  · rw [if_pos hk] at h
    simp at h
    subst h
    simp
  · rw [if_neg hk] at h
    simp only at h
    by_cases ht : (!(type == "any" || type == "var" || type == "dir" || type == "file"
        || type == "builtin" || type == "class")) = true
    · rw [if_pos ht] at h
      simp at h
    · rw [if_neg ht] at h
      simp only [Except.ok.injEq] at h
      subst h
      apply block_next_code (fun c => c ∈ [0, 1, 2, 3, 5, 7, 103])
      · apply guarded_block_code
        intro c hc
        have := var_block_code _ _ _ c hc
        revert this; simp; tauto
      apply block_next_code (fun c => c ∈ [0, 1, 2, 3, 5, 7, 103])
      · apply guarded_block_code
        intro c hc
        have := cmdline_block_code _ _ c hc
        subst this; simp
      apply block_next_code (fun c => c ∈ [0, 1, 2, 3, 5, 7, 103])
      · apply guarded_block_code
        intro c hc
        have := file_block_code _ _ _ _ _ c hc
        revert this; simp; tauto
      apply block_next_code (fun c => c ∈ [0, 1, 2, 3, 5, 7, 103])
      · apply guarded_block_code
        intro c hc
        have := builtin_block_code _ _ _ c hc
        revert this; simp; tauto
      simp

/-! ## The result of `symbol_exist` for each type -/

theorem exist_any_eq (interp : interpreter) (name : String)
    (hk : interp.iskeyword name = false) :
    (symbol_exist interp name "any").result
      = Except.ok (first_match (any_stages interp name)) := by
  simp only [symbol_exist, hk, any_stages, var_block, cmdline_block, file_block,
    file_probe, builtin_block, fcn_file_lookup_snd, file_probe_path, block.next]
  by_cases h1 : is_variable_value (current_varval interp name) = true
  · simp [h1, first_match]
  by_cases h2 : (interp.find_cmdline_function name).is_defined = true
  · simp [h1, h2, first_match]
  by_cases h3 : fcn_file_name interp name = ""
  · by_cases h4 : (interp.stat (probed_path interp name)).ok = true
    · by_cases h5 : (interp.stat (probed_path interp name)).is_dir = true
      · simp [h1, h2, h3, h4, h5, first_match]
      · by_cases h6 : is_oct_or_mex (probed_path interp name) = true
        · simp [h1, h2, h3, h4, h5, h6, first_match]
        · simp [h1, h2, h3, h4, h5, h6, first_match]
    · by_cases h7 : interp.is_built_in_function_name name = true
      · simp [h1, h2, h3, h4, h7, first_match]
      · simp [h1, h2, h3, h4, h7, first_match]
  · have hl : 0 < (fcn_file_name interp name).length := (length_pos_iff_ne_empty _).2 h3
    by_cases h6 : is_oct_or_mex (fcn_file_name interp name) = true
    · simp [h1, h2, h3, hl, h6, first_match]
    · simp [h1, h2, h3, hl, h6, first_match]

theorem exist_var_eq (interp : interpreter) (name : String)
    (hk : interp.iskeyword name = false) :
    (symbol_exist interp name "var").result
      = Except.ok (if is_variable_value (current_varval interp name) then 1 else 0) := by
  by_cases hv : is_variable_value (current_varval interp name) = true <;>
    simp [symbol_exist, hk, var_block, block.next, hv]

theorem exist_builtin_eq (interp : interpreter) (name : String)
    (hk : interp.iskeyword name = false) :
    (symbol_exist interp name "builtin").result
        = Except.ok (if interp.is_built_in_function_name name then 5 else 0)
      ∧ (symbol_exist interp name "builtin").consulted
        = [probe.is_built_in_function_name name] := by
  by_cases hb : interp.is_built_in_function_name name = true <;>
    simp [symbol_exist, hk, builtin_block, block.next, block.skipped, hb]

theorem exist_dir_eq (interp : interpreter) (name : String)
    (hk : interp.iskeyword name = false) :
    (symbol_exist interp name "dir").result
      = Except.ok (if (interp.stat (probed_path interp name)).ok = true
            ∧ (interp.stat (probed_path interp name)).is_dir = true then 7 else 0) := by
  simp only [symbol_exist, hk, file_block, file_probe, file_probe_path, block.next,
    block.skipped]
  by_cases h1 : (interp.stat (probed_path interp name)).ok = true <;>
  by_cases h2 : (interp.stat (probed_path interp name)).is_dir = true <;>
  by_cases h3 : 0 < (fcn_file_lookup interp name).2.length <;>
    simp [h1, h2, h3]

theorem exist_file_mem (interp : interpreter) (name : String)
    (hk : interp.iskeyword name = false) :
    ∃ code ∈ [0, 2, 3, 7], (symbol_exist interp name "file").result = Except.ok code := by
  cases hr : (file_block interp name false false true).returned with
  | some code =>
    refine ⟨code, file_block_code _ _ _ _ _ code hr, ?_⟩
    simp [symbol_exist, hk, block.next, block.skipped, hr]
  | none =>
    exfalso
    revert hr
    simp only [file_block, file_probe]
    split_ifs <;> simp_all

theorem exist_fcn_file_eq (interp : interpreter) (name : String)
    (hk : interp.iskeyword name = false)
    (hv : is_variable_value (current_varval interp name) = false)
    (hc : (interp.find_cmdline_function name).is_defined = false)
    (hne : fcn_file_name interp name ≠ "") :
    (symbol_exist interp name "any").result
        = Except.ok (if is_oct_or_mex (fcn_file_name interp name) then 3 else 2)
      ∧ (symbol_exist interp name "file").result
        = Except.ok (if is_oct_or_mex (fcn_file_name interp name) then 3 else 2) := by
  have hl : 0 < (fcn_file_name interp name).length := (length_pos_iff_ne_empty _).2 hne
  by_cases h : is_oct_or_mex (fcn_file_name interp name) = true <;>
    simp [symbol_exist, hk, var_block, cmdline_block, file_block, fcn_file_lookup_snd,
      block.next, block.skipped, hv, hc, hl, h]

/-! ## Keywords and unrecognised types -/

/-- Claim C1: for a name that is a reserved keyword and any type string, recognised or
not, `symbol_exist` returns 0, raises no error, and makes no call to the scope, the
function tables, the load path or the file system. -/
theorem keyword_is_absent (interp : interpreter) (name type : String)
    (hk : interp.iskeyword name = true) :
    (symbol_exist interp name type).result = Except.ok 0
      ∧ (symbol_exist interp name type).consulted = [] := by
  simp [symbol_exist, hk]

/-- The keyword `end` queried with the unrecognised type `foobar`. -/
theorem keyword_is_absent_witness :
    fresh_interp.iskeyword "end" = true
      ∧ (symbol_exist fresh_interp "end" "foobar").result = Except.ok 0
      ∧ (symbol_exist fresh_interp "end" "foobar").consulted = [] :=
  ⟨by decide, keyword_is_absent fresh_interp "end" "foobar" (by decide)⟩

/-- Claim C2: for a name that is not a keyword and a type string outside
`any`, `var`, `dir`, `file`, `builtin`, `class`, `symbol_exist` raises the error
`exist: unrecognized type argument "<type>"` and returns no code. -/
theorem unrecognized_type_is_error (interp : interpreter) (name type : String)
    (hk : interp.iskeyword name = false)
    (ht : type ∉ ["any", "var", "dir", "file", "builtin", "class"]) :
    (symbol_exist interp name type).result
        = Except.error ("exist: unrecognized type argument \"" ++ type ++ "\"")
      ∧ ∀ code : Nat, (symbol_exist interp name type).result ≠ Except.ok code := by
  simp only [List.mem_cons, List.mem_singleton, not_or, List.mem_nil_iff, or_false] at ht
  obtain ⟨h1, h2, h3, h4, h5, h6⟩ := ht
  simp [symbol_exist, hk, h1, h2, h3, h4, h5, h6, unrecognized_type]

/-- The test `exist ("a", "foobar")` of line 520. -/
theorem unrecognized_type_is_error_witness :
    fresh_interp.iskeyword "a" = false
      ∧ "foobar" ∉ ["any", "var", "dir", "file", "builtin", "class"]
      ∧ (symbol_exist fresh_interp "a" "foobar").result
        = Except.error ("exist: unrecognized type argument \"" ++ "foobar" ++ "\"")
      ∧ ∀ code : Nat, (symbol_exist fresh_interp "a" "foobar").result ≠ Except.ok code :=
  ⟨by decide, by decide,
    unrecognized_type_is_error fresh_interp "a" "foobar" (by decide) (by decide)⟩

/-! ## Variables and the priority order of the `"any"` query -/

/-- Claim C3: for a name that is not a keyword and is bound in the current scope to a
constant, an object, a function handle, an anonymous function or an inline function,
`symbol_exist` returns 1 for the types `any` and `var`, whatever the command-line
functions, autoload entries, load path, file system and built-in functions are: only
the scope is consulted. -/
theorem local_variable_is_one (interp : interpreter) (name : String) (scope : symbol_scope)
    (hk : interp.iskeyword name = false)
    (hs : interp.current_scope = some scope)
    (hv : (scope.varval name).is_constant = true ∨ (scope.varval name).isobject = true
      ∨ (scope.varval name).is_function_handle = true
      ∨ (scope.varval name).is_anonymous_function = true
      ∨ (scope.varval name).is_inline_function = true) :
    ((symbol_exist interp name "any").result = Except.ok 1
        ∧ (symbol_exist interp name "var").result = Except.ok 1)
      ∧ (symbol_exist interp name "any").consulted
          = [probe.current_scope, probe.varval name]
      ∧ (symbol_exist interp name "var").consulted
          = [probe.current_scope, probe.varval name] := by
  have hval : is_variable_value (current_varval interp name) = true := by
    simp only [current_varval, hs, is_variable_value, Bool.or_eq_true]
    tauto
  simp [symbol_exist, hk, var_block, hval, block.next, varval_probes, hs]

/-- The variable `sin = 3`, which shadows the built-in function `sin`. -/
theorem local_variable_is_one_witness :
    shadowed_sin_interp.iskeyword "sin" = false
      ∧ shadowed_sin_interp.current_scope = some shadowed_sin_scope
      ∧ shadowed_sin_interp.is_built_in_function_name "sin" = true
      ∧ ((symbol_exist shadowed_sin_interp "sin" "any").result = Except.ok 1
        ∧ (symbol_exist shadowed_sin_interp "sin" "var").result = Except.ok 1)
      ∧ (symbol_exist shadowed_sin_interp "sin" "any").consulted
          = [probe.current_scope, probe.varval "sin"]
      ∧ (symbol_exist shadowed_sin_interp "sin" "var").consulted
          = [probe.current_scope, probe.varval "sin"] :=
  ⟨rfl, rfl, rfl,
    local_variable_is_one shadowed_sin_interp "sin" shadowed_sin_scope rfl rfl (Or.inl rfl)⟩

/-- Claim C4: for a name that is not a keyword, `symbol_exist (name, "any")` is the
code of the first matching stage in the order variable (1), command-line function
(103), file named by autoload or else by the load path (3 or 2), file-system probe
(7, 3 or 2), built-in function (5), and 0 when no stage matches. -/
theorem any_is_first_match (interp : interpreter) (name : String)
    (hk : interp.iskeyword name = false) :
    (symbol_exist interp name "any").result
        = Except.ok (first_match (any_stages interp name))
      ∧ ((∀ stage ∈ any_stages interp name, stage = none) →
          (symbol_exist interp name "any").result = Except.ok 0) := by
  have key := exist_any_eq interp name hk
  refine ⟨key, fun hall => ?_⟩
  rw [key]
  simp only [any_stages, List.mem_cons, List.mem_singleton, List.mem_nil_iff, or_false,
    forall_eq_or_imp, forall_eq] at hall
  obtain ⟨a1, a2, a3, a4, a5⟩ := hall
  simp [any_stages, a1, a2, a3, a4, a5, first_match]

/-- The test `exist ("sin")` of line 507, where only the built-in stage matches. -/
theorem any_is_first_match_witness :
    fresh_interp.iskeyword "sin" = false
      ∧ first_match (any_stages fresh_interp "sin") = 5
      ∧ (symbol_exist fresh_interp "sin" "any").result
        = Except.ok (first_match (any_stages fresh_interp "sin"))
      ∧ ((∀ stage ∈ any_stages fresh_interp "sin", stage = none) →
          (symbol_exist fresh_interp "sin" "any").result = Except.ok 0) :=
  ⟨rfl, rfl, any_is_first_match fresh_interp "sin" rfl⟩

/-- Claim C5, evaluated on the code: with no variable `sin`, a built-in function `sin`
and a file `sin.m` on the load path, `exist ("sin")` returns 2, not the 5 of the
documented priority list; with a load-path file `tools.m` and a directory `tools`,
`exist ("tools")` returns 2, not 7. -/
theorem exist_prefers_file_to_builtin :
    (sin_file_interp.iskeyword "sin" = false
        ∧ is_variable_value (current_varval sin_file_interp "sin") = false
        ∧ sin_file_interp.is_built_in_function_name "sin" = true
        ∧ sin_file_interp.find_fcn "sin" = "/home/user/m/sin.m"
        ∧ (Fexist sin_file_interp [octave_value.of_string "sin"]).run.result = Except.ok 2)
      ∧ (tools_interp.iskeyword "tools" = false
        ∧ tools_interp.find_fcn "tools" = "/home/user/m/tools.m"
        ∧ tools_interp.stat (probed_path tools_interp "tools") = ⟨true, true⟩
        ∧ (Fexist tools_interp [octave_value.of_string "tools"]).run.result
            = Except.ok 2) :=
  ⟨⟨rfl, rfl, rfl, rfl, rfl⟩, ⟨rfl, rfl, rfl, rfl⟩⟩

/-! ## Narrowed queries -/

/-- Claim C6: for a name that is not a keyword, `symbol_exist (name, "builtin")` is 5
when the name is a registered built-in function name and 0 otherwise; the only
collaborator consulted is the table of built-in names, so an interpreter that differs
in its variables, command-line functions, load path or file system gives the same
result. -/
theorem builtin_query_only_reads_builtins (interp : interpreter) (name : String)
    (hk : interp.iskeyword name = false) :
    (symbol_exist interp name "builtin").result
        = Except.ok (if interp.is_built_in_function_name name then 5 else 0)
      ∧ (symbol_exist interp name "builtin").consulted
        = [probe.is_built_in_function_name name]
      ∧ ∀ other : interpreter, other.iskeyword name = false →
          other.is_built_in_function_name name = interp.is_built_in_function_name name →
          (symbol_exist other name "builtin").result
            = (symbol_exist interp name "builtin").result := by
  refine ⟨(exist_builtin_eq interp name hk).1, (exist_builtin_eq interp name hk).2, ?_⟩
  intro other hko hb
  rw [(exist_builtin_eq interp name hk).1, (exist_builtin_eq other name hko).1, hb]

/-- The built-in `sin` while a variable `sin` shadows it. -/
theorem builtin_query_only_reads_builtins_witness :
    shadowed_sin_interp.iskeyword "sin" = false
      ∧ (symbol_exist shadowed_sin_interp "sin" "builtin").result = Except.ok 5
      ∧ (symbol_exist shadowed_sin_interp "sin" "builtin").consulted
        = [probe.is_built_in_function_name "sin"]
      ∧ ∀ other : interpreter, other.iskeyword "sin" = false →
          other.is_built_in_function_name "sin"
            = shadowed_sin_interp.is_built_in_function_name "sin" →
          (symbol_exist other "sin" "builtin").result
            = (symbol_exist shadowed_sin_interp "sin" "builtin").result :=
  ⟨rfl, builtin_query_only_reads_builtins shadowed_sin_interp "sin" rfl⟩

/-- Claim C7: for a name that is not a keyword, `symbol_exist (name, "dir")` is 7
exactly when the probed path (the result of `file_in_path (name, "")`, or `name`
when that is empty) exists and is a directory, and 0 in every other case. -/
theorem dir_query_is_directory_test (interp : interpreter) (name : String)
    (hk : interp.iskeyword name = false) :
    (symbol_exist interp name "dir").result
      = Except.ok (if (interp.stat (probed_path interp name)).ok = true
            ∧ (interp.stat (probed_path interp name)).is_dir = true then 7 else 0) :=
  exist_dir_eq interp name hk

/-- The directory `/tmp`, as in the test `exist (dirtmp, "dir")` of line 512. -/
theorem dir_query_is_directory_test_witness :
    unix_interp.iskeyword "/tmp" = false
      ∧ (symbol_exist unix_interp "/tmp" "dir").result = Except.ok 7 :=
  ⟨rfl, dir_query_is_directory_test unix_interp "/tmp" rfl⟩

/-- Claim C8: for every name, each recognised type returns a code of its own set:
`var` 0 or 1, `builtin` 0 or 5, `dir` 0 or 7, `file` 0, 2, 3 or 7, `class` always 0,
`any` one of 0, 1, 2, 3, 5, 7, 103; and no call, whatever the type, returns 8. -/
theorem codes_lie_in_type_sets (interp : interpreter) (name : String) :
    (∃ code ∈ [0, 1], (symbol_exist interp name "var").result = Except.ok code)
      ∧ (∃ code ∈ [0, 5], (symbol_exist interp name "builtin").result = Except.ok code)
      ∧ (∃ code ∈ [0, 7], (symbol_exist interp name "dir").result = Except.ok code)
      ∧ (∃ code ∈ [0, 2, 3, 7], (symbol_exist interp name "file").result = Except.ok code)
      ∧ (symbol_exist interp name "class").result = Except.ok 0
      ∧ (∃ code ∈ [0, 1, 2, 3, 5, 7, 103],
          (symbol_exist interp name "any").result = Except.ok code)
      ∧ ∀ type : String, (symbol_exist interp name type).result ≠ Except.ok 8 := by
  have h8 : ∀ type : String, (symbol_exist interp name type).result ≠ Except.ok 8 := by
    intro type h
    have := exist_code_mem interp name type 8 h
    simp at this
  cases hk : interp.iskeyword name with
  | true =>
    refine ⟨⟨0, by simp, ?_⟩, ⟨0, by simp, ?_⟩, ⟨0, by simp, ?_⟩, ⟨0, by simp, ?_⟩, ?_,
      ⟨0, by simp, ?_⟩, h8⟩ <;> simp [symbol_exist, hk]
  | false =>
    refine ⟨⟨_, ?_, exist_var_eq interp name hk⟩,
      ⟨_, ?_, (exist_builtin_eq interp name hk).1⟩,
      ⟨_, ?_, exist_dir_eq interp name hk⟩,
      exist_file_mem interp name hk, ?_,
      ⟨_, ?_, exist_any_eq interp name hk⟩, h8⟩
    · split_ifs <;> simp
    · split_ifs <;> simp
    · split_ifs <;> simp
    · simp [symbol_exist, hk, block.next, block.skipped]
    · exact exist_code_mem interp name "any" _ (exist_any_eq interp name hk)

/-! ## Function files found by autoload or on the load path -/

/-- Claim C9 fails as stated: the autoload entry of `hidden` gives the non-empty file
name `.oct`, which ends with `.oct`, there is no variable and no command-line
function of that name, and `symbol_exist` returns 2 for `any` and for `file`. -/
theorem dot_oct_file_is_two :
    dot_oct_interp.iskeyword "hidden" = false
      ∧ is_variable_value (current_varval dot_oct_interp "hidden") = false
      ∧ (dot_oct_interp.find_cmdline_function "hidden").is_defined = false
      ∧ fcn_file_name dot_oct_interp "hidden" = ".oct"
      ∧ ".oct" ≠ ""
      ∧ ".oct".toList <:+ ".oct".toList
      ∧ (symbol_exist dot_oct_interp "hidden" "any").result = Except.ok 2
      ∧ (symbol_exist dot_oct_interp "hidden" "file").result = Except.ok 2 :=
  ⟨rfl, rfl, rfl, by decide, by decide, List.suffix_refl _, rfl, rfl⟩

/-- Claim C9 as amended: for a name that is not a keyword, has no materialized
variable and no command-line function, and whose autoload or load-path lookup gives
a non-empty file name `f`, `symbol_exist` returns for `any` and for `file` the code 3
when `f` has more than four characters and ends with `.oct` or `.mex`, and 2
otherwise. -/
theorem fcn_file_code_by_extension (interp : interpreter) (name f : String)
    (hk : interp.iskeyword name = false)
    (hv : is_variable_value (current_varval interp name) = false)
    (hc : (interp.find_cmdline_function name).is_defined = false)
    (hf : fcn_file_name interp name = f) (hne : f ≠ "") :
    ((4 < f.length ∧ (".oct".toList <:+ f.toList ∨ ".mex".toList <:+ f.toList)) →
        (symbol_exist interp name "any").result = Except.ok 3
          ∧ (symbol_exist interp name "file").result = Except.ok 3)
      ∧ (¬ (4 < f.length ∧ (".oct".toList <:+ f.toList ∨ ".mex".toList <:+ f.toList)) →
        (symbol_exist interp name "any").result = Except.ok 2
          ∧ (symbol_exist interp name "file").result = Except.ok 2) := by
  subst hf
  have key := exist_fcn_file_eq interp name hk hv hc hne
  constructor
  · intro h
    have h' := (is_oct_or_mex_iff _).2 h
    simpa [h'] using key
  · intro h
    have h' : is_oct_or_mex (fcn_file_name interp name) = false := by
      rw [Bool.eq_false_iff]
      exact fun hh => h ((is_oct_or_mex_iff _).1 hh)
    simpa [h'] using key

/-- The tests `exist ("chol")` and `exist ("chol", "file")` of lines 502-504. -/
theorem fcn_file_code_by_extension_witness :
    chol_interp.iskeyword "chol" = false
      ∧ is_variable_value (current_varval chol_interp "chol") = false
      ∧ (chol_interp.find_cmdline_function "chol").is_defined = false
      ∧ fcn_file_name chol_interp "chol" = "/usr/lib/oct/chol.oct"
      ∧ "/usr/lib/oct/chol.oct" ≠ ""
      ∧ (symbol_exist chol_interp "chol" "any").result = Except.ok 3
      ∧ (symbol_exist chol_interp "chol" "file").result = Except.ok 3 :=
  ⟨rfl, rfl, rfl, by decide, by decide,
    (fcn_file_code_by_extension chol_interp "chol" "/usr/lib/oct/chol.oct" rfl rfl rfl
      (by decide) (by decide)).1 ⟨by decide, Or.inl (by decide)⟩⟩

/-! ## The bounded-integer internal variable -/

theorem wants_local_change_one (arg : octave_value) :
    wants_local_change [arg] [arg].length = Except.ok (false, 1) := by
  simp [wants_local_change]

theorem wants_local_change_marker (arg marker : octave_value)
    (hm : marker.is_string = true ∧ marker.string_value = "local") :
    wants_local_change [arg, marker] [arg, marker].length = Except.ok (true, 1) := by
  simp [wants_local_change, hm.1, hm.2]

theorem int_variable_one_value (st : internal_variable Int)
    (args : List octave_value) (nargout : Int) (nm : String) (minval maxval : Int)
    (is_local : Bool) (v : Int)
    (hw : wants_local_change args args.length = Except.ok (is_local, 1))
    (hv : (args.getD 0 octave_value.undefined).xint_value = some v) :
    ((∃ retval, (set_internal_variable_int st args nargout nm minval maxval).result
            = Except.ok retval)
          ↔ minval ≤ v ∧ v ≤ maxval)
      ∧ ((∃ retval, (set_internal_variable_int st args nargout nm minval maxval).result
            = Except.ok retval)
          → (set_internal_variable_int st args nargout nm minval maxval).state.var = v) := by
  unfold set_internal_variable_int
  simp only [hw, hv]
  by_cases h1 : v < minval
  · have : ¬ (minval ≤ v) := not_le.2 h1
    simp [h1, this]
  · by_cases h2 : v > maxval
    · have : ¬ (v ≤ maxval) := not_le.2 h2
      simp [h1, h2, this]
    · simp [h1, h2, not_lt.1 h1, not_lt.1 h2]

/-- Claim C10: the bounded-integer overload of `set_internal_variable`, called with one
integer-valued argument `v`, alone or followed by `"local"`, succeeds if and only if
`minval ≤ v ≤ maxval`, and after a successful call the variable holds `v`. -/
theorem int_variable_set_iff_in_range (st : internal_variable Int)
    (arg marker : octave_value) (v : Int)
    (nargout : Int) (nm : String) (minval maxval : Int)
    (hv : arg.xint_value = some v)
    (hm : marker.is_string = true ∧ marker.string_value = "local") :
    ∀ args ∈ [[arg], [arg, marker]],
      ((∃ retval, (set_internal_variable_int st args nargout nm minval maxval).result
            = Except.ok retval)
          ↔ minval ≤ v ∧ v ≤ maxval)
        ∧ ((∃ retval, (set_internal_variable_int st args nargout nm minval maxval).result
            = Except.ok retval)
          → (set_internal_variable_int st args nargout nm minval maxval).state.var = v) := by
  intro args hargs
  simp only [List.mem_cons, List.mem_singleton, List.mem_nil_iff, or_false] at hargs
  rcases hargs with rfl | rfl
  · exact int_variable_one_value st [arg] nargout nm minval maxval false v
      (wants_local_change_one arg) (by simpa using hv)
  · exact int_variable_one_value st [arg, marker] nargout nm minval maxval true v
      (wants_local_change_marker arg marker hm) (by simpa using hv)

/-- The value 3 for a variable with the bounds 0 and 5, inside a function. -/
theorem int_variable_set_iff_in_range_witness :
    (octave_value.of_int 3).xint_value = some 3
      ∧ ((octave_value.of_string "local").is_string = true
        ∧ (octave_value.of_string "local").string_value = "local")
      ∧ ∀ args ∈ [[octave_value.of_int 3],
            [octave_value.of_int 3, octave_value.of_string "local"]],
        ((∃ retval, (set_internal_variable_int in_function_variable args 0 "debug_level"
              0 5).result = Except.ok retval)
            ↔ (0 : Int) ≤ 3 ∧ (3 : Int) ≤ 5)
          ∧ ((∃ retval, (set_internal_variable_int in_function_variable args 0 "debug_level"
              0 5).result = Except.ok retval)
            → (set_internal_variable_int in_function_variable args 0 "debug_level"
              0 5).state.var = 3) :=
  ⟨rfl, ⟨rfl, rfl⟩,
    int_variable_set_iff_in_range in_function_variable (octave_value.of_int 3)
      (octave_value.of_string "local") 3 0 "debug_level" 0 5 rfl ⟨rfl, rfl⟩⟩

/-! ## Every overload has the common shape -/

theorem bool_shape (st : internal_variable Bool) (args : List octave_value)
    (nargout : Int) (nm : String) :
    set_internal_variable_bool st args nargout nm
      = set_internal_variable_shape id (convert_bool nm) st args nargout nm := by
  unfold set_internal_variable_bool set_internal_variable_shape convert_bool
  simp only [id]
  generalize wants_local_change args args.length = w
  cases w with
  | error msg => rfl
  | ok p =>
    simp only
    generalize args.getD 0 octave_value.undefined = arg
    cases h : arg.xbool_value with
    | none => simp
    | some val => simp

theorem char_shape (st : internal_variable Char) (args : List octave_value)
    (nargout : Int) (nm : String) :
    set_internal_variable_char st args nargout nm
      = set_internal_variable_shape id (convert_char nm) st args nargout nm := by
  unfold set_internal_variable_char set_internal_variable_shape convert_char
  simp only [id]
  generalize wants_local_change args args.length = w
  cases w with
  | error msg => rfl
  | ok p =>
    simp only
    generalize args.getD 0 octave_value.undefined = arg
    cases h : arg.xstring_value with
    | none => simp
    | some val =>
      simp only
      split_ifs <;> first | rfl | (split <;> simp_all)

theorem int_shape (st : internal_variable Int) (args : List octave_value)
    (nargout : Int) (nm : String) (minval maxval : Int) :
    set_internal_variable_int st args nargout nm minval maxval
      = set_internal_variable_shape id (convert_int nm minval maxval) st args nargout nm := by
  unfold set_internal_variable_int set_internal_variable_shape convert_int
  simp only [id]
  generalize wants_local_change args args.length = w
  cases w with
  | error msg => rfl
  | ok p =>
    simp only
    generalize args.getD 0 octave_value.undefined = arg
    cases h : arg.xint_value with
    | none => simp
    | some val =>
      simp only
      split_ifs <;> simp

theorem double_shape (format_g : Float → String) (st : internal_variable Float)
    (args : List octave_value) (nargout : Int) (nm : String) (minval maxval : Float) :
    set_internal_variable_double format_g st args nargout nm minval maxval
      = set_internal_variable_shape id (convert_double format_g nm minval maxval) st args
          nargout nm := by
  unfold set_internal_variable_double set_internal_variable_shape convert_double
  simp only [id]
  generalize wants_local_change args args.length = w
  cases w with
  | error msg => rfl
  | ok p =>
    simp only
    generalize args.getD 0 octave_value.undefined = arg
    cases h : arg.xscalar_value with
    | none => simp
    | some val =>
      simp only
      split_ifs <;> simp

theorem string_shape (st : internal_variable String) (args : List octave_value)
    (nargout : Int) (nm : String) (empty_ok : Bool) :
    set_internal_variable_string st args nargout nm empty_ok
      = set_internal_variable_shape id (convert_string nm empty_ok) st args nargout nm := by
  unfold set_internal_variable_string set_internal_variable_shape convert_string
  simp only [id]
  generalize wants_local_change args args.length = w
  cases w with
  | error msg => rfl
  | ok p =>
    simp only
    generalize args.getD 0 octave_value.undefined = arg
    cases h : arg.xstring_value with
    | none => simp
    | some val =>
      simp only
      split_ifs <;> simp

theorem choice_string_shape (st : internal_variable String) (args : List octave_value)
    (nargout : Int) (nm : String) (choices : List String) :
    set_internal_variable_choice_string st args nargout nm choices
      = set_internal_variable_shape id (convert_choice_string nm choices) st args nargout
          nm := by
  unfold set_internal_variable_choice_string set_internal_variable_shape
    convert_choice_string
  simp only [id]
  generalize wants_local_change args args.length = w
  cases w with
  | error msg => rfl
  | ok p =>
    simp only
    generalize args.getD 0 octave_value.undefined = arg
    cases h : arg.xstring_value with
    | none => simp
    | some val =>
      simp only
      split_ifs <;> simp

theorem choice_index_shape (st : internal_variable Int) (args : List octave_value)
    (nargout : Int) (nm : String) (choices : List String)
    (h1 : st.var < choices.length)
    (h0 : (nargout > 0 ∨ args = []) → 0 ≤ st.var) :
    set_internal_variable_choice_index st args nargout nm choices
      = set_internal_variable_shape (fun v => choices.getD v.toNat "")
          (convert_choice_index nm choices) st args nargout nm := by
  have h0' : ((decide (nargout > 0) || args.length == 0) && decide (st.var < 0)) = false := by
    by_cases hq : nargout > 0 ∨ args = []
    · have := h0 hq
      simp [not_lt.2 this]
    · simp only [not_or] at hq
      simp [hq.1, hq.2]
  unfold set_internal_variable_choice_index set_internal_variable_shape
    convert_choice_index
  simp only [h1, h0', decide_True, Bool.not_true, Bool.false_eq_true, if_false]
  generalize wants_local_change args args.length = w
  cases w with
  | error msg => rfl
  | ok p =>
    simp only
    generalize args.getD 0 octave_value.undefined = arg
    cases h : arg.xstring_value with
    | none => simp
    | some val =>
      simp only
      split_ifs <;> simp

theorem choice_index_invalid (st : internal_variable Int) (args : List octave_value)
    (nargout : Int) (nm : String) (choices : List String)
    (hv : ¬ st.var < choices.length ∨ ((nargout > 0 ∨ args = []) ∧ st.var < 0)) :
    (set_internal_variable_choice_index st args nargout nm choices).state = st
      ∧ ∃ msg, (set_internal_variable_choice_index st args nargout nm choices).result
          = Except.error msg := by
  unfold set_internal_variable_choice_index
  by_cases h1 : st.var < (choices.length : Int)
  · rcases hv with hv | ⟨hq, hneg⟩
    · exact absurd h1 hv
    · have hq' : (decide (nargout > 0) || args.length == 0) = true := by
        rcases hq with hq | hq
        · simp [hq]
        · simp [hq]
      simp [h1, hq', hneg]
  · simp [h1]

theorem choice_index_cases (st : internal_variable Int) (args : List octave_value)
    (nargout : Int) (nm : String) (choices : List String) :
    (set_internal_variable_choice_index st args nargout nm choices
        = set_internal_variable_shape (fun v => choices.getD v.toNat "")
            (convert_choice_index nm choices) st args nargout nm)
      ∨ ((set_internal_variable_choice_index st args nargout nm choices).state = st
        ∧ ∃ msg, (set_internal_variable_choice_index st args nargout nm choices).result
            = Except.error msg) := by
  by_cases h1 : st.var < choices.length
  · by_cases h0 : (nargout > 0 ∨ args = []) → 0 ≤ st.var
    · exact Or.inl (choice_index_shape st args nargout nm choices h1 h0)
    · simp only [not_forall, not_le] at h0
      obtain ⟨hq, hneg⟩ := h0
      exact Or.inr (choice_index_invalid st args nargout nm choices (Or.inr ⟨hq, hneg⟩))
  · exact Or.inr (choice_index_invalid st args nargout nm choices (Or.inl h1))

/-! ## The loop over the choices -/

theorem choice_loop_shift (s : String) (l : List String) (k : Nat) :
    choice_loop s l k = k + choice_loop s l 0 := by
  induction l generalizing k with
  | nil => simp [choice_loop]
  | cons c rest ih =>
    unfold choice_loop
    by_cases h : (s == c) = true
    · simp [h]
    · have hb : (s == c) = false := by simpa using h
      simp only [hb, Bool.false_eq_true, if_false]
      rw [ih (k + 1), ih (0 + 1)]
      omega

theorem choice_loop_le (s : String) (l : List String) : choice_loop s l 0 ≤ l.length := by
  induction l with
  | nil => simp [choice_loop]
  | cons c rest ih =>
    unfold choice_loop
    by_cases h : (s == c) = true
    · simp [h]
    · have hb : (s == c) = false := by simpa using h
      simp only [hb, Bool.false_eq_true, if_false]
      rw [choice_loop_shift]
      simp only [List.length_cons]
      omega

theorem choice_loop_eq_length_iff (s : String) (l : List String) :
    choice_loop s l 0 = l.length ↔ s ∉ l := by
  induction l with
  | nil => simp [choice_loop]
  | cons c rest ih =>
    unfold choice_loop
    by_cases h : s = c
    · subst h
      simp
    · have hb : (s == c) = false := by simpa using h
      simp only [hb, Bool.false_eq_true, if_false, List.mem_cons, h, false_or]
      rw [choice_loop_shift, ← ih]
      simp only [List.length_cons]
      omega

theorem choice_loop_first (s : String) (l : List String) (hs : s ∈ l) :
    l[choice_loop s l 0]? = some s
      ∧ ∀ j, j < choice_loop s l 0 → l[j]? ≠ some s := by
  induction l with
  | nil => simp at hs
  | cons c rest ih =>
    unfold choice_loop
    by_cases h : s = c
    · subst h
      simp
    · have hb : (s == c) = false := by simpa using h
      have hrest : s ∈ rest := by
        rcases List.mem_cons.1 hs with h' | h'
        · exact absurd h' h
        · exact h'
      obtain ⟨ih1, ih2⟩ := ih hrest
      simp only [hb, Bool.false_eq_true, if_false]
      rw [choice_loop_shift]
      constructor
      · have : 0 + 1 + choice_loop s rest 0 = choice_loop s rest 0 + 1 := by omega
        rw [this, List.getElem?_cons_succ]
        exact ih1
      · intro j hj
        cases j with
        | zero =>
          simp only [List.getElem?_cons_zero, ne_eq, Option.some.injEq]
          exact fun hc => h hc.symm
        | succ j =>
          rw [List.getElem?_cons_succ]
          exact ih2 j (by omega)

/-! ## The value that a successful call stores -/

theorem convert_bool_holds (nm : String) (v : octave_value) (x : Bool)
    (h : convert_bool nm v = Except.ok x) : holds_bool v x := by
  unfold convert_bool at h
  unfold holds_bool
  cases hv : v.xbool_value with
  | none => rw [hv] at h; simp at h
  | some b => rw [hv] at h; simp at h; rw [h]

theorem convert_char_holds (nm : String) (v : octave_value) (x : Char)
    (h : convert_char nm v = Except.ok x) : holds_char v x := by
  unfold convert_char at h
  cases hv : v.xstring_value with
  | none => rw [hv] at h; simp at h
  | some sval =>
    rw [hv] at h
    refine ⟨sval, hv, ?_⟩
    simp only at h
    split at h
    · rename_i hsize
      simp only [Except.ok.injEq] at h
      exact Or.inl ⟨hsize, h.symm⟩
    · rename_i hsize
      simp only [Except.ok.injEq] at h
      exact Or.inr ⟨hsize, h.symm⟩
    · simp at h

theorem convert_int_holds (nm : String) (minval maxval : Int) (v : octave_value) (x : Int)
    (h : convert_int nm minval maxval v = Except.ok x) : holds_int v x := by
  unfold convert_int at h
  unfold holds_int
  cases hv : v.xint_value with
  | none => rw [hv] at h; simp at h
  | some ival =>
    rw [hv] at h
    simp only at h
    split_ifs at h
    simp only [Except.ok.injEq] at h
    rw [h]

theorem convert_double_holds (format_g : Float → String) (nm : String)
    (minval maxval : Float) (v : octave_value) (x : Float)
    (h : convert_double format_g nm minval maxval v = Except.ok x) : holds_double v x := by
  unfold convert_double at h
  unfold holds_double
  cases hv : v.xscalar_value with
  | none => rw [hv] at h; simp at h
  | some dval =>
    rw [hv] at h
    simp only at h
    split_ifs at h
    simp only [Except.ok.injEq] at h
    rw [h]

theorem convert_string_holds (nm : String) (empty_ok : Bool) (v : octave_value) (x : String)
    (h : convert_string nm empty_ok v = Except.ok x) : holds_string v x := by
  unfold convert_string at h
  unfold holds_string
  cases hv : v.xstring_value with
  | none => rw [hv] at h; simp at h
  | some sval =>
    rw [hv] at h
    simp only at h
    split_ifs at h
    simp only [Except.ok.injEq] at h
    rw [h]

theorem convert_choice_index_holds (nm : String) (choices : List String) (v : octave_value)
    (x : Int) (h : convert_choice_index nm choices v = Except.ok x) :
    holds_choice_index choices v x := by
  unfold convert_choice_index at h
  cases hv : v.xstring_value with
  | none => rw [hv] at h; simp at h
  | some sval =>
    rw [hv] at h
    simp only at h
    split_ifs at h with hlen
    simp only [Except.ok.injEq] at h
    have hmem : sval ∈ choices := by
      by_contra hn
      exact hlen (by simpa using (choice_loop_eq_length_iff sval choices).2 hn)
    obtain ⟨h1, h2⟩ := choice_loop_first sval choices hmem
    exact ⟨sval, choice_loop sval choices 0, hv, h.symm, h1, h2⟩

theorem convert_choice_string_holds (nm : String) (choices : List String) (v : octave_value)
    (x : String) (h : convert_choice_string nm choices v = Except.ok x) :
    holds_choice_string choices v x := by
  unfold convert_choice_string at h
  cases hv : v.xstring_value with
  | none => rw [hv] at h; simp at h
  | some sval =>
    rw [hv] at h
    simp only at h
    split_ifs at h with hlen
    simp only [Except.ok.injEq] at h
    subst h
    refine ⟨hv, ?_⟩
    by_contra hn
    exact hlen (by simpa using (choice_loop_eq_length_iff sval choices).2 hn)

/-! ## Properties of the common shape -/

theorem local_protect_or_warn_var {T : Type} (st : internal_variable T) (is_local : Bool) :
    (local_protect_or_warn st is_local).var = st.var := by
  unfold local_protect_or_warn try_local_protect
  cases is_local <;> cases st.frame <;> simp

theorem wants_local_change_nil : wants_local_change [] 0 = Except.ok (false, 0) := by
  simp [wants_local_change]

theorem wants_local_change_many (args : List octave_value) (h : 3 ≤ args.length) :
    wants_local_change args args.length = Except.ok (false, args.length) := by
  have : args.length ≠ 2 := by omega
  simp [wants_local_change, this]

theorem wants_local_change_not_marker (args : List octave_value) (h : args.length = 2)
    (hm : ¬ is_local_marker (args.getD 1 octave_value.undefined)) :
    wants_local_change args args.length = Except.error second_argument_error := by
  unfold is_local_marker at hm
  simp only [wants_local_change, h, beq_self_eq_true, if_true]
  generalize args.getD 1 octave_value.undefined = arg1 at hm ⊢
  by_cases h1 : arg1.is_string = true
  · have h2 : ¬ arg1.string_value = "local" := fun h2 => hm ⟨h1, h2⟩
    simp [h1, h2]
  · simp [h1]

theorem shape_failure_keeps_value {T R : Type} (shown : T → R)
    (convert : octave_value → Except String T) :
    failure_keeps_value (set_internal_variable_shape shown convert) := by
  intro st args nargout nm msg
  unfold set_internal_variable_shape
  simp only
  generalize wants_local_change args args.length = w
  cases w with
  | error e => intro _; rfl
  | ok p =>
    simp only
    generalize convert (args.getD 0 octave_value.undefined) = c
    cases c with
    | error e => split_ifs <;> intro _ <;> exact local_protect_or_warn_var st p.1
    | ok v =>
      split_ifs
      all_goals first
        | (intro _; exact local_protect_or_warn_var st p.1)
        | (intro h; simp at h)

theorem shape_nil {T R : Type} (shown : T → R) (convert : octave_value → Except String T)
    (st : internal_variable T) (nargout : Int) (nm : String) :
    set_internal_variable_shape shown convert st [] nargout nm
      = ⟨st, Except.ok (some (shown st.var))⟩ := by
  simp [set_internal_variable_shape, wants_local_change, local_protect_or_warn]

theorem shape_one {T R : Type} (shown : T → R) (convert : octave_value → Except String T)
    (st : internal_variable T) (v : octave_value) (nargout : Int) (nm : String) :
    set_internal_variable_shape shown convert st [v] nargout nm
      = match convert v with
        | Except.error msg => ⟨st, Except.error msg⟩
        | Except.ok x =>
          ⟨{ st with var := x },
            Except.ok (if nargout > 0 then some (shown st.var) else none)⟩ := by
  simp [set_internal_variable_shape, wants_local_change, local_protect_or_warn]

theorem shape_local {T R : Type} (shown : T → R) (convert : octave_value → Except String T)
    (st : internal_variable T) (v marker : octave_value) (nargout : Int) (nm : String)
    (hm : is_local_marker marker) :
    set_internal_variable_shape shown convert st [v, marker] nargout nm
      = match convert v with
        | Except.error msg => ⟨local_protect_or_warn st true, Except.error msg⟩
        | Except.ok x =>
          ⟨{ local_protect_or_warn st true with var := x },
            Except.ok (if nargout > 0 then some (shown st.var) else none)⟩ := by
  simp [set_internal_variable_shape, wants_local_change, hm.1, hm.2]

theorem shape_success_returns_old_value {T R : Type} (shown : T → R)
    (convert : octave_value → Except String T) :
    success_returns_old_value shown (set_internal_variable_shape shown convert) := by
  intro st args nargout nm retval hok hq
  have hq' : (decide (nargout > 0) || args.length == 0) = true := by
    rcases hq with hq | hq
    · simp [hq]
    · simp [hq]
  revert hok
  unfold set_internal_variable_shape
  simp only [hq', if_true]
  generalize wants_local_change args args.length = w
  cases w with
  | error e => intro h; simp at h
  | ok p =>
    simp only
    generalize convert (args.getD 0 octave_value.undefined) = c
    cases c <;> split_ifs <;> intro h <;> simp at h <;> exact h.symm

theorem shape_query_changes_nothing {T R : Type} (shown : T → R)
    (convert : octave_value → Except String T) :
    query_changes_nothing shown (set_internal_variable_shape shown convert) := by
  intro st nargout nm
  rw [shape_nil]
  exact ⟨rfl, rfl⟩

theorem shape_extra_arguments_fail {T R : Type} (shown : T → R)
    (convert : octave_value → Except String T) :
    extra_arguments_fail (set_internal_variable_shape shown convert) := by
  intro st args nargout nm hmany
  unfold set_internal_variable_shape
  rcases hmany with h3 | ⟨h2, hm⟩
  · have hgt : args.length > 1 := by omega
    simp [wants_local_change_many args h3, local_protect_or_warn, hgt]
  · simp [wants_local_change_not_marker args h2 hm]

theorem shape_local_outside_function {T R : Type} (shown : T → R)
    (convert : octave_value → Except String T) (holds : octave_value → T → Prop)
    (hconv : ∀ v x, convert v = Except.ok x → holds v x) :
    local_outside_function_is_permanent holds (set_internal_variable_shape shown convert) := by
  intro st v marker nargout nm retval hframe hm
  rw [shape_one, shape_local shown convert st v marker nargout nm hm]
  cases hc : convert v with
  | error e => intro h; simp at h
  | ok x =>
    intro h
    dsimp only at h ⊢
    refine ⟨?_, h, hconv v x hc, rfl, ?_, ?_⟩
    · simp [try_local_protect, hframe]
    · simp [local_protect_or_warn, try_local_protect, hframe]
    · simp [local_protect_or_warn, try_local_protect, hframe]

theorem shape_local_round_trip {T R : Type} (shown : T → R)
    (convert : octave_value → Except String T) (holds : octave_value → T → Prop)
    (hconv : ∀ v x, convert v = Except.ok x → holds v x) :
    local_round_trip holds (set_internal_variable_shape shown convert) := by
  intro st v marker nargout nm retval hframe hm
  rw [shape_one, shape_local shown convert st v marker nargout nm hm]
  cases hc : convert v with
  | error e => intro h; simp at h
  | ok x =>
    intro h
    dsimp only at h ⊢
    refine ⟨h, hconv v x hc, rfl, ?_, ?_⟩
    · simp [local_protect_or_warn, try_local_protect, hframe]
    · intro ended
      simp [end_invocation, unwind_frame, local_protect_or_warn, try_local_protect, hframe]

/-! ## Failed calls, returned values and argument counts, for every overload -/

theorem choice_index_of_success (st : internal_variable Int) (args : List octave_value)
    (nargout : Int) (nm : String) (choices : List String) (retval : Option String)
    (h : (set_internal_variable_choice_index st args nargout nm choices).result
      = Except.ok retval) :
    st.var < choices.length ∧ ((nargout > 0 ∨ args = []) → 0 ≤ st.var) := by
  by_contra hc
  have hinv : ¬ st.var < choices.length ∨ ((nargout > 0 ∨ args = []) ∧ st.var < 0) := by
    by_cases h1 : st.var < choices.length
    · right
      by_contra h2
      apply hc
      refine ⟨h1, fun hq => ?_⟩
      by_contra h3
      exact h2 ⟨hq, not_le.1 h3⟩
    · exact Or.inl h1
  obtain ⟨_, msg, hmsg⟩ := choice_index_invalid st args nargout nm choices hinv
  rw [hmsg] at h
  simp at h

/-- Claim C11: for each of the seven overloads of `set_internal_variable` and every
argument list, a call that fails, for whatever reason, leaves the variable with the
value it had before the call. -/
theorem failed_set_keeps_value :
    failure_keeps_value set_internal_variable_bool
      ∧ failure_keeps_value set_internal_variable_char
      ∧ (∀ minval maxval : Int, failure_keeps_value
          (fun st args nargout nm => set_internal_variable_int st args nargout nm minval maxval))
      ∧ (∀ (format_g : Float → String) (minval maxval : Float), failure_keeps_value
          (fun st args nargout nm =>
            set_internal_variable_double format_g st args nargout nm minval maxval))
      ∧ (∀ empty_ok : Bool, failure_keeps_value
          (fun st args nargout nm => set_internal_variable_string st args nargout nm empty_ok))
      ∧ (∀ choices : List String, failure_keeps_value
          (fun st args nargout nm =>
            set_internal_variable_choice_index st args nargout nm choices))
      ∧ (∀ choices : List String, failure_keeps_value
          (fun st args nargout nm =>
            set_internal_variable_choice_string st args nargout nm choices)) := by
  refine ⟨?_, ?_, ?_, ?_, ?_, ?_, ?_⟩
  · intro st args nargout nm msg
    rw [bool_shape]
    exact shape_failure_keeps_value id (convert_bool nm) st args nargout nm msg
  · intro st args nargout nm msg
    rw [char_shape]
    exact shape_failure_keeps_value id (convert_char nm) st args nargout nm msg
  · intro minval maxval st args nargout nm msg
    show (set_internal_variable_int st args nargout nm minval maxval).result = _ →
      (set_internal_variable_int st args nargout nm minval maxval).state.var = _
    rw [int_shape]
    exact shape_failure_keeps_value id (convert_int nm minval maxval) st args nargout nm msg
  · intro format_g minval maxval st args nargout nm msg
    show (set_internal_variable_double format_g st args nargout nm minval maxval).result = _ →
      (set_internal_variable_double format_g st args nargout nm minval maxval).state.var = _
    rw [double_shape]
    exact shape_failure_keeps_value id (convert_double format_g nm minval maxval) st args nargout nm
      msg
  · intro empty_ok st args nargout nm msg
    show (set_internal_variable_string st args nargout nm empty_ok).result = _ →
      (set_internal_variable_string st args nargout nm empty_ok).state.var = _
    rw [string_shape]
    exact shape_failure_keeps_value id (convert_string nm empty_ok) st args nargout nm msg
  · intro choices st args nargout nm msg
    show (set_internal_variable_choice_index st args nargout nm choices).result = _ →
      (set_internal_variable_choice_index st args nargout nm choices).state.var = _
    rcases choice_index_cases st args nargout nm choices with h | ⟨h, _⟩
    · rw [h]
      exact shape_failure_keeps_value _ (convert_choice_index nm choices) st args nargout nm
        msg
    · intro _
      rw [h]
  · intro choices st args nargout nm msg
    show (set_internal_variable_choice_string st args nargout nm choices).result = _ →
      (set_internal_variable_choice_string st args nargout nm choices).state.var = _
    rw [choice_string_shape]
    exact shape_failure_keeps_value id (convert_choice_string nm choices) st args nargout nm
      msg

/-- The value 6 for a variable bounded by 0 and 5, with `"local"` inside a function:
the call fails and the variable still holds 10. -/
theorem failed_set_keeps_value_witness :
    (set_internal_variable_int in_function_variable
        [octave_value.of_int 6, octave_value.of_string "local"] 0 "debug_level" 0 5).result
        = Except.error "debug_level: arg must be less than or equal to 5"
      ∧ (set_internal_variable_int in_function_variable
        [octave_value.of_int 6, octave_value.of_string "local"] 0 "debug_level" 0 5).state.var
        = 10 :=
  ⟨rfl,
    failed_set_keeps_value.2.2.1 0 5 in_function_variable
      [octave_value.of_int 6, octave_value.of_string "local"] 0 "debug_level"
      "debug_level: arg must be less than or equal to 5" rfl⟩

/-- Claim C12: for each overload, a successful call with `nargout > 0` or with no
argument returns the value the variable had before the call (for the choice-index
overload the string `choices[var]` of a valid position `var`, not the index), and a
call with no argument succeeds and changes nothing. -/
theorem successful_set_returns_old_value :
    (success_returns_old_value id set_internal_variable_bool
        ∧ query_changes_nothing id set_internal_variable_bool)
      ∧ (success_returns_old_value id set_internal_variable_char
        ∧ query_changes_nothing id set_internal_variable_char)
      ∧ (∀ minval maxval : Int,
          success_returns_old_value id
            (fun st args nargout nm =>
              set_internal_variable_int st args nargout nm minval maxval)
          ∧ query_changes_nothing id
            (fun st args nargout nm =>
              set_internal_variable_int st args nargout nm minval maxval))
      ∧ (∀ (format_g : Float → String) (minval maxval : Float),
          success_returns_old_value id
            (fun st args nargout nm =>
              set_internal_variable_double format_g st args nargout nm minval maxval)
          ∧ query_changes_nothing id
            (fun st args nargout nm =>
              set_internal_variable_double format_g st args nargout nm minval maxval))
      ∧ (∀ empty_ok : Bool,
          success_returns_old_value id
            (fun st args nargout nm =>
              set_internal_variable_string st args nargout nm empty_ok)
          ∧ query_changes_nothing id
            (fun st args nargout nm =>
              set_internal_variable_string st args nargout nm empty_ok))
      ∧ (∀ choices : List String,
          success_returns_old_value (fun v => choices.getD v.toNat "")
            (fun st args nargout nm =>
              set_internal_variable_choice_index st args nargout nm choices)
          ∧ (∀ (st : internal_variable Int) (args : List octave_value) (nargout : Int)
              (nm : String) (retval : Option String),
              (set_internal_variable_choice_index st args nargout nm choices).result
                  = Except.ok retval →
                (nargout > 0 ∨ args = []) →
                valid_choice_index st choices
                  ∧ retval = choices[st.var.toNat]?)
          ∧ (∀ (st : internal_variable Int) (nargout : Int) (nm : String),
              (set_internal_variable_choice_index st [] nargout nm choices).state = st
                ∧ (valid_choice_index st choices →
                  (set_internal_variable_choice_index st [] nargout nm choices).result
                    = Except.ok (some (choices.getD st.var.toNat "")))))
      ∧ (∀ choices : List String,
          success_returns_old_value id
            (fun st args nargout nm =>
              set_internal_variable_choice_string st args nargout nm choices)
          ∧ query_changes_nothing id
            (fun st args nargout nm =>
              set_internal_variable_choice_string st args nargout nm choices)) := by
  refine ⟨⟨?_, ?_⟩, ⟨?_, ?_⟩, fun minval maxval => ⟨?_, ?_⟩,
    fun format_g minval maxval => ⟨?_, ?_⟩,
    fun empty_ok => ⟨?_, ?_⟩, fun choices => ⟨?_, ?_, ?_⟩, fun choices => ⟨?_, ?_⟩⟩
  · intro st args nargout nm retval
    rw [bool_shape]
    exact shape_success_returns_old_value id (convert_bool nm) st args nargout nm retval
  · intro st nargout nm
    rw [bool_shape]
    exact shape_query_changes_nothing id (convert_bool nm) st nargout nm
  · intro st args nargout nm retval
    rw [char_shape]
    exact shape_success_returns_old_value id (convert_char nm) st args nargout nm retval
  · intro st nargout nm
    rw [char_shape]
    exact shape_query_changes_nothing id (convert_char nm) st nargout nm
  · intro st args nargout nm retval
    beta_reduce
    rw [int_shape]
    exact shape_success_returns_old_value id (convert_int nm minval maxval) st args nargout
      nm retval
  · intro st nargout nm
    beta_reduce
    rw [int_shape]
    exact shape_query_changes_nothing id (convert_int nm minval maxval) st nargout nm
  · intro st args nargout nm retval
    beta_reduce
    rw [double_shape]
    exact shape_success_returns_old_value id (convert_double format_g nm minval maxval) st args
      nargout nm retval
  · intro st nargout nm
    beta_reduce
    rw [double_shape]
    exact shape_query_changes_nothing id (convert_double format_g nm minval maxval) st nargout nm
  · intro st args nargout nm retval
    beta_reduce
    rw [string_shape]
    exact shape_success_returns_old_value id (convert_string nm empty_ok) st args nargout nm
      retval
  · intro st nargout nm
    beta_reduce
    rw [string_shape]
    exact shape_query_changes_nothing id (convert_string nm empty_ok) st nargout nm
  · intro st args nargout nm retval hok
    beta_reduce at hok
    obtain ⟨h1, h0⟩ := choice_index_of_success st args nargout nm choices retval hok
    rw [choice_index_shape st args nargout nm choices h1 h0] at hok
    exact shape_success_returns_old_value _ (convert_choice_index nm choices) st args
      nargout nm retval hok
  · intro st args nargout nm retval hok hq
    obtain ⟨h1, h0⟩ := choice_index_of_success st args nargout nm choices retval hok
    have hvalid : valid_choice_index st choices := ⟨h0 hq, h1⟩
    refine ⟨hvalid, ?_⟩
    rw [choice_index_shape st args nargout nm choices h1 h0] at hok
    have hret := shape_success_returns_old_value _ (convert_choice_index nm choices) st args
      nargout nm retval hok hq
    rw [hret]
    have hlt : st.var.toNat < choices.length := by
      have := hvalid.1
      have := hvalid.2
      omega
    simp [List.getD_eq_getElem?_getD, List.getElem?_eq_getElem hlt]
  · intro st nargout nm
    constructor
    · rcases choice_index_cases st [] nargout nm choices with h | ⟨h, _⟩
      · rw [h, shape_nil]
      · exact h
    · intro hvalid
      rw [choice_index_shape st [] nargout nm choices hvalid.2 (fun _ => hvalid.1),
        shape_nil]
  · intro st args nargout nm retval
    beta_reduce
    rw [choice_string_shape]
    exact shape_success_returns_old_value id (convert_choice_string nm choices) st args
      nargout nm retval
  · intro st nargout nm
    beta_reduce
    rw [choice_string_shape]
    exact shape_query_changes_nothing id (convert_choice_string nm choices) st nargout nm

/-- A query of the choice-index variable at position 0 returns the string `none`, and a
call that stores 3 in the bounded variable returns the old value 10. -/
theorem successful_set_returns_old_value_witness :
    (set_internal_variable_int in_function_variable [octave_value.of_int 3] 1 "debug_level"
        0 5).state.var = 3
      ∧ (set_internal_variable_int in_function_variable [octave_value.of_int 3] 1
          "debug_level" 0 5).result = Except.ok (some 10)
      ∧ some (10 : Int) = some (id in_function_variable.var)
      ∧ (valid_choice_index choice_variable example_choices
        ∧ some "none" = example_choices[choice_variable.var.toNat]?) :=
  ⟨rfl, rfl,
    (successful_set_returns_old_value.2.2.1 0 5).1 in_function_variable
      [octave_value.of_int 3] 1 "debug_level" (some 10) rfl (Or.inl (by decide)),
    (successful_set_returns_old_value.2.2.2.2.2.1 example_choices).2.1 choice_variable []
      0 "on_error" (some "none") rfl (Or.inr rfl)⟩

/-- Claim C13: for each overload, a call with more than one value argument (three or
more arguments, or two arguments of which the second is not the string `"local"`)
raises an error and pushes no restoration record. -/
theorem extra_value_arguments_fail :
    extra_arguments_fail set_internal_variable_bool
      ∧ extra_arguments_fail set_internal_variable_char
      ∧ (∀ minval maxval : Int, extra_arguments_fail
          (fun st args nargout nm => set_internal_variable_int st args nargout nm minval maxval))
      ∧ (∀ (format_g : Float → String) (minval maxval : Float), extra_arguments_fail
          (fun st args nargout nm =>
            set_internal_variable_double format_g st args nargout nm minval maxval))
      ∧ (∀ empty_ok : Bool, extra_arguments_fail
          (fun st args nargout nm => set_internal_variable_string st args nargout nm empty_ok))
      ∧ (∀ choices : List String, extra_arguments_fail
          (fun st args nargout nm =>
            set_internal_variable_choice_index st args nargout nm choices))
      ∧ (∀ choices : List String, extra_arguments_fail
          (fun st args nargout nm =>
            set_internal_variable_choice_string st args nargout nm choices)) := by
  refine ⟨?_, ?_, fun minval maxval => ?_, fun format_g minval maxval => ?_,
    fun empty_ok => ?_,
    fun choices => ?_, fun choices => ?_⟩
  · intro st args nargout nm
    rw [bool_shape]
    exact shape_extra_arguments_fail id (convert_bool nm) st args nargout nm
  · intro st args nargout nm
    rw [char_shape]
    exact shape_extra_arguments_fail id (convert_char nm) st args nargout nm
  · intro st args nargout nm
    beta_reduce
    rw [int_shape]
    exact shape_extra_arguments_fail id (convert_int nm minval maxval) st args nargout nm
  · intro st args nargout nm
    beta_reduce
    rw [double_shape]
    exact shape_extra_arguments_fail id (convert_double format_g nm minval maxval)
      st args nargout nm
  · intro st args nargout nm
    beta_reduce
    rw [string_shape]
    exact shape_extra_arguments_fail id (convert_string nm empty_ok) st args nargout nm
  · intro st args nargout nm hmany
    beta_reduce
    rcases choice_index_cases st args nargout nm choices with h | ⟨h, hmsg⟩
    · rw [h]
      exact shape_extra_arguments_fail _ (convert_choice_index nm choices) st args nargout
        nm hmany
    · exact ⟨hmsg, by rw [h]⟩
  · intro st args nargout nm
    beta_reduce
    rw [choice_string_shape]
    exact shape_extra_arguments_fail id (convert_choice_string nm choices) st args nargout
      nm

/-- Two values, and a value followed by `"local"` and a third argument, for the
bounded variable inside a function: both calls fail and the frame stays empty. -/
theorem extra_value_arguments_fail_witness :
    more_than_one_value [octave_value.of_int 3, octave_value.of_int 4]
      ∧ ((∃ msg, (set_internal_variable_int in_function_variable
            [octave_value.of_int 3, octave_value.of_int 4] 0 "debug_level" 0 5).result
            = Except.error msg)
        ∧ (set_internal_variable_int in_function_variable
            [octave_value.of_int 3, octave_value.of_int 4] 0 "debug_level" 0 5).state.frame
            = in_function_variable.frame) :=
  have hmany : more_than_one_value [octave_value.of_int 3, octave_value.of_int 4] :=
    Or.inr ⟨rfl, fun h => absurd h.1 (by decide)⟩
  ⟨hmany,
    extra_value_arguments_fail.2.2.1 0 5 in_function_variable
      [octave_value.of_int 3, octave_value.of_int 4] 0 "debug_level" hmany⟩

/-- Claim C14: for each overload called as `(v, "local")` with a value `v` that the call
`(v)` accepts, while no function is active: `try_local_protect` returns false and
creates no record, the warning `"local" has no effect outside a function` is issued,
and the variable ends up holding `v`, the same value as after the call `(v)`: the
logical, integer, scalar or string value of `v`, its one character, or the position of
the first choice equal to it. -/
theorem local_outside_function_warns :
    local_outside_function_is_permanent holds_bool set_internal_variable_bool
      ∧ local_outside_function_is_permanent holds_char set_internal_variable_char
      ∧ (∀ minval maxval : Int, local_outside_function_is_permanent holds_int
          (fun st args nargout nm => set_internal_variable_int st args nargout nm minval maxval))
      ∧ (∀ (format_g : Float → String) (minval maxval : Float),
          local_outside_function_is_permanent holds_double
            (fun st args nargout nm =>
              set_internal_variable_double format_g st args nargout nm minval maxval))
      ∧ (∀ empty_ok : Bool, local_outside_function_is_permanent holds_string
          (fun st args nargout nm => set_internal_variable_string st args nargout nm empty_ok))
      ∧ (∀ choices : List String,
          local_outside_function_is_permanent (holds_choice_index choices)
            (fun st args nargout nm =>
              set_internal_variable_choice_index st args nargout nm choices))
      ∧ (∀ choices : List String,
          local_outside_function_is_permanent (holds_choice_string choices)
            (fun st args nargout nm =>
              set_internal_variable_choice_string st args nargout nm choices)) := by
  refine ⟨?_, ?_, fun minval maxval => ?_, fun format_g minval maxval => ?_,
    fun empty_ok => ?_, fun choices => ?_, fun choices => ?_⟩
  · intro st v marker nargout nm retval
    rw [bool_shape, bool_shape]
    exact shape_local_outside_function id (convert_bool nm) holds_bool
      (convert_bool_holds nm) st v marker nargout nm retval
  · intro st v marker nargout nm retval
    rw [char_shape, char_shape]
    exact shape_local_outside_function id (convert_char nm) holds_char
      (convert_char_holds nm) st v marker nargout nm retval
  · intro st v marker nargout nm retval
    beta_reduce
    rw [int_shape, int_shape]
    exact shape_local_outside_function id (convert_int nm minval maxval) holds_int
      (convert_int_holds nm minval maxval) st v marker nargout nm retval
  · intro st v marker nargout nm retval
    beta_reduce
    rw [double_shape, double_shape]
    exact shape_local_outside_function id (convert_double format_g nm minval maxval)
      holds_double (convert_double_holds format_g nm minval maxval) st v marker nargout nm
      retval
  · intro st v marker nargout nm retval
    beta_reduce
    rw [string_shape, string_shape]
    exact shape_local_outside_function id (convert_string nm empty_ok) holds_string
      (convert_string_holds nm empty_ok) st v marker nargout nm retval
  · intro st v marker nargout nm retval hframe hm hok
    beta_reduce at hok ⊢
    obtain ⟨h1, h0⟩ := choice_index_of_success st [v] nargout nm choices retval hok
    have h0' : (nargout > 0 ∨ [v, marker] = []) → 0 ≤ st.var :=
      fun hq => h0 (hq.imp id (fun h => absurd h (by simp)))
    rw [choice_index_shape st [v] nargout nm choices h1 h0] at hok ⊢
    rw [choice_index_shape st [v, marker] nargout nm choices h1 h0']
    exact shape_local_outside_function _ (convert_choice_index nm choices)
      (holds_choice_index choices) (convert_choice_index_holds nm choices) st v marker
      nargout nm retval hframe hm hok
  · intro st v marker nargout nm retval
    beta_reduce
    rw [choice_string_shape, choice_string_shape]
    exact shape_local_outside_function id (convert_choice_string nm choices)
      (holds_choice_string choices) (convert_choice_string_holds nm choices) st v marker
      nargout nm retval

/-- The value 3 with `"local"` for the bounded variable at top level: the variable ends
holding 3. -/
theorem local_outside_function_warns_witness :
    top_level_variable.frame = none
      ∧ is_local_marker (octave_value.of_string "local")
      ∧ (set_internal_variable_int top_level_variable [octave_value.of_int 3] 0 "debug_level"
          0 5).result = Except.ok none
      ∧ (set_internal_variable_int top_level_variable
          [octave_value.of_int 3, octave_value.of_string "local"] 0 "debug_level" 0
          5).state.var = 3
      ∧ (try_local_protect top_level_variable = (top_level_variable, false)
        ∧ (set_internal_variable_int top_level_variable
            [octave_value.of_int 3, octave_value.of_string "local"] 0 "debug_level" 0 5).result
            = Except.ok none
        ∧ holds_int (octave_value.of_int 3)
            (set_internal_variable_int top_level_variable
              [octave_value.of_int 3, octave_value.of_string "local"] 0 "debug_level" 0
              5).state.var
        ∧ (set_internal_variable_int top_level_variable
            [octave_value.of_int 3, octave_value.of_string "local"] 0 "debug_level" 0
            5).state.var
            = (set_internal_variable_int top_level_variable [octave_value.of_int 3] 0
                "debug_level" 0 5).state.var
        ∧ (set_internal_variable_int top_level_variable
            [octave_value.of_int 3, octave_value.of_string "local"] 0 "debug_level" 0
            5).state.frame = none
        ∧ (set_internal_variable_int top_level_variable
            [octave_value.of_int 3, octave_value.of_string "local"] 0 "debug_level" 0
            5).state.warnings = top_level_variable.warnings ++ [local_no_effect]) :=
  ⟨rfl, ⟨rfl, rfl⟩, rfl, rfl,
    local_outside_function_warns.2.2.1 0 5 top_level_variable (octave_value.of_int 3)
      (octave_value.of_string "local") 0 "debug_level" none rfl ⟨rfl, rfl⟩ rfl⟩

/-! ## Scoped changes and the end of the invocation -/

/-- Claim C15 fails as stated: the variable holds 10 inside a function whose frame
already holds the record 7 for it; the call `(3, "local")` is accepted, sets the
variable to 3 and records 10, and the end of the invocation leaves 7, not 10. -/
theorem local_set_twice_restores_oldest :
    twice_local_variable.var = 10
      ∧ twice_local_variable.frame = some [7]
      ∧ is_local_marker (octave_value.of_string "local")
      ∧ (set_internal_variable_int twice_local_variable [octave_value.of_int 3] 0
          "debug_level" 0 5).result = Except.ok none
      ∧ (set_internal_variable_int twice_local_variable
          [octave_value.of_int 3, octave_value.of_string "local"] 0 "debug_level" 0 5).result
          = Except.ok none
      ∧ (set_internal_variable_int twice_local_variable
          [octave_value.of_int 3, octave_value.of_string "local"] 0 "debug_level" 0
          5).state.var = 3
      ∧ (set_internal_variable_int twice_local_variable
          [octave_value.of_int 3, octave_value.of_string "local"] 0 "debug_level" 0
          5).state.frame = some [10, 7]
      ∧ (end_invocation (set_internal_variable_int twice_local_variable
          [octave_value.of_int 3, octave_value.of_string "local"] 0 "debug_level" 0
          5).state (Except.ok ())).state.var = 7 :=
  ⟨rfl, rfl, ⟨rfl, rfl⟩, rfl, rfl, rfl, rfl, rfl⟩

/-- Claim C15 as amended: for each overload called as `(v, "local")` with a value `v`
that the call `(v)` accepts, inside a function whose frame holds no earlier record for
the variable: the variable is set to `v` (the logical, integer, scalar or string value
of `v`, its one character, or the position of the first choice equal to it), the same
value as after the call `(v)`, its old value is recorded on the frame, and the end of
the invocation, by return or by an error raised after the call, puts the old value
back. -/
theorem local_set_round_trip :
    local_round_trip holds_bool set_internal_variable_bool
      ∧ local_round_trip holds_char set_internal_variable_char
      ∧ (∀ minval maxval : Int, local_round_trip holds_int
          (fun st args nargout nm => set_internal_variable_int st args nargout nm minval maxval))
      ∧ (∀ (format_g : Float → String) (minval maxval : Float),
          local_round_trip holds_double
            (fun st args nargout nm =>
              set_internal_variable_double format_g st args nargout nm minval maxval))
      ∧ (∀ empty_ok : Bool, local_round_trip holds_string
          (fun st args nargout nm => set_internal_variable_string st args nargout nm empty_ok))
      ∧ (∀ choices : List String, local_round_trip (holds_choice_index choices)
          (fun st args nargout nm =>
            set_internal_variable_choice_index st args nargout nm choices))
      ∧ (∀ choices : List String, local_round_trip (holds_choice_string choices)
          (fun st args nargout nm =>
            set_internal_variable_choice_string st args nargout nm choices)) := by
  refine ⟨?_, ?_, fun minval maxval => ?_, fun format_g minval maxval => ?_,
    fun empty_ok => ?_, fun choices => ?_, fun choices => ?_⟩
  · intro st v marker nargout nm retval
    rw [bool_shape, bool_shape]
    exact shape_local_round_trip id (convert_bool nm) holds_bool (convert_bool_holds nm)
      st v marker nargout nm retval
  · intro st v marker nargout nm retval
    rw [char_shape, char_shape]
    exact shape_local_round_trip id (convert_char nm) holds_char (convert_char_holds nm)
      st v marker nargout nm retval
  · intro st v marker nargout nm retval
    beta_reduce
    rw [int_shape, int_shape]
    exact shape_local_round_trip id (convert_int nm minval maxval) holds_int
      (convert_int_holds nm minval maxval) st v marker nargout nm retval
  · intro st v marker nargout nm retval
    beta_reduce
    rw [double_shape, double_shape]
    exact shape_local_round_trip id (convert_double format_g nm minval maxval) holds_double
      (convert_double_holds format_g nm minval maxval) st v marker nargout nm retval
  · intro st v marker nargout nm retval
    beta_reduce
    rw [string_shape, string_shape]
    exact shape_local_round_trip id (convert_string nm empty_ok) holds_string
      (convert_string_holds nm empty_ok) st v marker nargout nm retval
  · intro st v marker nargout nm retval hframe hm hok
    beta_reduce at hok ⊢
    obtain ⟨h1, h0⟩ := choice_index_of_success st [v] nargout nm choices retval hok
    have h0' : (nargout > 0 ∨ [v, marker] = []) → 0 ≤ st.var :=
      fun hq => h0 (hq.imp id (fun h => absurd h (by simp)))
    rw [choice_index_shape st [v] nargout nm choices h1 h0] at hok ⊢
    rw [choice_index_shape st [v, marker] nargout nm choices h1 h0']
    exact shape_local_round_trip _ (convert_choice_index nm choices)
      (holds_choice_index choices) (convert_choice_index_holds nm choices) st v marker
      nargout nm retval hframe hm hok
  · intro st v marker nargout nm retval
    beta_reduce
    rw [choice_string_shape, choice_string_shape]
    exact shape_local_round_trip id (convert_choice_string nm choices)
      (holds_choice_string choices) (convert_choice_string_holds nm choices) st v marker
      nargout nm retval

/-- The value 3 with `"local"` for the bounded variable inside a function with an empty
frame, the invocation ending with an error: the variable is set to 3, the frame records
10, and the end of the invocation leaves 10. -/
theorem local_set_round_trip_witness :
    in_function_variable.frame = some []
      ∧ is_local_marker (octave_value.of_string "local")
      ∧ (set_internal_variable_int in_function_variable [octave_value.of_int 3] 0
          "debug_level" 0 5).result = Except.ok none
      ∧ (set_internal_variable_int in_function_variable
          [octave_value.of_int 3, octave_value.of_string "local"] 0 "debug_level" 0
          5).state.var = 3
      ∧ holds_int (octave_value.of_int 3)
          (set_internal_variable_int in_function_variable
            [octave_value.of_int 3, octave_value.of_string "local"] 0 "debug_level" 0
            5).state.var
      ∧ (set_internal_variable_int in_function_variable
          [octave_value.of_int 3, octave_value.of_string "local"] 0 "debug_level" 0
          5).state.frame = some [in_function_variable.var]
      ∧ (end_invocation (set_internal_variable_int in_function_variable
          [octave_value.of_int 3, octave_value.of_string "local"] 0 "debug_level" 0
          5).state (Except.error "error: failed" : Except String Unit)).state.var
          = in_function_variable.var :=
  have h := local_set_round_trip.2.2.1 0 5 in_function_variable (octave_value.of_int 3)
    (octave_value.of_string "local") 0 "debug_level" none rfl ⟨rfl, rfl⟩ rfl
  ⟨rfl, ⟨rfl, rfl⟩, rfl, rfl, h.2.1, h.2.2.2.1, h.2.2.2.2 (Except.error "error: failed")⟩

/-! ## The choice-index overload -/

/-- Claim C16: for the choice-index overload with choices `c[0..n-1]` and a variable
with `0 ≤ var < n`, a call with one string argument `s` succeeds if and only if `s`
is one of the choices; then `var` becomes the smallest `i` with `c[i] = s`, and a
following call without arguments returns the string `s`. -/
theorem choice_index_set_then_query (st : internal_variable Int) (arg : octave_value)
    (s : String) (nargout : Int) (nm : String) (choices : List String)
    (hvalid : valid_choice_index st choices)
    (hs : arg.xstring_value = some s) :
    ((∃ retval, (set_internal_variable_choice_index st [arg] nargout nm choices).result
          = Except.ok retval) ↔ s ∈ choices)
      ∧ (s ∈ choices →
          (∃ i : Nat,
            (set_internal_variable_choice_index st [arg] nargout nm choices).state.var = i
              ∧ choices[i]? = some s
              ∧ ∀ j, j < i → choices[j]? ≠ some s)
          ∧ ∀ nargout_query : Int,
              (set_internal_variable_choice_index
                (set_internal_variable_choice_index st [arg] nargout nm choices).state []
                nargout_query nm choices).result = Except.ok (some s)) := by
  have hshape := choice_index_shape st [arg] nargout nm choices hvalid.2 (fun _ => hvalid.1)
  rw [hshape, shape_one]
  by_cases hmem : s ∈ choices
  · have hne : choice_loop s choices 0 ≠ choices.length :=
      fun h => (choice_loop_eq_length_iff s choices).1 h hmem
    have hlt : choice_loop s choices 0 < choices.length :=
      lt_of_le_of_ne (choice_loop_le s choices) hne
    obtain ⟨hfirst, hmin⟩ := choice_loop_first s choices hmem
    have hconv : convert_choice_index nm choices arg
        = Except.ok ((choice_loop s choices 0 : Nat) : Int) := by
      simp [convert_choice_index, hs, hne]
    rw [hconv]
    dsimp only
    refine ⟨⟨fun _ => hmem, fun _ => ⟨_, rfl⟩⟩, fun _ => ⟨⟨_, rfl, hfirst, hmin⟩, ?_⟩⟩
    intro nargout_query
    have hvalid' : valid_choice_index
        { st with var := ((choice_loop s choices 0 : Nat) : Int) } choices := by
      constructor
      · exact Int.ofNat_nonneg _
      · exact Int.ofNat_lt.2 hlt
    rw [choice_index_shape _ [] nargout_query nm choices hvalid'.2 (fun _ => hvalid'.1),
      shape_nil]
    simp only [Int.toNat_ofNat, List.getD_eq_getElem?_getD, hfirst, Option.getD_some]
  · have heq : choice_loop s choices 0 = choices.length :=
      (choice_loop_eq_length_iff s choices).2 hmem
    have hconv : convert_choice_index nm choices arg
        = Except.error (value_not_allowed nm s) := by
      simp [convert_choice_index, hs, heq]
    rw [hconv]
    dsimp only
    refine ⟨⟨fun h => ?_, fun h => absurd h hmem⟩, fun h => absurd h hmem⟩
    obtain ⟨retval, hret⟩ := h
    simp at hret

/-- The choice `warning`, which occurs at the positions 1 and 3 of the example choices:
the variable becomes 1 and the query returns `warning`. -/
theorem choice_index_set_then_query_witness :
    valid_choice_index choice_variable example_choices
      ∧ (octave_value.of_string "warning").xstring_value = some "warning"
      ∧ "warning" ∈ example_choices
      ∧ (set_internal_variable_choice_index choice_variable [octave_value.of_string "warning"]
          0 "on_error" example_choices).state.var = 1
      ∧ (∃ i : Nat,
          (set_internal_variable_choice_index choice_variable
              [octave_value.of_string "warning"] 0 "on_error" example_choices).state.var = i
            ∧ example_choices[i]? = some "warning"
            ∧ ∀ j, j < i → example_choices[j]? ≠ some "warning")
      ∧ ∀ nargout_query : Int,
          (set_internal_variable_choice_index
            (set_internal_variable_choice_index choice_variable
              [octave_value.of_string "warning"] 0 "on_error" example_choices).state []
            nargout_query "on_error" example_choices).result = Except.ok (some "warning") :=
  have hvalid : valid_choice_index choice_variable example_choices :=
    ⟨by decide, by decide⟩
  have hmem : "warning" ∈ example_choices := by decide
  ⟨hvalid, rfl, hmem, rfl,
    (choice_index_set_then_query choice_variable (octave_value.of_string "warning")
      "warning" 0 "on_error" example_choices hvalid rfl).2 hmem⟩

/-! ## The option loop of `clear` -/

theorem is_primary_option_iff (arg : String) :
    is_primary_option arg = true ↔
      arg = "-all" ∨ arg = "-a" ∨ arg = "-functions" ∨ arg = "-f" ∨ arg = "-global"
        ∨ arg = "-g" ∨ arg = "-variables" ∨ arg = "-v" ∨ arg = "-classes" ∨ arg = "-c"
        ∨ arg = "-regexp" ∨ arg = "-r" := by
  simp [is_primary_option]

theorem is_exclusive_option_iff (arg : String) :
    is_exclusive_option arg = true ↔ arg = "-exclusive" ∨ arg = "-x" := by
  simp [is_exclusive_option]

theorem option_loop_second_primary (arg : String) (rest : List String) (flags : clear_flags)
    (h : is_primary_option arg = true) (hd : flags.have_dash_option = true) :
    option_loop (arg :: rest) flags = Except.error (print_usage "clear") := by
  rcases (is_primary_option_iff arg).1 h with
    rfl | rfl | rfl | rfl | rfl | rfl | rfl | rfl | rfl | rfl | rfl | rfl <;>
    simp [option_loop, hd]

theorem option_loop_first_primary (arg : String) (rest : List String) (flags : clear_flags)
    (h : is_primary_option arg = true) (hd : flags.have_dash_option = false) :
    ∃ flags' : clear_flags, flags'.have_dash_option = true
      ∧ option_loop (arg :: rest) flags = option_loop rest flags' := by
  rcases (is_primary_option_iff arg).1 h with
    rfl | rfl | rfl | rfl | rfl | rfl | rfl | rfl | rfl | rfl | rfl | rfl
  · exact ⟨{ flags with have_dash_option := true, clear_all := true }, rfl,
      by simp [option_loop, hd]⟩
  · exact ⟨{ flags with have_dash_option := true, clear_all := true }, rfl,
      by simp [option_loop, hd]⟩
  · exact ⟨{ flags with have_dash_option := true, clear_functions := true }, rfl,
      by simp [option_loop, hd]⟩
  · exact ⟨{ flags with have_dash_option := true, clear_functions := true }, rfl,
      by simp [option_loop, hd]⟩
  · exact ⟨{ flags with have_dash_option := true, clear_globals := true }, rfl,
      by simp [option_loop, hd]⟩
  · exact ⟨{ flags with have_dash_option := true, clear_globals := true }, rfl,
      by simp [option_loop, hd]⟩
  · exact ⟨{ flags with have_dash_option := true, clear_variables := true }, rfl,
      by simp [option_loop, hd]⟩
  · exact ⟨{ flags with have_dash_option := true, clear_variables := true }, rfl,
      by simp [option_loop, hd]⟩
  · exact ⟨{ flags with have_dash_option := true, clear_objects := true }, rfl,
      by simp [option_loop, hd]⟩
  · exact ⟨{ flags with have_dash_option := true, clear_objects := true }, rfl,
      by simp [option_loop, hd]⟩
  · exact ⟨{ flags with have_dash_option := true, have_regexp := true }, rfl,
      by simp [option_loop, hd]⟩
  · exact ⟨{ flags with have_dash_option := true, have_regexp := true }, rfl,
      by simp [option_loop, hd]⟩

theorem option_loop_exclusive (arg : String) (rest : List String) (flags : clear_flags)
    (h : is_exclusive_option arg = true) :
    option_loop (arg :: rest) flags = option_loop rest { flags with exclusive := true } := by
  rcases (is_exclusive_option_iff arg).1 h with rfl | rfl <;> simp [option_loop]

theorem exclusive_not_primary (arg : String) (h : is_exclusive_option arg = true) :
    is_primary_option arg = false := by
  rcases (is_exclusive_option_iff arg).1 h with rfl | rfl <;> decide

theorem option_loop_primary_count (args : List String) :
    ∀ flags : clear_flags,
      (flags.have_dash_option = true →
        1 ≤ (leading_options args).countP is_primary_option →
        option_loop args flags = Except.error (print_usage "clear"))
      ∧ (flags.have_dash_option = false →
        2 ≤ (leading_options args).countP is_primary_option →
        option_loop args flags = Except.error (print_usage "clear")) := by
  induction args with
  | nil =>
    intro flags
    simp [leading_options]
  | cons arg rest ih =>
    intro flags
    by_cases hp : is_primary_option arg = true
    · have hlead : leading_options (arg :: rest) = arg :: leading_options rest := by
        simp [leading_options, List.takeWhile_cons, hp]
      rw [hlead, List.countP_cons_of_pos _ _ hp]
      constructor
      · intro hd _
        exact option_loop_second_primary arg rest flags hp hd
      · intro hd hcount
        obtain ⟨flags', hd', heq⟩ := option_loop_first_primary arg rest flags hp hd
        rw [heq]
        exact (ih flags').1 hd' (by omega)
    · by_cases hx : is_exclusive_option arg = true
      · have hlead : leading_options (arg :: rest) = arg :: leading_options rest := by
          simp [leading_options, List.takeWhile_cons, hx]
        rw [hlead, List.countP_cons_of_neg _ _ hp, option_loop_exclusive arg rest flags hx]
        exact ⟨fun hd hcount => (ih _).1 hd hcount, fun hd hcount => (ih _).2 hd hcount⟩
      · have hlead : leading_options (arg :: rest) = [] := by
          simp [leading_options, List.takeWhile_cons, hp, hx]
        rw [hlead]
        simp

/-- Claim C17: for every argument list of `clear` whose leading run of option tokens
holds two or more of the primary options, with or without `-exclusive` / `-x` among
them, `clear` fails with the usage error, and the state of the name spaces is the
one before the call: nothing has been removed and no warning was issued. -/
theorem two_primary_options_are_usage_error {S : Type} (ops : symbol_table_ops S) (st : S)
    (args : List String)
    (h : 2 ≤ (leading_options args).countP is_primary_option) :
    (Fclear ops st args).result = Except.error (print_usage "clear")
      ∧ (Fclear ops st args).state = st
      ∧ (Fclear ops st args).warnings = [] := by
  have hloop := (option_loop_primary_count args clear_flags.initial).2 rfl h
  have hne : args.isEmpty = false := by
    cases args with
    | nil => simp [leading_options] at h
    | cons a l => rfl
  simp [Fclear, hne, hloop]

/-- The test `clear -f -g` of line 1415, with `-x` between the two options. -/
theorem two_primary_options_are_usage_error_witness :
    2 ≤ (leading_options ["-f", "-x", "-g", "a*"]).countP is_primary_option
      ∧ (Fclear example_ops example_names ["-f", "-x", "-g", "a*"]).result
          = Except.error (print_usage "clear")
      ∧ (Fclear example_ops example_names ["-f", "-x", "-g", "a*"]).state = example_names
      ∧ (Fclear example_ops example_names ["-f", "-x", "-g", "a*"]).warnings = [] :=
  ⟨by decide,
    two_primary_options_are_usage_error example_ops example_names ["-f", "-x", "-g", "a*"]
      (by decide)⟩

/-! ## `clear -exclusive` without patterns, and the bare keywords -/

/-- Claim C18 fails as stated: in a scope with the local variables `a1` and `b`,
`clear -x` and `clear -exclusive` remove both variables and issue no warning. -/
theorem lone_exclusive_removes_variables :
    example_names.bindings = [⟨"a1", false, false⟩, ⟨"b", false, false⟩]
      ∧ (Fclear example_ops example_names ["-x"]).state.bindings = []
      ∧ (Fclear example_ops example_names ["-x"]).warnings = []
      ∧ (Fclear example_ops example_names ["-exclusive"]).state.bindings = []
      ∧ (Fclear example_ops example_names ["-exclusive"]).warnings = [] :=
  ⟨rfl, rfl, rfl, rfl, rfl⟩

/-- Claim C18 as amended: `clear -exclusive` or `clear -x` alone, with no pattern and
no primary option, succeeds without any warning and does what `clear_variables ()` of
the current scope does (nothing when there is no scope): in the model of the name
spaces every variable binding of the scope is removed while the global namespace and
the function table are unchanged. -/
theorem lone_exclusive_is_clear_variables {S : Type} (ops : symbol_table_ops S) (st : S)
    (glob regexp : String → String → Bool) (names : name_spaces) :
    ∀ option ∈ ["-exclusive", "-x"],
      ((Fclear ops st [option]).state = (if ops.has_scope st then ops.clear_variables st else st)
        ∧ (Fclear ops st [option]).warnings = []
        ∧ (Fclear ops st [option]).result = Except.ok ())
      ∧ (names.scope = true →
          (Fclear (name_space_ops glob regexp) names [option]).state
            = { names with bindings := [] }) := by
  intro option hoption
  simp only [List.mem_cons, List.mem_singleton, List.mem_nil_iff, or_false] at hoption
  rcases hoption with rfl | rfl
  · refine ⟨⟨?_, ?_, ?_⟩, fun hscope => ?_⟩
    · simp [Fclear, option_loop, clear_flags.initial, clear_dispatch, do_clear_symbols]
    · simp [Fclear, option_loop, clear_flags.initial, clear_dispatch]
    · simp [Fclear, option_loop, clear_flags.initial, clear_dispatch]
    · simp [Fclear, option_loop, clear_flags.initial, clear_dispatch, do_clear_symbols,
        name_space_ops, hscope]
  · refine ⟨⟨?_, ?_, ?_⟩, fun hscope => ?_⟩
    · simp [Fclear, option_loop, clear_flags.initial, clear_dispatch, do_clear_symbols]
    · simp [Fclear, option_loop, clear_flags.initial, clear_dispatch]
    · simp [Fclear, option_loop, clear_flags.initial, clear_dispatch]
    · simp [Fclear, option_loop, clear_flags.initial, clear_dispatch, do_clear_symbols,
        name_space_ops, hscope]

/-- The call `clear -x` in the example scope: the variables go, the global `g` and the
functions `f` and `b` stay. -/
theorem lone_exclusive_is_clear_variables_witness :
    "-x" ∈ ["-exclusive", "-x"]
      ∧ example_names.scope = true
      ∧ (Fclear example_ops example_names ["-x"]).state
          = ⟨true, [], ["g"], [⟨"f", false⟩, ⟨"b", false⟩]⟩
      ∧ (Fclear example_ops example_names ["-x"]).warnings = [] :=
  have hmem : "-x" ∈ ["-exclusive", "-x"] := by decide
  have h := lone_exclusive_is_clear_variables example_ops example_names example_glob
    example_glob example_names "-x" hmem
  ⟨hmem, rfl, h.2 rfl, h.1.2.1⟩

/-- Claim C20, evaluated on the code: in a scope with the local variables `a1` and `b`
and the functions `f` and `b`, where no variable shadows a keyword,
`clear variables a*` removes both variables while `clear -variables a*` removes only
`a1`; and `clear functions f b` removes the variable `b` besides the two functions
while `clear -functions f b` removes the two functions only. -/
theorem bare_keyword_differs_from_dash_option :
    example_ops.is_local_variable example_names "variables" = false
      ∧ example_ops.is_local_variable example_names "functions" = false
      ∧ (Fclear example_ops example_names ["variables", "a*"]).state
          = ⟨true, [], ["g"], [⟨"f", false⟩, ⟨"b", false⟩]⟩
      ∧ (Fclear example_ops example_names ["-variables", "a*"]).state
          = ⟨true, [⟨"b", false, false⟩], ["g"], [⟨"f", false⟩, ⟨"b", false⟩]⟩
      ∧ (Fclear example_ops example_names ["functions", "f", "b"]).state
          = ⟨true, [⟨"a1", false, false⟩], ["g"], []⟩
      ∧ (Fclear example_ops example_names ["-functions", "f", "b"]).state
          = ⟨true, [⟨"a1", false, false⟩, ⟨"b", false, false⟩], ["g"], []⟩ :=
  ⟨rfl, rfl, rfl, rfl, rfl, rfl⟩

/-! ## Exclusive and plain deletion of variables -/

theorem name_matches_any_eq {S : Type} (ops : symbol_table_ops S) (nm : String)
    (pats : List String) (have_regexp : Bool) :
    name_matches_any_pattern ops nm pats have_regexp
      = pats.any (fun pat => !pat.isEmpty
          && pattern_matches ops.glob_match ops.regexp_is_match have_regexp pat nm) := by
  induction pats with
  | nil => rfl
  | cons pat rest ih =>
    unfold name_matches_any_pattern
    rw [ih]
    cases hp : pat.isEmpty <;> cases have_regexp <;> simp [pattern_matches, hp]

theorem exclusive_loop_bindings (glob regexp : String → String → Bool)
    (keep : String → Bool) (lvars : List String) (st : name_spaces) :
    lvars.foldl
        (fun s nm => if !keep nm then (name_space_ops glob regexp).clear_variable s nm else s) st
      = { st with bindings :=
            st.bindings.filter (fun b => !lvars.contains b.name || keep b.name) } := by
  induction lvars generalizing st with
  | nil => simp
  | cons nm rest ih =>
    rw [List.foldl_cons, ih]
    cases hk : keep nm
    · simp only [Bool.not_false, if_true, name_space_ops, List.filter_filter]
      congr 1
      apply List.filter_congr
      intro b _
      by_cases hb : b.name = nm
      · simp [hb, hk]
      · have hb' : ¬ nm = b.name := fun h => hb h.symm
        simp [hb, hb']
    · simp only [Bool.not_true, Bool.false_eq_true, if_false]
      congr 1
      apply List.filter_congr
      intro b _
      by_cases hb : b.name = nm
      · simp [hb, hk]
      · have hb' : ¬ nm = b.name := fun h => hb h.symm
        simp [hb, hb']

theorem plain_loop_bindings (matcher : String → String → Bool)
    (clear : name_spaces → String → name_spaces)
    (hclear : ∀ s pat, clear s pat
      = { s with bindings := s.bindings.filter (fun b => !matcher pat b.name) })
    (pats : List String) (st : name_spaces) :
    pats.foldl (fun s pat => clear s pat) st
      = { st with bindings :=
            st.bindings.filter (fun b => !pats.any (fun pat => matcher pat b.name)) } := by
  induction pats generalizing st with
  | nil => simp
  | cons pat rest ih =>
    rw [List.foldl_cons, ih, hclear]
    simp only [List.filter_filter]
    congr 1
    apply List.filter_congr
    intro b _
    simp [Bool.and_comm]

theorem do_clear_variables_exclusive (glob regexp : String → String → Bool)
    (names : name_spaces) (pats : List String) (have_regexp : Bool)
    (hscope : names.scope = true) (hne : pats ≠ []) :
    do_clear_variables (name_space_ops glob regexp) names pats true have_regexp
      = { names with bindings :=
            names.bindings.filter (fun b => pats.any (fun pat => !pat.isEmpty
              && pattern_matches glob regexp have_regexp pat b.name)) } := by
  have hpats : pats.isEmpty = false := by
    cases pats with
    | nil => exact absurd rfl hne
    | cons p l => rfl
  unfold do_clear_variables
  have hs : (name_space_ops glob regexp).has_scope names = true := hscope
  simp only [hs, hpats, Bool.not_true, Bool.false_eq_true, if_false, if_true]
  rw [exclusive_loop_bindings glob regexp
    (fun nm => name_matches_any_pattern (name_space_ops glob regexp) nm pats have_regexp)]
  congr 1
  apply List.filter_congr
  intro b hb
  have hmem : ((name_space_ops glob regexp).variable_names names).contains b.name = true := by
    have : b.name ∈ names.bindings.map (fun b => b.name) := List.mem_map.2 ⟨b, hb, rfl⟩
    simpa [name_space_ops] using this
  rw [hmem, name_matches_any_eq]
  rfl

theorem do_clear_variables_plain (glob regexp : String → String → Bool)
    (names : name_spaces) (pats : List String) (have_regexp : Bool)
    (hscope : names.scope = true) (hne : pats ≠ []) :
    do_clear_variables (name_space_ops glob regexp) names pats false have_regexp
      = { names with bindings :=
            names.bindings.filter (fun b => !pats.any (fun pat =>
              pattern_matches glob regexp have_regexp pat b.name)) } := by
  have hpats : pats.isEmpty = false := by
    cases pats with
    | nil => exact absurd rfl hne
    | cons p l => rfl
  unfold do_clear_variables
  have hs : (name_space_ops glob regexp).has_scope names = true := hscope
  simp only [hs, hpats, Bool.not_true, Bool.false_eq_true, if_false]
  cases have_regexp
  · simp only [Bool.false_eq_true, if_false]
    exact plain_loop_bindings glob _ (fun s pat => rfl) pats names
  · simp only [if_true]
    exact plain_loop_bindings regexp _ (fun s pat => rfl) pats names

theorem any_skip_empty (pats : List String) (q : String → Bool)
    (hempty : "" ∈ pats → q "" = false) :
    pats.any (fun pat => !pat.isEmpty && q pat) = pats.any q := by
  rw [Bool.eq_iff_iff, List.any_eq_true, List.any_eq_true]
  constructor
  · rintro ⟨pat, hp, h⟩
    rw [Bool.and_eq_true] at h
    exact ⟨pat, hp, h.2⟩
  · rintro ⟨pat, hp, hq⟩
    refine ⟨pat, hp, ?_⟩
    have hne : pat.isEmpty = false := by
      rw [isEmpty_eq_decide, decide_eq_false_iff_not]
      intro he
      subst he
      rw [hempty hp] at hq
      exact Bool.noConfusion hq
    rw [hne, hq]
    rfl

/-- Claim C21 fails as stated: with the pattern list `[""]` in regular-expression mode,
where the empty expression matches `foo`, `bar` and `baz`, every variable matches a
pattern of the list, yet exclusive deletion removes them all, because
`name_matches_any_pattern` passes over a pattern that is the empty string. -/
theorem exclusive_passes_over_empty_pattern :
    [""] ≠ ([] : List String)
      ∧ foo_bar_baz.scope = true
      ∧ foo_bar_baz.bindings
          = [⟨"foo", false, false⟩, ⟨"bar", false, false⟩, ⟨"baz", true, false⟩]
      ∧ (∀ b ∈ foo_bar_baz.bindings,
          pattern_matches example_glob literal_search true "" b.name = true)
      ∧ name_matches_any_pattern search_ops "foo" [""] true = false
      ∧ (do_clear_variables search_ops foo_bar_baz [""] true true).bindings = [] :=
  ⟨by decide, rfl, rfl, by decide, rfl, rfl⟩

/-- Claim C21 as amended: for every scope, every non-empty pattern list and both kinds
of pattern, exclusive deletion of variables keeps exactly the variables whose name
matches at least one pattern of the list that is not the empty string, and removes
exactly those whose name matches no such pattern; the globals and the functions are
untouched.  When the empty string, if it is among the patterns, matches no variable of
the scope, these are the variables matching at least one pattern of the list. -/
theorem exclusive_keeps_matching_variables (glob regexp : String → String → Bool)
    (names : name_spaces) (pats : List String) (have_regexp : Bool)
    (hscope : names.scope = true) (hne : pats ≠ []) :
    (do_clear_variables (name_space_ops glob regexp) names pats true have_regexp).bindings
        = names.bindings.filter (fun b => pats.any (fun pat => !pat.isEmpty
            && pattern_matches glob regexp have_regexp pat b.name))
      ∧ (∀ b ∈ names.bindings,
          (b ∈ (do_clear_variables (name_space_ops glob regexp) names pats true
              have_regexp).bindings
            ↔ ∃ pat ∈ pats, pat ≠ ""
                ∧ pattern_matches glob regexp have_regexp pat b.name = true)
          ∧ (b ∉ (do_clear_variables (name_space_ops glob regexp) names pats true
              have_regexp).bindings
            ↔ ∀ pat ∈ pats, pat ≠ "" →
                pattern_matches glob regexp have_regexp pat b.name = false))
      ∧ (do_clear_variables (name_space_ops glob regexp) names pats true
          have_regexp).globals = names.globals
      ∧ (do_clear_variables (name_space_ops glob regexp) names pats true
          have_regexp).functions = names.functions
      ∧ (("" ∈ pats →
            ∀ b ∈ names.bindings, pattern_matches glob regexp have_regexp "" b.name = false) →
          (do_clear_variables (name_space_ops glob regexp) names pats true
              have_regexp).bindings
            = names.bindings.filter (fun b => pats.any (fun pat =>
                pattern_matches glob regexp have_regexp pat b.name))) := by
  rw [do_clear_variables_exclusive glob regexp names pats have_regexp hscope hne]
  have hkept : ∀ b ∈ names.bindings,
      (b ∈ names.bindings.filter (fun b => pats.any (fun pat => !pat.isEmpty
          && pattern_matches glob regexp have_regexp pat b.name))
        ↔ ∃ pat ∈ pats, pat ≠ ""
            ∧ pattern_matches glob regexp have_regexp pat b.name = true) := by
    intro b hb
    rw [List.mem_filter, List.any_eq_true]
    constructor
    · rintro ⟨_, pat, hp, h⟩
      rw [Bool.and_eq_true, Bool.not_eq_true', isEmpty_eq_decide,
        decide_eq_false_iff_not] at h
      exact ⟨pat, hp, h.1, h.2⟩
    · rintro ⟨pat, hp, hpne, hm⟩
      refine ⟨hb, pat, hp, ?_⟩
      rw [Bool.and_eq_true, Bool.not_eq_true', isEmpty_eq_decide, decide_eq_false_iff_not]
      exact ⟨hpne, hm⟩
  refine ⟨rfl, fun b hb => ⟨hkept b hb, ?_⟩, rfl, rfl, fun hempty => ?_⟩
  · rw [hkept b hb]
    constructor
    · intro h pat hp hpne
      cases hm : pattern_matches glob regexp have_regexp pat b.name
      · rfl
      · exact absurd ⟨pat, hp, hpne, hm⟩ h
    · rintro h ⟨pat, hp, hpne, hm⟩
      rw [h pat hp hpne] at hm
      exact Bool.noConfusion hm
  · dsimp only
    apply List.filter_congr
    intro b hb
    exact any_skip_empty pats _ (fun h => hempty h b hb)

/-- The scenario of the specification: the variables `foo`, `bar` and `baz` and the
pattern `b*` leave `bar` and `baz`, also with the empty string as a second pattern. -/
theorem exclusive_keeps_matching_variables_witness :
    foo_bar_baz.scope = true
      ∧ ["", "b*"] ≠ ([] : List String)
      ∧ (do_clear_variables search_ops foo_bar_baz ["b*"] true false).bindings
          = [⟨"bar", false, false⟩, ⟨"baz", true, false⟩]
      ∧ (do_clear_variables search_ops foo_bar_baz ["", "b*"] true false).bindings
          = [⟨"bar", false, false⟩, ⟨"baz", true, false⟩]
      ∧ (do_clear_variables search_ops foo_bar_baz ["", "b*"] true false).bindings
          = foo_bar_baz.bindings.filter (fun b => ["", "b*"].any (fun pat => !pat.isEmpty
              && pattern_matches example_glob literal_search false pat b.name)) :=
  ⟨rfl, by decide, rfl, rfl,
    (exclusive_keeps_matching_variables example_glob literal_search foo_bar_baz ["", "b*"]
      false rfl (by decide)).1⟩

theorem mem_names_filter (bindings : List binding) (q : String → Bool) (name : String) :
    name ∈ (bindings.filter (fun b => q b.name)).map (fun b => b.name)
      ↔ name ∈ bindings.map (fun b => b.name) ∧ q name = true := by
  simp only [List.mem_map, List.mem_filter]
  constructor
  · rintro ⟨b, ⟨hb, hq⟩, rfl⟩
    exact ⟨⟨b, hb, rfl⟩, hq⟩
  · rintro ⟨⟨b, hb, rfl⟩, hq⟩
    exact ⟨b, ⟨hb, hq⟩, rfl⟩

theorem mem_removed_names (before after : name_spaces) (name : String) :
    name ∈ removed_names before after
      ↔ name ∈ before.bindings.map (fun b => b.name)
        ∧ name ∉ after.bindings.map (fun b => b.name) := by
  simp [removed_names]

/-- Claim C22 fails as stated: with the empty pattern list both the plain and the
exclusive deletion call `clear_variables ()` and remove every variable, so `foo` is
removed by both and the two sets are not disjoint; and with the pattern list `[""]` in
regular-expression mode, where the empty expression matches every name, `foo` is again
removed by both, by the plain deletion because it matches and by the exclusive deletion
because the empty pattern is passed over. -/
theorem complement_law_fails_without_pattern :
    do_clear_variables search_ops foo_bar_baz [] false false
        = search_ops.clear_variables foo_bar_baz
      ∧ do_clear_variables search_ops foo_bar_baz [] true false
        = search_ops.clear_variables foo_bar_baz
      ∧ "foo" ∈ removed_names foo_bar_baz
        (do_clear_variables search_ops foo_bar_baz [] false false)
      ∧ "foo" ∈ removed_names foo_bar_baz
        (do_clear_variables search_ops foo_bar_baz [] true false)
      ∧ "foo" ∈ removed_names foo_bar_baz
        (do_clear_variables search_ops foo_bar_baz [""] false true)
      ∧ "foo" ∈ removed_names foo_bar_baz
        (do_clear_variables search_ops foo_bar_baz [""] true true) :=
  ⟨rfl, rfl, by decide, by decide, by decide, by decide⟩

/-- Claim C22 as amended: for every scope, both kinds of pattern and every non-empty list
of patterns in which the empty string, if it occurs as a pattern, matches no variable of
the scope, the names removed by plain deletion and the names removed by exclusive
deletion are disjoint, and together they are all the variable names of the scope. -/
theorem exclusive_complement_law (glob regexp : String → String → Bool)
    (names : name_spaces) (pats : List String) (have_regexp : Bool)
    (hscope : names.scope = true) (hne : pats ≠ [])
    (hempty : "" ∈ pats →
      ∀ b ∈ names.bindings, pattern_matches glob regexp have_regexp "" b.name = false) :
    (∀ name,
        name ∈ removed_names names
            (do_clear_variables (name_space_ops glob regexp) names pats false have_regexp) →
          name ∉ removed_names names
            (do_clear_variables (name_space_ops glob regexp) names pats true have_regexp))
      ∧ (∀ name,
          name ∈ names.bindings.map (fun b => b.name)
            ↔ (name ∈ removed_names names
                (do_clear_variables (name_space_ops glob regexp) names pats false
                  have_regexp)
              ∨ name ∈ removed_names names
                (do_clear_variables (name_space_ops glob regexp) names pats true
                  have_regexp))) := by
  have hexcl : ∀ name,
      name ∈ (do_clear_variables (name_space_ops glob regexp) names pats true
          have_regexp).bindings.map (fun b => b.name)
        ↔ name ∈ names.bindings.map (fun b => b.name)
          ∧ pats.any (fun pat => pattern_matches glob regexp have_regexp pat name) = true := by
    intro name
    rw [do_clear_variables_exclusive glob regexp names pats have_regexp hscope hne]
    dsimp only
    rw [mem_names_filter names.bindings
      (fun nm => pats.any (fun pat => !pat.isEmpty
        && pattern_matches glob regexp have_regexp pat nm)) name]
    constructor
    · rintro ⟨hv, h⟩
      obtain ⟨b, hb, rfl⟩ := List.mem_map.1 hv
      rw [any_skip_empty pats _ (fun he => hempty he b hb)] at h
      exact ⟨hv, h⟩
    · rintro ⟨hv, h⟩
      obtain ⟨b, hb, rfl⟩ := List.mem_map.1 hv
      rw [← any_skip_empty pats _ (fun he => hempty he b hb)] at h
      exact ⟨hv, h⟩
  have hplain : ∀ name,
      name ∈ (do_clear_variables (name_space_ops glob regexp) names pats false
          have_regexp).bindings.map (fun b => b.name)
        ↔ name ∈ names.bindings.map (fun b => b.name)
          ∧ pats.any (fun pat => pattern_matches glob regexp have_regexp pat name)
            = false := by
    intro name
    rw [do_clear_variables_plain glob regexp names pats have_regexp hscope hne]
    dsimp only
    rw [mem_names_filter names.bindings
      (fun nm => !pats.any (fun pat => pattern_matches glob regexp have_regexp pat nm)) name]
    simp
  constructor
  · intro name h1 h2
    rw [mem_removed_names] at h1 h2
    rw [hplain] at h1
    rw [hexcl] at h2
    obtain ⟨hv, h1⟩ := h1
    cases hm : pats.any (fun pat => pattern_matches glob regexp have_regexp pat name)
    · exact h1 ⟨hv, hm⟩
    · exact h2.2 ⟨hv, hm⟩
  · intro name
    rw [mem_removed_names, mem_removed_names, hplain, hexcl]
    constructor
    · intro hv
      cases hm : pats.any (fun pat => pattern_matches glob regexp have_regexp pat name)
      · exact Or.inr ⟨hv, fun h => by simp at h⟩
      · exact Or.inl ⟨hv, fun h => by simp at h⟩
    · rintro (h | h) <;> exact h.1

/-- The scenario of the specification: with the pattern `b*`, plain deletion removes
`bar` and `baz`, exclusive deletion removes `foo`; the same with the empty string as a
second pattern. -/
theorem exclusive_complement_law_witness :
    foo_bar_baz.scope = true
      ∧ ["", "b*"] ≠ ([] : List String)
      ∧ removed_names foo_bar_baz (do_clear_variables search_ops foo_bar_baz ["b*"] false false)
          = ["bar", "baz"]
      ∧ removed_names foo_bar_baz (do_clear_variables search_ops foo_bar_baz ["b*"] true false)
          = ["foo"]
      ∧ removed_names foo_bar_baz
          (do_clear_variables search_ops foo_bar_baz ["", "b*"] false false) = ["bar", "baz"]
      ∧ removed_names foo_bar_baz
          (do_clear_variables search_ops foo_bar_baz ["", "b*"] true false) = ["foo"]
      ∧ (∀ name,
          name ∈ removed_names foo_bar_baz
              (do_clear_variables search_ops foo_bar_baz ["", "b*"] false false) →
            name ∉ removed_names foo_bar_baz
              (do_clear_variables search_ops foo_bar_baz ["", "b*"] true false)) :=
  ⟨rfl, by decide, by decide, by decide, by decide, by decide,
    (exclusive_complement_law example_glob literal_search foo_bar_baz ["", "b*"] false rfl
      (by decide) (fun _ => by decide)).1⟩

/-! ## `clear` without arguments -/

/-- Claim C23: `clear` without arguments calls `clear_variables ()` of the current scope
and `clear_workspace ()` and nothing else, so whatever these two operations leave
alone, such as the global namespace with its values and the function table, is
unchanged; in the model of the name spaces every variable binding of the scope,
the global aliases included, is removed while the global namespace and the function
table stay as they were. -/
theorem clear_without_arguments {S : Type} (ops : symbol_table_ops S) (st : S)
    (glob regexp : String → String → Bool) (names : name_spaces) :
    ((Fclear ops st []).state
          = ops.clear_workspace (if ops.has_scope st then ops.clear_variables st else st)
        ∧ (Fclear ops st []).warnings = []
        ∧ (Fclear ops st []).result = Except.ok ())
      ∧ (∀ (A : Type) (observe : S → A),
          (∀ s, observe (ops.clear_variables s) = observe s) →
          (∀ s, observe (ops.clear_workspace s) = observe s) →
          observe (Fclear ops st []).state = observe st)
      ∧ (names.scope = true →
          (Fclear (name_space_ops glob regexp) names []).state.bindings = []
            ∧ (Fclear (name_space_ops glob regexp) names []).state.globals = names.globals
            ∧ (Fclear (name_space_ops glob regexp) names []).state.functions
                = names.functions) := by
  have hstate : (Fclear ops st []).state
      = ops.clear_workspace (if ops.has_scope st then ops.clear_variables st else st) := by
    cases hs : ops.has_scope st <;> simp [Fclear, do_clear_variables, hs]
  refine ⟨⟨hstate, rfl, rfl⟩, ?_, ?_⟩
  · intro A observe h1 h2
    rw [hstate, h2]
    split_ifs
    · exact h1 st
    · rfl
  · intro hscope
    simp [Fclear, do_clear_variables, name_space_ops, hscope]

/-- The scope with `foo`, `bar` and the global alias `baz`: all three bindings go, the
global `baz` and both functions stay. -/
theorem clear_without_arguments_witness :
    foo_bar_baz.scope = true
      ∧ (Fclear search_ops foo_bar_baz []).state
          = ⟨true, [], ["baz"], [⟨"f", true⟩, ⟨"bark", false⟩]⟩
      ∧ ((Fclear search_ops foo_bar_baz []).state.bindings = []
        ∧ (Fclear search_ops foo_bar_baz []).state.globals = foo_bar_baz.globals
        ∧ (Fclear search_ops foo_bar_baz []).state.functions = foo_bar_baz.functions) :=
  ⟨rfl, rfl,
    (clear_without_arguments search_ops foo_bar_baz example_glob literal_search
      foo_bar_baz).2.2 rfl⟩

/-! ## Properties kept by every path of `clear` -/

theorem foldl_keeps {S A : Type} (P : S → Prop) (f : S → A → S)
    (hf : ∀ s a, P s → P (f s a)) (l : List A) (st : S) (h : P st) :
    P (l.foldl f st) := by
  induction l generalizing st with
  | nil => exact h
  | cons a rest ih => exact ih (f st a) (hf st a h)

theorem do_clear_functions_keeps {S : Type} (ops : symbol_table_ops S) (P : S → Prop)
    (hops : operations_keep ops P) (st : S) (pats : List String) (exclusive : Bool)
    (h : P st) : P (do_clear_functions ops st pats exclusive) := by
  obtain ⟨_, _, _, _, _, _, _, hfs, hf, hfp, _, _, _, _⟩ := hops
  unfold do_clear_functions
  split_ifs
  · exact hfs st h
  · apply foldl_keeps P _ _ _ st h
    intro s nm hs
    split_ifs
    · exact hf s nm hs
    · exact hs
  · exact foldl_keeps P _ (fun s pat hs => hfp s pat hs) _ st h

theorem do_clear_globals_keeps {S : Type} (ops : symbol_table_ops S) (P : S → Prop)
    (hops : operations_keep ops P) (st : S) (pats : List String) (exclusive : Bool)
    (h : P st) : P (do_clear_globals ops st pats exclusive) := by
  obtain ⟨_, hv, hvp, _, _, hg, hgp, _, _, _, _, _, _, _⟩ := hops
  unfold do_clear_globals
  split_ifs
  · exact h
  · exact foldl_keeps P _ (fun s name hs => hg _ name (hv s name hs)) _ st h
  · apply foldl_keeps P _ _ _ st h
    intro s name hs
    split_ifs
    · exact hg _ name (hv s name hs)
    · exact hs
  · exact foldl_keeps P _ (fun s pat hs => hgp _ pat (hvp s pat hs)) _ st h

theorem do_clear_variables_keeps {S : Type} (ops : symbol_table_ops S) (P : S → Prop)
    (hops : operations_keep ops P) (st : S) (pats : List String)
    (exclusive have_regexp : Bool) (h : P st) :
    P (do_clear_variables ops st pats exclusive have_regexp) := by
  obtain ⟨hvs, hv, hvp, hvr, _, _, _, _, _, _, _, _, _, _⟩ := hops
  unfold do_clear_variables
  split_ifs
  · exact h
  · exact hvs st h
  · apply foldl_keeps P _ _ _ st h
    intro s nm hs
    split_ifs
    · exact hv s nm hs
    · exact hs
  · exact foldl_keeps P _ (fun s pat hs => hvr s pat hs) _ st h
  · exact foldl_keeps P _ (fun s pat hs => hvp s pat hs) _ st h

theorem do_clear_symbols_keeps {S : Type} (ops : symbol_table_ops S) (P : S → Prop)
    (hops : operations_keep ops P) (st : S) (pats : List String) (exclusive : Bool)
    (h : P st) : P (do_clear_symbols ops st pats exclusive) := by
  unfold do_clear_symbols
  split_ifs
  · exact hops.1 st h
  · exact h
  · exact do_clear_functions_keeps ops P hops _ pats exclusive
      (do_clear_variables_keeps ops P hops st pats exclusive false h)
  · exact foldl_keeps P _ (fun s pat hs => hops.2.2.2.2.2.2.2.2.2.2.1 s pat hs) _ st h

theorem matlab_clear_loop_keeps {S : Type} (ops : symbol_table_ops S) (P : S → Prop)
    (hops : operations_keep ops P) (pats : List String) :
    ∀ (stepped : Bool) (st : S), P st → P (matlab_clear_loop ops stepped pats st) := by
  induction pats with
  | nil =>
    intro stepped st h
    cases stepped <;> exact h
  | cons arg rest ih =>
    intro stepped st h
    cases stepped with
    | true => exact ih false st h
    | false =>
      unfold matlab_clear_loop
      split_ifs
      · exact ih false _ (hops.2.2.2.2.2.2.2.2.2.2.2.1 st h)
      · exact ih true _ (do_clear_functions_keeps ops P hops st rest false h)
      · exact ih true _ (do_clear_globals_keeps ops P hops st rest false h)
      · exact ih false _ (hops.1 st h)
      · exact ih false _ (hops.2.2.2.2.2.2.2.2.2.2.2.1 _
          (hops.2.2.2.2.2.2.2.2.2.2.2.2.1 _ (hops.2.2.2.2.1 st h)))
      · exact ih false _ (hops.2.2.2.2.2.2.2.2.2.2.1 st arg h)

theorem do_matlab_compatible_clear_keeps {S : Type} (ops : symbol_table_ops S)
    (P : S → Prop) (hops : operations_keep ops P) (st : S) (pats : List String)
    (h : P st) : P (do_matlab_compatible_clear ops st pats) := by
  unfold do_matlab_compatible_clear
  split_ifs
  · exact h
  · exact matlab_clear_loop_keeps ops P hops pats false st h

theorem clear_dispatch_keeps {S : Type} (ops : symbol_table_ops S) (P : S → Prop)
    (hops : operations_keep ops P) (st : S) (flags : clear_flags) (pats : List String)
    (h : P st) : P (clear_dispatch ops st flags pats).state := by
  unfold clear_dispatch
  split_ifs <;> first
    | exact do_matlab_compatible_clear_keeps ops P hops st pats h
    | exact hops.2.2.2.2.2.2.2.2.2.2.2.1 st h
    | exact do_clear_variables_keeps ops P hops st pats _ _ h
    | exact do_clear_functions_keeps ops P hops st pats _ h
    | exact do_clear_globals_keeps ops P hops st pats _ h
    | exact do_clear_symbols_keeps ops P hops st pats _ h
    | exact hops.2.2.2.2.2.2.2.2.2.2.2.1 _
        (hops.2.2.2.2.2.2.2.2.2.2.2.2.1 _ (hops.2.2.2.2.1 st h))
    | exact hops.2.2.2.2.2.2.2.2.2.2.2.1 _ (hops.2.2.2.2.2.2.2.2.2.2.2.2.1 _ h)

theorem Fclear_keeps {S : Type} (ops : symbol_table_ops S) (P : S → Prop)
    (hops : operations_keep ops P) (st : S) (args : List String) (h : P st) :
    P (Fclear ops st args).state := by
  unfold Fclear
  split_ifs
  · exact hops.2.2.2.2.2.2.2.2.2.2.2.2.2 _ (do_clear_variables_keeps ops P hops st [] false
      false h)
  · cases option_loop args clear_flags.initial with
    | error msg => exact h
    | ok p => exact clear_dispatch_keeps ops P hops st p.1 p.2 h

theorem name_space_ops_keep_locked (glob regexp : String → String → Bool)
    (f : function_entry) (hl : f.locked = true) :
    operations_keep (name_space_ops glob regexp) (fun s => f ∈ s.functions) := by
  refine ⟨?_, ?_, ?_, ?_, ?_, ?_, ?_, ?_, ?_, ?_, ?_, ?_, ?_, ?_⟩
  all_goals intros
  all_goals simp only [name_space_ops]
  all_goals first
    | assumption
    | (split_ifs <;> first
        | assumption
        | (apply List.mem_filter.2; refine ⟨by assumption, ?_⟩; simp [hl]))
    | (apply List.mem_filter.2; refine ⟨by assumption, ?_⟩; simp [hl])

/-- Claim C25: in the model of the name spaces, for every function table and every
argument list of `clear`, a function whose locked flag is set is still in the
function table after `clear` returns, whether or not the call ended with an error;
a function that is not locked is removed by `clear -functions`. -/
theorem locked_function_survives_clear (glob regexp : String → String → Bool)
    (names : name_spaces) (args : List String) (f : function_entry)
    (hf : f ∈ names.functions) :
    (f.locked = true →
        f ∈ (Fclear (name_space_ops glob regexp) names args).state.functions)
      ∧ (f.locked = false →
        f ∉ (Fclear (name_space_ops glob regexp) names ["-functions"]).state.functions) := by
  constructor
  · intro hl
    exact Fclear_keeps (name_space_ops glob regexp) (fun s => f ∈ s.functions)
      (name_space_ops_keep_locked glob regexp f hl) names args hf
  · intro hl hmem
    have hstate : (Fclear (name_space_ops glob regexp) names ["-functions"]).state.functions
        = names.functions.filter (fun g => g.locked) := by
      simp [Fclear, option_loop, clear_flags.initial, clear_dispatch, do_clear_functions,
        name_space_ops]
    rw [hstate, List.mem_filter] at hmem
    rw [hl] at hmem
    exact absurd hmem.2 (by simp)

/-- The locked function `f` after `clear -all`, and the unlocked function `bark` after
`clear -functions`. -/
theorem locked_function_survives_clear_witness :
    (⟨"f", true⟩ : function_entry) ∈ foo_bar_baz.functions
      ∧ (⟨"f", true⟩ : function_entry)
          ∈ (Fclear search_ops foo_bar_baz ["-all"]).state.functions
      ∧ (⟨"bark", false⟩ : function_entry) ∈ foo_bar_baz.functions
      ∧ (Fclear search_ops foo_bar_baz ["-functions"]).state.functions = [⟨"f", true⟩] :=
  have hf : (⟨"f", true⟩ : function_entry) ∈ foo_bar_baz.functions := by decide
  ⟨hf,
    (locked_function_survives_clear example_glob literal_search foo_bar_baz ["-all"]
      ⟨"f", true⟩ hf).1 rfl,
    by decide, rfl⟩

/-- Claim C28, evaluated on the code: in a scope with the variables `a1` and `b` and
the functions `f` and `b`, none of them locked, `clear -x a*` and `clear -exclusive a*`
remove the variable `b` and also the functions `f` and `b`, whose names do not match
`a*`: the function table does not stay unchanged. -/
theorem exclusive_symbols_clear_functions :
    example_names.functions = [⟨"f", false⟩, ⟨"b", false⟩]
      ∧ (Fclear example_ops example_names ["-x", "a*"]).state
          = ⟨true, [⟨"a1", false, false⟩], ["g"], []⟩
      ∧ (Fclear example_ops example_names ["-exclusive", "a*"]).state
          = ⟨true, [⟨"a1", false, false⟩], ["g"], []⟩
      ∧ do_clear_symbols example_ops example_names ["a*"] true
          = do_clear_functions example_ops
              (do_clear_variables example_ops example_names ["a*"] true false) ["a*"] true :=
  ⟨rfl, rfl, rfl, rfl⟩

/-! ## Locking functions -/

/-- Claim C24 fails as stated: inside the function `g`, `mlock` called with the name of a
function is a usage error and changes no lock, since `mlock` takes no argument; with the
same argument `munlock` and `mislocked` succeed. -/
theorem mlock_takes_no_name :
    Fmlock registry_ops inside_g [octave_value.of_string "f"]
        = ⟨inside_g, Except.error "Invalid call to mlock"⟩
      ∧ Fmlock registry_ops at_top_level [octave_value.of_string "f"]
        = ⟨at_top_level, Except.error "Invalid call to mlock"⟩
      ∧ (Fmunlock registry_ops inside_g [octave_value.of_string "f"]).result = Except.ok none
      ∧ (Fmislocked registry_ops inside_g [octave_value.of_string "f"]).result
        = Except.ok (some true) := by
  refine ⟨rfl, rfl, rfl, rfl⟩

/-- Claim C24 as amended: `munlock` and `mislocked` called with a function name succeed whatever
the call context is; `mlock` called with any argument is a usage error in every context;
and each of the three called without a name fails outside a function with an "invalid use
outside a function" error, leaving the state as it was, and succeeds inside a function,
where it acts on the calling function. -/
theorem lock_calls_by_context {S F : Type} (ops : lock_ops S F) (st : S) :
    (∀ (arg : octave_value) (name : String), arg.xstring_value = some name →
        Fmunlock ops st [arg] = ⟨ops.munlock st name, Except.ok none⟩
          ∧ Fmislocked ops st [arg] = ⟨st, Except.ok (some (ops.mislocked st name))⟩)
      ∧ (∀ (arg : octave_value) (rest : List octave_value),
        Fmlock ops st (arg :: rest) = ⟨st, Except.error (print_usage "mlock")⟩)
      ∧ (ops.caller st = none →
        Fmlock ops st [] = ⟨st, Except.error "mlock: invalid use outside a function"⟩
          ∧ Fmunlock ops st [] = ⟨st, Except.error "munlock: invalid use outside a function"⟩
          ∧ Fmislocked ops st []
            = ⟨st, Except.error "mislocked: invalid use outside a function"⟩)
      ∧ (∀ fcn : F, ops.caller st = some fcn →
        Fmlock ops st [] = ⟨ops.lock st fcn, Except.ok none⟩
          ∧ Fmunlock ops st [] = ⟨ops.unlock st fcn, Except.ok none⟩
          ∧ Fmislocked ops st [] = ⟨st, Except.ok (some (ops.islocked st fcn))⟩) := by
  refine ⟨?_, ?_, ?_, ?_⟩
  · intro arg name h
    constructor
    · simp [Fmunlock, h]
    · simp [Fmislocked, h]
  · intro arg rest
    simp [Fmlock]
  · intro h
    refine ⟨?_, ?_, ?_⟩
    · simp [Fmlock, h]
    · simp [Fmunlock, h]
    · simp [Fmislocked, h]
  · intro fcn h
    refine ⟨?_, ?_, ?_⟩
    · simp [Fmlock, h]
    · simp [Fmunlock, h]
    · simp [Fmislocked, h]

/-- At top level `munlock ("f")` unlocks `f` and `mislocked ("f")`
answers, while the calls without a name fail; inside `g` the call `mlock ()` locks
`g`. -/
theorem lock_calls_by_context_witness :
    (Fmunlock registry_ops at_top_level [octave_value.of_string "f"]
        = ⟨⟨none, [⟨"f", false⟩, ⟨"g", false⟩]⟩, Except.ok none⟩
      ∧ Fmislocked registry_ops at_top_level [octave_value.of_string "f"]
        = ⟨at_top_level, Except.ok (some true)⟩)
      ∧ (Fmlock registry_ops at_top_level []
          = ⟨at_top_level, Except.error "mlock: invalid use outside a function"⟩
        ∧ Fmunlock registry_ops at_top_level []
          = ⟨at_top_level, Except.error "munlock: invalid use outside a function"⟩
        ∧ Fmislocked registry_ops at_top_level []
          = ⟨at_top_level, Except.error "mislocked: invalid use outside a function"⟩)
      ∧ (Fmlock registry_ops inside_g []
          = ⟨⟨some "g", [⟨"f", true⟩, ⟨"g", true⟩]⟩, Except.ok none⟩
        ∧ Fmunlock registry_ops inside_g [] = ⟨inside_g, Except.ok none⟩
        ∧ Fmislocked registry_ops inside_g [] = ⟨inside_g, Except.ok (some false)⟩) :=
  ⟨(lock_calls_by_context registry_ops at_top_level).1 (octave_value.of_string "f") "f" rfl,
    (lock_calls_by_context registry_ops at_top_level).2.2.1 rfl,
    (lock_calls_by_context registry_ops inside_g).2.2.2 "g" rfl⟩

/-! ## Unique symbol names -/

theorem exist_any_ok (interp : interpreter) (name : String) :
    ∃ code, (symbol_exist interp name "any").result = Except.ok code := by
  unfold symbol_exist
  by_cases hk : interp.iskeyword name = true
  · exact ⟨0, by rw [if_pos hk]⟩
  · rw [if_neg hk]
    simp

theorem insert_char_mk (pre suf : List Char) (c : Char) :
    insert_char (String.mk (pre ++ suf)) pre.length c = String.mk ((pre ++ [c]) ++ suf) := by
  simp [insert_char]

/-- What the loop returns: the name it started from with the letters of the first `k`
retries put in front of the suffix, for some `k`, and that name does not exist. -/
theorem unique_symbol_loop_some (interp : interpreter) (suf : List Char) :
    ∀ (retries : List (Fin 52)) (pre : List Char) (nm : String),
      unique_symbol_loop interp retries pre.length (String.mk (pre ++ suf)) = some nm →
      ∃ k, k ≤ retries.length
        ∧ nm = String.mk (pre ++ (retries.take k).map alpha_at ++ suf)
        ∧ (symbol_exist interp nm "any").result = Except.ok 0 := by
  intro retries
  induction retries with
  | nil =>
    intro pre nm h
    unfold unique_symbol_loop at h
    split at h
    · rename_i heq
      simp at h
      subst h
      exact ⟨0, le_refl _, by simp, heq⟩
    · simp at h
  | cons idx rest ih =>
    intro pre nm h
    unfold unique_symbol_loop at h
    split at h
    · rename_i heq
      simp at h
      subst h
      exact ⟨0, Nat.zero_le _, by simp, heq⟩
    · rw [insert_char_mk] at h
      have hlen : pre.length + 1 = (pre ++ [alpha_at idx]).length := by simp
      rw [hlen] at h
      obtain ⟨k, hk, hnm, hex⟩ := ih _ _ h
      exact ⟨k + 1, by simpa using hk, by simpa using hnm, hex⟩
    · simp at h

/-- The loop returns as soon as one of the names it can reach does not exist. -/
theorem unique_symbol_loop_returns (interp : interpreter) (suf : List Char) :
    ∀ (retries : List (Fin 52)) (pre : List Char) (k : Nat), k ≤ retries.length →
      (symbol_exist interp (String.mk (pre ++ (retries.take k).map alpha_at ++ suf)) "any").result
        = Except.ok 0 →
      ∃ nm, unique_symbol_loop interp retries pre.length (String.mk (pre ++ suf)) = some nm := by
  intro retries
  induction retries with
  | nil =>
    intro pre k _ hex
    simp at hex
    exact ⟨_, by unfold unique_symbol_loop; rw [hex]⟩
  | cons idx rest ih =>
    intro pre k hk hex
    unfold unique_symbol_loop
    obtain ⟨code, hcode⟩ := exist_any_ok interp (String.mk (pre ++ suf))
    rw [hcode]
    cases code with
    | zero => exact ⟨_, rfl⟩
    | succ c =>
      simp only
      rw [insert_char_mk]
      have hlen : pre.length + 1 = (pre ++ [alpha_at idx]).length := by simp
      rw [hlen]
      cases k with
      | zero =>
        simp at hex
        rw [hcode] at hex
        simp at hex
      | succ j =>
        apply ih (pre ++ [alpha_at idx]) j (by simpa using hk)
        simpa using hex

theorem substr_two_eq (nm : String) :
    (substr_n nm 0 2 == "__") = decide (['_', '_'] <+: nm.toList) := by
  have hs : "__" = String.mk ['_', '_'] := rfl
  have h : (substr_n nm 0 2 == "__") = decide (nm.toList.take 2 = ['_', '_']) := by
    rw [Bool.eq_iff_iff]
    simp only [beq_iff_eq, decide_eq_true_eq, substr_n, hs, List.drop_zero]
    constructor
    · intro h
      exact congrArg String.data h
    · intro h
      rw [h]
  rw [h]
  congr 1
  apply propext
  rw [List.prefix_iff_eq_take]
  simp [eq_comm]

/-- The name the loop starts from, written with the base name, the first letter and the
suffix. -/
theorem unique_symbol_name_eq (interp : interpreter) (basename : String) (first : Fin 52)
    (retries : List (Fin 52)) :
    unique_symbol_name interp basename first retries
      = unique_symbol_loop interp retries (basename.toList ++ [alpha_at first]).length
          (String.mk ((basename.toList ++ [alpha_at first]) ++ reserved_suffix basename first)) := by
  unfold unique_symbol_name reserved_suffix
  simp only
  rw [substr_two_eq]
  generalize alpha_at first = c
  have h1 : (basename ++ String.singleton c).length = (basename.toList ++ [c]).length := by
    show (basename ++ String.singleton c).data.length = _
    rw [String.data_append]
    rfl
  have h3 : (basename ++ String.singleton c).toList = basename.toList ++ [c] := by
    show (basename ++ String.singleton c).data = _
    rw [String.data_append]
    rfl
  rw [h1, h3]
  congr 1
  by_cases h : ['_', '_'] <+: basename.toList ++ [c]
  · rw [if_pos h]
    simp only [h, decide_True, if_true]
    apply String.ext
    simp
  · rw [if_neg h]
    simp only [h, decide_False]
    apply String.ext
    simp

theorem alpha_at_isAlpha (idx : Fin 52) : (alpha_at idx).isAlpha = true := by
  revert idx
  decide

theorem alpha_at_mem (idx : Fin 52) : alpha_at idx ∈ alpha.toList := by
  revert idx
  decide

/-- Claim C26: whenever `unique_symbol_name` returns a name, `symbol_exist (nm, "any")` is 0 for
that name in the same interpreter state; and it does return as soon as one of the names it
tries, the base name with the letters drawn so far and the suffix, does not exist. -/
theorem unique_symbol_name_absent (interp : interpreter) (basename : String)
    (first : Fin 52) (retries : List (Fin 52)) :
    (∀ nm, unique_symbol_name interp basename first retries = some nm →
        (symbol_exist interp nm "any").result = Except.ok 0)
      ∧ (∀ k, k ≤ retries.length →
        (symbol_exist interp (candidate_name basename first retries k) "any").result
          = Except.ok 0 →
        ∃ nm, unique_symbol_name interp basename first retries = some nm) := by
  constructor
  · intro nm h
    rw [unique_symbol_name_eq] at h
    obtain ⟨k, _, _, hex⟩ := unique_symbol_loop_some interp _ retries _ nm h
    exact hex
  · intro k hk hex
    rw [unique_symbol_name_eq]
    apply unique_symbol_loop_returns interp _ retries _ k hk
    simpa [candidate_name] using hex

/-- With `xa` and `xab` bound to variables, the base name `x` and the
letters a, b, c give `xabc`, which does not exist. -/
theorem unique_symbol_name_absent_witness :
    unique_symbol_name xa_interp "x" 0 [1, 2, 3] = some "xabc"
      ∧ (symbol_exist xa_interp "xabc" "any").result = Except.ok 0 :=
  ⟨rfl, (unique_symbol_name_absent xa_interp "x" 0 [1, 2, 3]).1 "xabc" rfl⟩

/-- Claim C27: the name returned by `unique_symbol_name` is the base name, then one or more
letters of a-z and A-Z (the first one and those of the retries made), then the suffix `__`
exactly when the base name with the first letter begins with a double underscore; the
letters of the retries stand before the suffix, and the base name is a prefix of the
result. -/
theorem unique_symbol_name_layout (interp : interpreter) (basename : String)
    (first : Fin 52) (retries : List (Fin 52)) (nm : String)
    (h : unique_symbol_name interp basename first retries = some nm) :
    ∃ k, k ≤ retries.length
      ∧ nm.toList = basename.toList ++ (first :: retries.take k).map alpha_at
          ++ (if ['_', '_'] <+: basename.toList ++ [alpha_at first] then ['_', '_'] else [])
      ∧ (first :: retries.take k).map alpha_at ≠ []
      ∧ (∀ c ∈ (first :: retries.take k).map alpha_at, c ∈ alpha.toList ∧ c.isAlpha = true)
      ∧ basename.toList <+: nm.toList := by
  rw [unique_symbol_name_eq] at h
  obtain ⟨k, hk, hnm, _⟩ := unique_symbol_loop_some interp _ retries _ nm h
  have hl : nm.toList = basename.toList ++ (first :: retries.take k).map alpha_at
      ++ (if ['_', '_'] <+: basename.toList ++ [alpha_at first] then ['_', '_'] else []) := by
    rw [hnm]
    simp [reserved_suffix]
  refine ⟨k, hk, hl, by simp, ?_, ?_⟩
  · intro c hc
    obtain ⟨idx, _, rfl⟩ := List.mem_map.1 hc
    exact ⟨alpha_at_mem idx, alpha_at_isAlpha idx⟩
  · rw [hl, List.append_assoc]
    exact List.prefix_append _ _

/-- The base name `__x` with the letter a gives `__xa__`. -/
theorem unique_symbol_name_layout_witness :
    unique_symbol_name xa_interp "__x" 0 [1] = some "__xa__"
      ∧ ∃ k, k ≤ [(1 : Fin 52)].length
        ∧ "__xa__".toList = "__x".toList ++ ((0 : Fin 52) :: [(1 : Fin 52)].take k).map alpha_at
            ++ (if ['_', '_'] <+: "__x".toList ++ [alpha_at 0] then ['_', '_'] else [])
        ∧ ((0 : Fin 52) :: [(1 : Fin 52)].take k).map alpha_at ≠ []
        ∧ (∀ c ∈ ((0 : Fin 52) :: [(1 : Fin 52)].take k).map alpha_at,
            c ∈ alpha.toList ∧ c.isAlpha = true)
        ∧ "__x".toList <+: "__xa__".toList :=
  ⟨rfl, unique_symbol_name_layout xa_interp "__x" 0 [1] "__xa__" rfl⟩

/-! ## Scoped changes made twice in one invocation -/

theorem shape_local_twice {T R : Type} (shown : T → R)
    (convert : octave_value → Except String T) :
    local_twice_is_lifo (set_internal_variable_shape shown convert) := by
  intro st v1 v2 marker n1 n2 nm r1 r2 hframe hm
  rw [shape_local shown convert st v1 marker n1 nm hm]
  cases convert v1 with
  | error e => intro h; simp at h
  | ok x1 =>
    intro _
    dsimp only
    rw [shape_local shown convert _ v2 marker n2 nm hm]
    cases convert v2 with
    | error e => intro h; simp at h
    | ok x2 =>
      intro _
      dsimp only
      refine ⟨?_, ?_⟩
      · simp [local_protect_or_warn, try_local_protect, hframe]
      · intro ended
        simp [end_invocation, unwind_frame, local_protect_or_warn, try_local_protect, hframe]

/-- Claim C29: for each overload, inside a function whose frame holds no record for the
variable, two accepted calls `(v1, "local")` and `(v2, "local")` push two records, the
value stored by the first call on top of the value `v0` held at the start, and the end of
the invocation, which applies the records most recently pushed first, leaves `v0` in
the variable. -/
theorem local_set_twice_is_lifo :
    local_twice_is_lifo set_internal_variable_bool
      ∧ local_twice_is_lifo set_internal_variable_char
      ∧ (∀ minval maxval : Int, local_twice_is_lifo
          (fun st args nargout nm => set_internal_variable_int st args nargout nm minval maxval))
      ∧ (∀ (format_g : Float → String) (minval maxval : Float), local_twice_is_lifo
          (fun st args nargout nm =>
            set_internal_variable_double format_g st args nargout nm minval maxval))
      ∧ (∀ empty_ok : Bool, local_twice_is_lifo
          (fun st args nargout nm => set_internal_variable_string st args nargout nm empty_ok))
      ∧ (∀ choices : List String, local_twice_is_lifo
          (fun st args nargout nm =>
            set_internal_variable_choice_index st args nargout nm choices))
      ∧ (∀ choices : List String, local_twice_is_lifo
          (fun st args nargout nm =>
            set_internal_variable_choice_string st args nargout nm choices)) := by
  refine ⟨?_, ?_, fun minval maxval => ?_, fun format_g minval maxval => ?_,
    fun empty_ok => ?_,
    fun choices => ?_, fun choices => ?_⟩
  · intro st v1 v2 marker n1 n2 nm r1 r2
    rw [bool_shape, bool_shape]
    exact shape_local_twice id (convert_bool nm) st v1 v2 marker n1 n2 nm r1 r2
  · intro st v1 v2 marker n1 n2 nm r1 r2
    rw [char_shape, char_shape]
    exact shape_local_twice id (convert_char nm) st v1 v2 marker n1 n2 nm r1 r2
  · intro st v1 v2 marker n1 n2 nm r1 r2
    beta_reduce
    rw [int_shape, int_shape]
    exact shape_local_twice id (convert_int nm minval maxval) st v1 v2 marker n1 n2 nm r1 r2
  · intro st v1 v2 marker n1 n2 nm r1 r2
    beta_reduce
    rw [double_shape, double_shape]
    exact shape_local_twice id (convert_double format_g nm minval maxval) st v1 v2 marker n1 n2 nm
      r1 r2
  · intro st v1 v2 marker n1 n2 nm r1 r2
    beta_reduce
    rw [string_shape, string_shape]
    exact shape_local_twice id (convert_string nm empty_ok) st v1 v2 marker n1 n2 nm r1 r2
  · intro st v1 v2 marker n1 n2 nm r1 r2 hframe hm hok1 hok2
    beta_reduce at hok1 hok2 ⊢
    obtain ⟨h1, h0⟩ := choice_index_of_success st [v1, marker] n1 nm choices r1 hok1
    rw [choice_index_shape st [v1, marker] n1 nm choices h1 h0] at hok1 hok2 ⊢
    obtain ⟨h1', h0'⟩ := choice_index_of_success _ [v2, marker] n2 nm choices r2 hok2
    rw [choice_index_shape _ [v2, marker] n2 nm choices h1' h0'] at hok2 ⊢
    exact shape_local_twice _ (convert_choice_index nm choices) st v1 v2 marker n1 n2 nm
      r1 r2 hframe hm hok1 hok2
  · intro st v1 v2 marker n1 n2 nm r1 r2
    beta_reduce
    rw [choice_string_shape, choice_string_shape]
    exact shape_local_twice id (convert_choice_string nm choices) st v1 v2 marker n1 n2 nm
      r1 r2

/-- The bounded variable holds 10 inside a function with an empty frame and is set with
`"local"` to 3 and then to 4: the frame holds the records 3 and 10, and the end of the
invocation leaves 10, not 3. -/
theorem local_set_twice_is_lifo_witness :
    in_function_variable.var = 10
      ∧ (set_internal_variable_int in_function_variable
          [octave_value.of_int 3, octave_value.of_string "local"] 0 "debug_level" 0
          5).state.var = 3
      ∧ (set_internal_variable_int
          (set_internal_variable_int in_function_variable
            [octave_value.of_int 3, octave_value.of_string "local"] 0 "debug_level" 0 5).state
          [octave_value.of_int 4, octave_value.of_string "local"] 0 "debug_level" 0
          5).state.var = 4
      ∧ (set_internal_variable_int
          (set_internal_variable_int in_function_variable
            [octave_value.of_int 3, octave_value.of_string "local"] 0 "debug_level" 0 5).state
          [octave_value.of_int 4, octave_value.of_string "local"] 0 "debug_level" 0
          5).state.frame = some [3, 10]
      ∧ (end_invocation (set_internal_variable_int
          (set_internal_variable_int in_function_variable
            [octave_value.of_int 3, octave_value.of_string "local"] 0 "debug_level" 0 5).state
          [octave_value.of_int 4, octave_value.of_string "local"] 0 "debug_level" 0
          5).state (Except.ok ())).state.var = 10 :=
  have h := local_set_twice_is_lifo.2.2.1 0 5 in_function_variable (octave_value.of_int 3)
    (octave_value.of_int 4) (octave_value.of_string "local") 0 0 "debug_level" none none rfl
    ⟨rfl, rfl⟩ rfl rfl
  ⟨rfl, rfl, rfl, h.1, h.2 (Except.ok ())⟩

/-! ## The elements of a structure reference -/

theorem dot_split (rest : List Char) :
    '.' ∉ rest ∨ ∃ a b, rest = a ++ '.' :: b ∧ '.' ∉ a := by
  by_cases h : '.' ∈ rest
  · exact Or.inr (List.eq_append_cons_of_mem h)
  · exact Or.inl h

theorem find_char_none (pre rest : List Char) (h : '.' ∉ rest) :
    find_char (pre ++ rest) '.' pre.length = none := by
  have hi : ¬ List.indexOf '.' rest < rest.length := by
    rw [List.indexOf_lt_length]
    exact h
  simp [find_char, hi]

theorem find_char_some (pre a b : List Char) (h : '.' ∉ a) :
    find_char (pre ++ (a ++ '.' :: b)) '.' pre.length = some (pre.length + a.length) := by
  have hi : List.indexOf '.' (a ++ '.' :: b) = a.length := by
    rw [List.indexOf_append_of_not_mem h, List.indexOf_cons_self]
    rfl
  simp [find_char, hi]

theorem count_dropLast_no_dot (rest : List Char) (h : '.' ∉ rest) :
    rest.dropLast.count '.' = 0 :=
  List.count_eq_zero.2 (fun hm => h (List.mem_of_mem_dropLast hm))

theorem dropLast_split (a b : List Char) (hb : b ≠ []) :
    (a ++ '.' :: b).dropLast = a ++ '.' :: b.dropLast := by
  rw [List.dropLast_append_cons, List.dropLast_cons_of_ne_nil hb]

theorem count_dropLast_split (a b : List Char) (h : '.' ∉ a) (hb : b ≠ []) :
    (a ++ '.' :: b).dropLast.count '.' = b.dropLast.count '.' + 1 := by
  rw [dropLast_split a b hb, List.count_append, List.count_eq_zero.2 h]
  simp

/-- The first loop, started at the end of `pre` with enough fuel, adds to the count the
number of dots of `rest` that are not its last character. -/
theorem count_struct_elts_eq :
    ∀ (fuel : Nat) (pre rest : List Char) (n : Nat), rest.length < fuel →
      count_struct_elts (pre ++ rest) fuel pre.length n
        = some (n + rest.dropLast.count '.') := by
  intro fuel
  induction fuel with
  | zero => intro pre rest n h; omega
  | succ fuel ih =>
    intro pre rest n hfuel
    unfold count_struct_elts
    rcases dot_split rest with h | ⟨a, b, rfl, ha⟩
    · rw [find_char_none pre rest h, count_dropLast_no_dot rest h]
      rfl
    · rw [find_char_some pre a b ha]
      by_cases hb : b = []
      · subst hb
        have hlen : pre.length + a.length + 1 = (pre ++ (a ++ ['.'])).length := by
          simp only [List.length_append, List.length_cons, List.length_nil]
          omega
        simp only [beq_iff_eq, hlen, if_true, List.dropLast_concat, List.count_eq_zero.2 ha]
        rfl
      · have hlen : ¬ pre.length + a.length + 1 = (pre ++ (a ++ '.' :: b)).length := by
          have : 0 < b.length := List.length_pos.2 hb
          simp only [List.length_append, List.length_cons]
          omega
        have hpre : pre ++ (a ++ '.' :: b) = (pre ++ a ++ ['.']) ++ b := by simp
        have hpos : pre.length + a.length + 1 = (pre ++ a ++ ['.']).length := by
          simp only [List.length_append, List.length_cons, List.length_nil]
        simp only [beq_iff_eq, hlen, if_false]
        rw [hpre, hpos, ih (pre ++ a ++ ['.']) b (n + 1)
          (by simp only [List.length_append, List.length_cons] at hfuel; omega),
          count_dropLast_split a b ha hb]
        congr 1
        omega

theorem strip_no_dot (rest : List Char) (h : '.' ∉ rest) : strip_trailing_dot rest = rest := by
  unfold strip_trailing_dot
  have : ¬ rest.getLast? = some '.' := fun hl => h (List.mem_of_getLast?_eq_some hl)
  rw [if_neg this]

theorem strip_append_dot (a : List Char) : strip_trailing_dot (a ++ ['.']) = a := by
  simp [strip_trailing_dot]

theorem strip_split (a b : List Char) (hb : b ≠ []) :
    strip_trailing_dot (a ++ '.' :: b) = a ++ '.' :: strip_trailing_dot b := by
  unfold strip_trailing_dot
  have hl : (a ++ '.' :: b).getLast? = b.getLast? := by
    rw [List.getLast?_append_cons]
    cases b with
    | nil => exact absurd rfl hb
    | cons c cs => rw [List.getLast?_cons_cons]
  rw [hl]
  by_cases h : b.getLast? = some '.'
  · rw [if_pos h, if_pos h, dropLast_split a b hb]
  · rw [if_neg h, if_neg h]

theorem splitOn_no_dot (a : List Char) (h : '.' ∉ a) : a.splitOn '.' = [a] := by
  apply List.splitOnP_eq_single
  intro x hx hd
  rw [beq_iff_eq] at hd
  exact h (hd ▸ hx)

theorem splitOn_split (a b : List Char) (h : '.' ∉ a) :
    (a ++ '.' :: b).splitOn '.' = a :: b.splitOn '.' := by
  apply List.splitOnP_first
  · intro x hx hd
    rw [beq_iff_eq] at hd
    exact h (hd ▸ hx)
  · simp

theorem substr_len_none (pre rest : List Char) :
    substr_len (pre ++ rest) pre.length none = some rest := by
  simp [substr_len]

theorem substr_len_some (pre a b : List Char) :
    substr_len (pre ++ (a ++ b)) pre.length (some a.length) = some a := by
  simp [substr_len]

/-- The second loop, started at the end of `pre` and run once more than `rest` has dots
that are not its last character, gives the segments of `rest`. -/
theorem fill_struct_elts_eq :
    ∀ (k : Nat) (pre rest : List Char), rest.dropLast.count '.' = k →
      fill_struct_elts (pre ++ rest) (k + 1) pre.length
        = some (((strip_trailing_dot rest).splitOn '.').map String.mk) := by
  intro k
  induction k with
  | zero =>
    intro pre rest hk
    unfold fill_struct_elts
    rcases dot_split rest with h | ⟨a, b, rfl, ha⟩
    · rw [find_char_none pre rest h]
      simp only [Option.map_none']
      rw [substr_len_none, strip_no_dot rest h, splitOn_no_dot rest h]
      simp [fill_struct_elts]
    · have hb : b = [] := by
        by_contra hb
        rw [count_dropLast_split a b ha hb] at hk
        omega
      subst hb
      rw [find_char_some pre a [] ha]
      simp only [Option.map_some', Nat.add_sub_cancel_left]
      rw [substr_len_some, strip_append_dot, splitOn_no_dot a ha]
      simp [fill_struct_elts]
  | succ k ih =>
    intro pre rest hk
    unfold fill_struct_elts
    rcases dot_split rest with h | ⟨a, b, rfl, ha⟩
    · rw [count_dropLast_no_dot rest h] at hk
      omega
    · have hb : b ≠ [] := by
        intro hb
        subst hb
        simp [List.count_eq_zero.2 ha] at hk
      rw [count_dropLast_split a b ha hb] at hk
      rw [find_char_some pre a b ha]
      simp only [Option.map_some', Nat.add_sub_cancel_left]
      rw [substr_len_some]
      have hpre : pre ++ (a ++ '.' :: b) = (pre ++ a ++ ['.']) ++ b := by simp
      have hpos : pre.length + (a.length + 1) = (pre ++ a ++ ['.']).length := by
        simp only [List.length_append, List.length_cons, List.length_nil]
        omega
      simp only
      rw [hpre, hpos, ih (pre ++ a ++ ['.']) b (by omega), strip_split a b hb,
        splitOn_split a _ ha]
      simp

/-- The elements of `splitOn` hold no separator, and there is one more of them than the
list has separators. -/
theorem splitOn_dot_facts :
    ∀ (m : Nat) (l : List Char), l.length ≤ m →
      (∀ s ∈ l.splitOn '.', '.' ∉ s) ∧ (l.splitOn '.').length = 1 + l.count '.' := by
  intro m
  induction m with
  | zero =>
    intro l hl
    have : l = [] := List.length_eq_zero.1 (by omega)
    subst this
    simp
  | succ m ih =>
    intro l hl
    rcases dot_split l with h | ⟨a, b, rfl, ha⟩
    · rw [splitOn_no_dot l h, List.count_eq_zero.2 h]
      simp [h]
    · rw [splitOn_split a b ha]
      have hb : b.length ≤ m := by
        simp only [List.length_append, List.length_cons] at hl
        omega
      obtain ⟨h1, h2⟩ := ih b hb
      constructor
      · intro s hs
        rcases List.mem_cons.1 hs with rfl | hs
        · exact ha
        · exact h1 s hs
      · rw [List.length_cons, h2, List.count_append, List.count_eq_zero.2 ha]
        simp
        omega

theorem count_strip (l : List Char) :
    (strip_trailing_dot l).count '.' = l.dropLast.count '.' := by
  unfold strip_trailing_dot
  by_cases h : l.getLast? = some '.'
  · rw [if_pos h]
  · rw [if_neg h]
    rcases List.eq_nil_or_concat l with rfl | ⟨a, c, rfl⟩
    · rfl
    · have hc : c ≠ '.' := by
        intro hc
        apply h
        simp [hc]
      simp [List.count_append, List.count_cons, hc]

/-- Claim C30: for every text `get_struct_elts` returns, and what it returns is the list of
the dot-separated segments of the text without one trailing dot.  No element holds a dot;
there is one element more than the text has dots that are not its last character; and the
elements joined with dots give the text without one trailing dot, which is the text
itself when it does not end with a dot.  Empty segments between adjacent dots are kept,
as in `a..b`. -/
theorem get_struct_elts_segments (text : String) :
    get_struct_elts text = some (dot_segments text)
      ∧ (∀ elt ∈ dot_segments text, '.' ∉ elt.toList)
      ∧ (dot_segments text).length = 1 + text.toList.dropLast.count '.'
      ∧ List.intercalate ['.'] ((dot_segments text).map String.toList)
          = strip_trailing_dot text.toList
      ∧ (text.toList.getLast? ≠ some '.' → strip_trailing_dot text.toList = text.toList)
      ∧ (∀ l : List Char, text.toList = l ++ ['.'] → strip_trailing_dot text.toList = l)
      ∧ get_struct_elts "a..b" = some ["a", "", "b"] := by
  have hfacts := splitOn_dot_facts _ (strip_trailing_dot text.toList) (le_refl _)
  refine ⟨?_, ?_, ?_, ?_, ?_, ?_, rfl⟩
  · unfold get_struct_elts dot_segments
    have hc := count_struct_elts_eq (text.length + 1) [] text.toList 1
      (Nat.lt_succ_self _)
    simp only [List.nil_append, List.length_nil] at hc
    rw [hc]
    simp only
    have hf := fill_struct_elts_eq (text.toList.dropLast.count '.') [] text.toList rfl
    simp only [List.nil_append, List.length_nil] at hf
    rw [Nat.add_comm, hf]
  · intro elt helt
    unfold dot_segments at helt
    obtain ⟨s, hs, rfl⟩ := List.mem_map.1 helt
    exact hfacts.1 s hs
  · unfold dot_segments
    rw [List.length_map, hfacts.2, count_strip]
  · unfold dot_segments
    rw [List.map_map]
    have : (String.toList ∘ String.mk) = id := by
      funext s
      rfl
    rw [this, List.map_id]
    exact List.intercalate_splitOn _ _
  · intro h
    unfold strip_trailing_dot
    rw [if_neg h]
  · intro l hl
    rw [hl]
    exact strip_append_dot l

/-- The text `a.b.` has the elements `a` and `b`: the trailing dot adds no element, and the
elements joined with a dot give `a.b`. -/
theorem get_struct_elts_segments_witness :
    get_struct_elts "a.b." = some ["a", "b"]
      ∧ (dot_segments "a.b.").length = 1 + "a.b.".toList.dropLast.count '.'
      ∧ List.intercalate ['.'] ((dot_segments "a.b.").map String.toList) = "a.b".toList :=
  ⟨(get_struct_elts_segments "a.b.").1, (get_struct_elts_segments "a.b.").2.2.1,
    (get_struct_elts_segments "a.b.").2.2.2.2.2.1 "a.b".toList rfl
      ▸ (get_struct_elts_segments "a.b.").2.2.2.1⟩

/-! ## Extra arguments after `-all` -/

theorem option_loop_other (arg : String) (rest : List String) (flags : clear_flags)
    (hp : is_primary_option arg = false) (hx : is_exclusive_option arg = false) :
    option_loop (arg :: rest) flags = Except.ok (flags, arg :: rest) := by
  have hp' : ¬ is_primary_option arg = true := by simp [hp]
  have hx' : ¬ is_exclusive_option arg = true := by simp [hx]
  rw [is_primary_option_iff] at hp'
  rw [is_exclusive_option_iff] at hx'
  simp only [not_or] at hp' hx'
  obtain ⟨h1, h2, h3, h4, h5, h6, h7, h8, h9, h10, h11, h12⟩ := hp'
  obtain ⟨h13, h14⟩ := hx'
  simp [option_loop, h1, h2, h3, h4, h5, h6, h7, h8, h9, h10, h11, h12, h13, h14]

theorem option_loop_all (opt : String) (rest : List String) (hopt : opt = "-all" ∨ opt = "-a") :
    option_loop (opt :: rest) clear_flags.initial
      = option_loop rest
          { clear_flags.initial with have_dash_option := true, clear_all := true } := by
  rcases hopt with rfl | rfl <;> simp [option_loop, clear_flags.initial]

/-- What `clear -all` (or `-a`) followed by arguments that do not start with an option
does: it clears everything, and it warns only when more than one argument follows. -/
theorem Fclear_all_extras {S : Type} (ops : symbol_table_ops S) (st : S) (opt : String)
    (extras : List String) (hopt : opt = "-all" ∨ opt = "-a")
    (hfirst : ∀ x ∈ extras.head?, is_primary_option x = false ∧ is_exclusive_option x = false) :
    Fclear ops st (opt :: extras)
      = ⟨ops.clear_all st,
          if 1 < extras.length then ["clear: ignoring extra arguments after -all"] else [],
          Except.ok ()⟩ := by
  unfold Fclear
  simp only [List.isEmpty_cons, Bool.false_eq_true, if_false]
  rw [option_loop_all opt extras hopt]
  cases extras with
  | nil => simp [option_loop, clear_dispatch, clear_flags.initial, maybe_warn_exclusive]
  | cons x rest =>
    obtain ⟨hp, hx⟩ := hfirst x (by simp)
    rw [option_loop_other x rest _ hp hx]
    simp [clear_dispatch, clear_flags.initial, maybe_warn_exclusive]

/-- Claim C31, evaluated on the code: `clear -all x` and `clear -a x`, with the one extra
argument `x`, clear everything and issue no warning, because the test `++idx < argc`
of line 1360 steps over the first extra argument; the warning comes only from the
second extra argument on, as in `clear -all x y`.  For every argument `x` whatever, the
call `clear -all x` does not issue the warning. -/
theorem all_with_one_extra_argument_is_silent {S : Type} (ops : symbol_table_ops S) (st : S)
    (x : String) :
    ("clear: ignoring extra arguments after -all" ∉ (Fclear ops st ["-all", x]).warnings
        ∧ "clear: ignoring extra arguments after -all" ∉ (Fclear ops st ["-a", x]).warnings)
      ∧ Fclear example_ops example_names ["-all", "x"]
          = ⟨⟨true, [], [], []⟩, [], Except.ok ()⟩
      ∧ Fclear example_ops example_names ["-a", "x"]
          = ⟨⟨true, [], [], []⟩, [], Except.ok ()⟩
      ∧ Fclear example_ops example_names ["-all", "x", "y"]
          = ⟨⟨true, [], [], []⟩, ["clear: ignoring extra arguments after -all"], Except.ok ()⟩
      ∧ Fclear example_ops example_names ["-all"]
          = ⟨⟨true, [], [], []⟩, [], Except.ok ()⟩ := by
  refine ⟨?_, rfl, rfl, rfl, rfl⟩
  have key : ∀ opt : String, opt = "-all" ∨ opt = "-a" →
      "clear: ignoring extra arguments after -all" ∉ (Fclear ops st [opt, x]).warnings := by
    intro opt hopt
    by_cases hp : is_primary_option x = true
    · have hloop : option_loop [opt, x] clear_flags.initial
          = Except.error (print_usage "clear") := by
        rw [option_loop_all opt [x] hopt]
        exact option_loop_second_primary x [] _ hp rfl
      simp [Fclear, hloop]
    · by_cases hx : is_exclusive_option x = true
      · have hloop : option_loop [opt, x] clear_flags.initial
            = Except.ok ({ clear_flags.initial with
                have_dash_option := true, clear_all := true, exclusive := true }, []) := by
          rw [option_loop_all opt [x] hopt, option_loop_exclusive x [] _ hx]
          rfl
        simp [Fclear, hloop, clear_dispatch, maybe_warn_exclusive]
      · rw [Fclear_all_extras ops st opt [x] hopt]
        · simp
        · intro y hy
          simp only [List.head?_cons, Option.mem_def, Option.some.injEq] at hy
          subst hy
          exact ⟨by simpa using hp, by simpa using hx⟩
  exact ⟨key "-all" (Or.inl rfl), key "-a" (Or.inr rfl)⟩

/-! ## A keyword as a unique name -/

/-- Claim C32: when the base name with the first letter drawn (and the suffix, if any) is
a reserved keyword, `unique_symbol_name` returns it at once, whatever would be drawn
next, because `symbol_exist` is 0 for every keyword and asks no collaborator; and the
base name `en` with the letter `d` gives the keyword `end`. -/
theorem unique_symbol_name_accepts_keyword (interp : interpreter) (basename : String)
    (first : Fin 52) (retries : List (Fin 52))
    (hk : interp.iskeyword (candidate_name basename first retries 0) = true) :
    unique_symbol_name interp basename first retries
        = some (candidate_name basename first retries 0)
      ∧ symbol_exist interp (candidate_name basename first retries 0) "any"
        = ⟨[], Except.ok 0⟩
      ∧ alpha_at 3 = 'd'
      ∧ candidate_name "en" 3 retries 0 = "end" := by
  have hex : symbol_exist interp (candidate_name basename first retries 0) "any"
      = ⟨[], Except.ok 0⟩ := by
    simp [symbol_exist, hk]
  refine ⟨?_, hex, rfl, rfl⟩
  rw [unique_symbol_name_eq]
  have hc : candidate_name basename first retries 0
      = String.mk ((basename.toList ++ [alpha_at first]) ++ reserved_suffix basename first) := by
    simp [candidate_name]
  rw [hc] at hex
  cases retries with
  | nil =>
    unfold unique_symbol_loop
    rw [hex, hc]
  | cons idx rest =>
    unfold unique_symbol_loop
    rw [hex, hc]

/-- In an interpreter where `end` is a keyword, the base name `en` and the letter `d`
give `end`. -/
theorem unique_symbol_name_accepts_keyword_witness :
    fresh_interp.iskeyword "end" = true
      ∧ alpha_at 3 = 'd'
      ∧ unique_symbol_name fresh_interp "en" 3 [7] = some "end" :=
  ⟨by decide, rfl, (unique_symbol_name_accepts_keyword fresh_interp "en" 3 [7] (by decide)).1⟩

/-! ## Failed scoped changes -/

theorem foldl_last_record {T : Type} (saved : List T) :
    ∀ x : T, saved.foldl (fun _ record => record) x = saved.getLast?.getD x := by
  induction saved with
  | nil => intro x; rfl
  | cons a rest ih =>
    intro x
    rw [List.foldl_cons, ih a]
    cases rest with
    | nil => rfl
    | cons b rest' =>
      rw [List.getLast?_cons_cons, List.getLast?_eq_getLast _ (List.cons_ne_nil b rest')]
      rfl

theorem shape_failed_local_call {T R : Type} (shown : T → R)
    (convert : octave_value → Except String T) :
    failed_local_call_pushes_record (fun _ => True)
      (set_internal_variable_shape shown convert) := by
  intro st saved v marker nargout nm msg _ hframe hm
  rw [shape_one, shape_local shown convert st v marker nargout nm hm]
  cases convert v with
  | ok x => intro h; simp at h
  | error e =>
    intro h
    dsimp only at h ⊢
    have hst : local_protect_or_warn st true = { st with frame := some (st.var :: saved) } := by
      simp [local_protect_or_warn, try_local_protect, hframe]
    rw [hst]
    refine ⟨h, rfl, rfl, ?_, rfl, ?_, ?_⟩
    · rw [hframe]
      intro heq
      have hlen := congrArg List.length (Option.some.inj heq)
      simp at hlen
    · intro ended
      simp only [end_invocation, unwind_frame]
      rw [List.foldl_cons, foldl_last_record]
    · intro hs ended
      subst hs
      rfl

/-- Claim C33 fails as stated: the bounded variable holds 10 inside a function whose
frame already holds the record 7 for it; the call `("x", "local")` fails and leaves 10 in
the variable, the frame has grown by the record 10, and the end of the invocation leaves
7 in the variable, not 10. -/
theorem failed_local_call_restores_oldest :
    twice_local_variable.var = 10
      ∧ twice_local_variable.frame = some [7]
      ∧ (set_internal_variable_int twice_local_variable [octave_value.of_string "x"] 0
          "debug_level" 0 5).result
          = Except.error "debug_level: argument must be an integer value"
      ∧ (set_internal_variable_int twice_local_variable
          [octave_value.of_string "x", octave_value.of_string "local"] 0 "debug_level" 0 5)
          = ⟨⟨10, some [10, 7], []⟩,
              Except.error "debug_level: argument must be an integer value"⟩
      ∧ (end_invocation (set_internal_variable_int twice_local_variable
          [octave_value.of_string "x", octave_value.of_string "local"] 0 "debug_level" 0
          5).state (Except.ok ())).state.var = 7 :=
  ⟨rfl, rfl, rfl, rfl, rfl⟩

/-- Claim C33 as amended: for each overload called as `(v, "local")` inside a function
with a value `v` that the call `(v)` rejects, the call fails and leaves the variable
unchanged, and the frame has grown by one record holding the current value of the
variable, so the failed call has changed the frame; the end of the invocation leaves
that same value in the variable when the frame held no earlier record for it, and the
oldest record otherwise.  For the choice-index overload the variable is taken to be a
position of the array of choices. -/
theorem failed_local_set_pushes_record :
    failed_local_call_pushes_record (fun _ => True) set_internal_variable_bool
      ∧ failed_local_call_pushes_record (fun _ => True) set_internal_variable_char
      ∧ (∀ minval maxval : Int, failed_local_call_pushes_record (fun _ => True)
          (fun st args nargout nm => set_internal_variable_int st args nargout nm minval maxval))
      ∧ (∀ (format_g : Float → String) (minval maxval : Float),
          failed_local_call_pushes_record (fun _ => True)
          (fun st args nargout nm =>
            set_internal_variable_double format_g st args nargout nm minval maxval))
      ∧ (∀ empty_ok : Bool, failed_local_call_pushes_record (fun _ => True)
          (fun st args nargout nm => set_internal_variable_string st args nargout nm empty_ok))
      ∧ (∀ choices : List String,
          failed_local_call_pushes_record (fun st => valid_choice_index st choices)
            (fun st args nargout nm =>
              set_internal_variable_choice_index st args nargout nm choices))
      ∧ (∀ choices : List String, failed_local_call_pushes_record (fun _ => True)
          (fun st args nargout nm =>
            set_internal_variable_choice_string st args nargout nm choices)) := by
  refine ⟨?_, ?_, fun minval maxval => ?_, fun format_g minval maxval => ?_,
    fun empty_ok => ?_,
    fun choices => ?_, fun choices => ?_⟩
  · intro st saved v marker nargout nm msg
    rw [bool_shape, bool_shape]
    exact shape_failed_local_call id (convert_bool nm) st saved v marker nargout nm msg
  · intro st saved v marker nargout nm msg
    rw [char_shape, char_shape]
    exact shape_failed_local_call id (convert_char nm) st saved v marker nargout nm msg
  · intro st saved v marker nargout nm msg
    beta_reduce
    rw [int_shape, int_shape]
    exact shape_failed_local_call id (convert_int nm minval maxval) st saved v marker nargout
      nm msg
  · intro st saved v marker nargout nm msg
    beta_reduce
    rw [double_shape, double_shape]
    exact shape_failed_local_call id (convert_double format_g nm minval maxval) st saved v marker
      nargout nm msg
  · intro st saved v marker nargout nm msg
    beta_reduce
    rw [string_shape, string_shape]
    exact shape_failed_local_call id (convert_string nm empty_ok) st saved v marker nargout
      nm msg
  · intro st saved v marker nargout nm msg hvalid
    beta_reduce
    have h1 : st.var < choices.length := hvalid.2
    rw [choice_index_shape st [v] nargout nm choices h1 (fun _ => hvalid.1),
      choice_index_shape st [v, marker] nargout nm choices h1 (fun _ => hvalid.1)]
    exact shape_failed_local_call _ (convert_choice_index nm choices) st saved v marker
      nargout nm msg trivial
  · intro st saved v marker nargout nm msg
    beta_reduce
    rw [choice_string_shape, choice_string_shape]
    exact shape_failed_local_call id (convert_choice_string nm choices) st saved v marker
      nargout nm msg

/-- The bounded variable holds 10 inside a function with an empty frame; the call
`("x", "local")` fails, the frame holds the record 10, and the end of the invocation,
here by an error, leaves 10. -/
theorem failed_local_set_pushes_record_witness :
    in_function_variable.frame = some []
      ∧ is_local_marker (octave_value.of_string "local")
      ∧ (set_internal_variable_int in_function_variable [octave_value.of_string "x"] 0
          "debug_level" 0 5).result
          = Except.error "debug_level: argument must be an integer value"
      ∧ (set_internal_variable_int in_function_variable
          [octave_value.of_string "x", octave_value.of_string "local"] 0 "debug_level" 0
          5).state.var = in_function_variable.var
      ∧ (set_internal_variable_int in_function_variable
          [octave_value.of_string "x", octave_value.of_string "local"] 0 "debug_level" 0
          5).state.frame = some [in_function_variable.var]
      ∧ (end_invocation (set_internal_variable_int in_function_variable
          [octave_value.of_string "x", octave_value.of_string "local"] 0 "debug_level" 0
          5).state (Except.error "error: failed" : Except String Unit)).state.var
          = in_function_variable.var :=
  have h := failed_local_set_pushes_record.2.2.1 0 5 in_function_variable []
    (octave_value.of_string "x") (octave_value.of_string "local") 0 "debug_level"
    "debug_level: argument must be an integer value" trivial rfl ⟨rfl, rfl⟩ rfl
  ⟨rfl, ⟨rfl, rfl⟩, rfl, h.2.1, h.2.2.1, h.2.2.2.2.2.2 rfl (Except.error "error: failed")⟩

end Octave
